import Mathlib

/-! mrgsolve: `odeproblem.cpp` and `devtran.cpp`

A shallow embedding of the compartment state (`odeproblem`), the closed-form
solvers (`PolyExp`, `advan2`, `advan4`) and the parts of the simulation driver
(`DEVTRAN`) that the verified properties are about.

Conventions of the embedding

* `double` is an arbitrary linear ordered field `α`; the elementary functions
  `exp` and `trunc` of `<cmath>` are passed as arguments, so that every
  definition is executable on `ℚ` and can be read over `ℝ` with `Real.exp`.
  Where rounding decides, the type `Double` gives the arithmetic of binary64.
* `std::vector<T>` is `List T`; `v[i]` is `v.getD i 0` and `v[i] = x` is
  `v.set i x`.  Out-of-range indexing is undefined in the source, so the
  theorems carry the size facts established by the constructor.
* A member function that may throw returns an `Outcome`: either the state it
  finished with, or the message of the exception together with the state at
  the moment of the throw.
-/

namespace Mrgsolve

/-! ## Results of stateful operations -/

/-- Result of a member function that mutates its object and may throw. -/
inductive Outcome (σ : Type) where
  | done (s : σ) : Outcome σ
  | stop (msg : String) (s : σ) : Outcome σ

namespace Outcome

/-- The state when the call left the function, normally or by a throw. -/
def state {σ : Type} : Outcome σ → σ
  | done s => s
  | stop _ s => s

/-- Whether the call threw. -/
def failed {σ : Type} : Outcome σ → Bool
  | done _ => false
  | stop _ _ => true

/-- The message of the exception, when there is one. -/
def message {σ : Type} : Outcome σ → Option String
  | done _ => none
  | stop m _ => some m

end Outcome

/-! ## Event records (`datarecord`, the fields read by the embedded code) -/

/-- One scheduled event of one subject (`rec_ptr` target). -/
structure datarecord (α : Type) where
  Time : α
  Id : α
  Pos : Int
  Evid : Nat
  Amt : α
  Rate : α
  Ii : α
  Addl : Nat
  Ss : Nat
  Cmt : Int
  Output : Bool
  Fromdata : Bool
  Armed : Bool

/-! ## Compartment state (`odeproblem`) -/

/-- The members of `odeproblem` that the embedded functions read or write. -/
structure odeproblem (α : Type) where
  Neq : Nat
  Npar : Nat
  Advan : Int
  Y : List α
  Init_value : List α
  Init_dummy : List α
  R0 : List α
  infusion_count : List Int
  R : List α
  D : List α
  F : List α
  Alag : List α
  On : List Int
  a : List α
  alpha : List α
  pred : List α
  Capture : List α
  newind : Nat
  time : α
  id : α
  SYSTEMOFF : Nat
  Istate : Int

variable {α : Type}

/-- Sizes given to the member vectors by the constructor
`odeproblem::odeproblem` (`Y.assign(Neq,0.0)`, `R0.assign(Neq,0.0)`, ...). -/
def odeproblem.Sized (p : odeproblem α) : Prop :=
  p.Y.length = p.Neq ∧ p.R0.length = p.Neq ∧ p.infusion_count.length = p.Neq ∧
  p.R.length = p.Neq ∧ p.D.length = p.Neq ∧ p.F.length = p.Neq ∧
  p.Alag.length = p.Neq ∧ p.On.length = p.Neq

section Field

variable [LinearOrderedField α]

/-- `odeproblem::odeproblem`: the state right after construction from the
initial-value vector `init` and `npar` parameters. -/
def odeproblem.construct (npar : Nat) (init : List α) (n_capture : Nat) : odeproblem α :=
  let neq := init.length
  { Neq := neq
    Npar := npar
    Advan := 13
    Y := List.replicate neq 0
    Init_value := init
    Init_dummy := List.replicate neq 0
    R0 := List.replicate neq 0
    infusion_count := List.replicate neq 0
    R := List.replicate neq 0
    D := List.replicate neq 0
    F := List.replicate neq 1
    Alag := List.replicate neq 0
    On := List.replicate neq 1
    a := []
    alpha := []
    pred := List.replicate 5 0
    Capture := List.replicate n_capture 0
    newind := 0
    time := 0
    id := 1
    SYSTEMOFF := 0
    Istate := 1 }

/-- `odeproblem::advan(int x)`: select the solver and size `a`, `alpha`. -/
def odeproblem.advan (p : odeproblem α) (x : Int) : odeproblem α :=
  let p1 := { p with Advan := x }
  if x = 13 then p1
  else
    let p2 := if x = 1 ∨ x = 2 then
        { p1 with a := List.replicate 2 0, alpha := List.replicate 2 0 } else p1
    if x = 3 ∨ x = 4 then
      { p2 with a := List.replicate 3 0, alpha := List.replicate 3 0 }
    else p2

/-- `odeproblem::y_init(int pos, double value)`: assign both the compartment
and the vectors of initial conditions. -/
def odeproblem.y_init (p : odeproblem α) (pos : Nat) (value : α) : odeproblem α :=
  { p with
    Y := p.Y.set pos value
    Init_value := p.Init_value.set pos value
    Init_dummy := p.Init_dummy.set pos value }

/-! ## `PolyExp` -/

/-- The loop `for(i=0;i<n;++i) result += f(i);` started from `result = 0`. -/
def forSum (n : Nat) (f : Nat → α) : α :=
  (List.range n).foldl (fun result i => result + f i) 0

/-- `PolyExp` of `odeproblem.cpp`.  The `Rcpp::stop` of the repeated-dosing
and steady-state infusion branches is the `Except.error` result. -/
def PolyExp (exp trunc : α → α) (x dose rate xinf tau : α) (ss : Bool)
    (a alpha : List α) (n : Nat) : Except String α :=
  let inf : α := 1000000000
  let A : Nat → α := fun i => a.getD i 0
  let L : Nat → α := fun i => alpha.getD i 0
  -- UPDATE DOSE
  let result : α :=
    if dose > 0 then
      if tau ≤ 0 ∧ x ≥ 0 then
        forSum n (fun i => A i * exp (-L i * x))
      else if !ss then
        let nlntv := x / tau + 1
        forSum n (fun i =>
          A i * exp (-L i * x) * (1 - exp (-nlntv * L i * tau)) / (1 - exp (-L i * tau)))
      else
        forSum n (fun i => A i * exp (-L i * x) / (1 - exp (-L i * tau)))
    else 0
  let bolusResult := dose * result
  -- UPDATE RATE
  let rateResult : Except String α :=
    if rate > 0 ∧ xinf < inf then
      if tau ≤ 0 then
        if x ≥ 0 then
          if x ≤ xinf then
            .ok (forSum n (fun i => A i * (1 - exp (-L i * x)) / L i))
          else
            .ok (forSum n (fun i =>
              A i * (1 - exp (-L i * xinf)) * exp (-L i * (x - xinf)) / L i))
        else .ok 0
      else if !ss then
        if xinf ≤ tau then .error "xinf <= tau in PolyExp"
        else
          let dx := x - trunc (x / tau) * tau
          let nlntv := trunc (x / tau) + 1
          if dx ≤ xinf then
            .ok (forSum n (fun i =>
              (if n > 1 then
                A i * (1 - exp (-L i * xinf)) * exp (-L i * (dx - xinf + tau))
                  * (1 - exp (-(nlntv - 1) * L i * tau)) / (1 - exp (-L i * tau)) / L i
               else 0)
              + A i * (1 - exp (-L i * dx)) / L i))
          else
            .ok (forSum n (fun i =>
              A i * (1 - exp (-L i * xinf)) * exp (-L i * (dx - xinf))
                * (1 - exp (-nlntv * L i * tau)) / (1 - exp (-L i * tau)) / L i))
      else
        if xinf ≤ tau then .error "xinf <= tau in PolyExp"
        else
          let dx := x - trunc (x / tau) * tau
          if dx ≤ xinf then
            .ok (forSum n (fun i =>
              A i * (1 - exp (-L i * xinf)) * exp (-L i * (dx - xinf + tau))
                / (1 - exp (-L i * tau)) / L i
              + A i * (1 - exp (-L i * dx)) / L i))
          else
            .ok (forSum n (fun i =>
              A i * (1 - exp (-L i * xinf)) * exp (-L i * (dx - xinf))
                / (1 - exp (-L i * tau)) / L i))
    else
      if !ss then
        if x ≥ 0 then .ok (forSum n (fun i => A i * (1 - exp (-L i * x)) / L i))
        else .ok 0
      else .ok (forSum n (fun i => A i / L i))
  match rateResult with
  | .error e => .error e
  | .ok r => .ok (bolusResult + rate * r)

/-! ## `advan2` -/

/-- Values of the macros `MRGSOLVE_GET_PRED_CL`, `MRGSOLVE_GET_PRED_VC`, ...
(defined in a header that is not part of the embedded sources).  Each macro
is an expression over the member vector `pred`, hence a function of it. -/
structure PredMacros (α : Type) where
  CL : List α → α
  VC : List α → α
  KA : List α → α
  Q : List α → α
  VP : List α → α
  K10 : List α → α
  K12 : List α → α
  K21 : List α → α

/-- Modelled from the spec: the accessor `odeproblem::y(pos)` of the amount
vector ("amount vector Y (one per compartment)"), declared in a header that
is not part of the embedded sources. -/
def odeproblem.y (p : odeproblem α) (pos : Nat) : α := p.Y.getD pos 0

/-- Modelled from the spec: the setter `odeproblem::y(pos, value)` of the
amount vector, declared in a header that is not part of the embedded
sources. -/
def odeproblem.y_set (p : odeproblem α) (pos : Nat) (value : α) : odeproblem α :=
  { p with Y := p.Y.set pos value }

/-- The absorption-compartment block of `advan2` (`if(Neq==2) {...}`):
returns `(pred0, pred1)`. -/
def advan2_depot (exp trunc : α → α) (Neq : Nat) (R0 a alpha : List α)
    (dt init0 ka : α) : Except String (α × α) :=
  if Neq = 2 then
    if init0 ≠ 0 ∨ R0.getD 0 0 ≠ 0 then
      let pred0 := init0 * exp (-ka * dt)
      if ka > 0 then
        match PolyExp exp trunc dt init0 0 0 0 false a alpha 2,
              PolyExp exp trunc dt 0 (R0.getD 0 0) dt 0 false a alpha 2 with
        | .ok u, .ok v => .ok (pred0 + R0.getD 0 0 * (1 - exp (-ka * dt)) / ka, 0 + (u + v))
        | .error e, _ => .error e
        | _, .error e => .error e
      else .ok (pred0 + R0.getD 0 0 * dt, 0)
    else .ok (0, 0)
  else .ok (0, 0)

/-- `odeproblem::advan2(tfrom, tto)`. -/
def odeproblem.advan2 (exp trunc : α → α) (M : PredMacros α) (p : odeproblem α)
    (tfrom tto : α) : Outcome (odeproblem α) :=
  let dt := tto - tfrom
  if M.CL p.pred ≤ 0 then .stop "pred_CL has a 0 or negative value." p
  else if M.VC p.pred ≤ 0 then .stop "pred_VC has a 0 or negative value." p
  else
    let k10 := M.K10 p.pred
    let ka := M.KA p.pred
    if k10 ≤ 0 then .stop "k10 has a 0 or negative value" p
    else
      -- a and alpha are private members
      let alpha1 := (p.alpha.set 0 k10).set 1 ka
      let a0 := p.a.set 0 (ka / (ka - alpha1.getD 0 0))
      let a1 := a0.set 1 (-(a0.getD 0 0))
      let p1 := { p with a := a1, alpha := alpha1 }
      let init0 : α := if p.Neq = 2 then p.y 0 else 0
      let init1 : α := if p.Neq = 2 then p.y 1 else if p.Neq = 1 then p.y 0 else 0
      let eqoffset : Nat := if p.Neq = 1 then 1 else 0
      match advan2_depot exp trunc p.Neq p.R0 a1 alpha1 dt init0 ka with
      | .error e => .stop e p1
      | .ok (pred0, pred1) =>
        if init1 ≠ 0 ∨ p.R0.getD (1 - eqoffset) 0 ≠ 0 then
          let a2 := a1.set 0 1
          let p2 := { p1 with a := a2 }
          match PolyExp exp trunc dt init1 0 0 0 false a2 alpha1 1,
                PolyExp exp trunc dt 0 (p.R0.getD (1 - eqoffset) 0) dt 0 false a2 alpha1 1 with
          | .ok u, .ok v =>
            let pred1 := pred1 + (u + v)
            if p.Neq = 2 then .done ((p2.y_set 0 pred0).y_set 1 pred1)
            else if p.Neq = 1 then .done (p2.y_set 0 pred1)
            else .done p2
          | .error e, _ => .stop e p2
          | _, .error e => .stop e p2
        else
          if p.Neq = 2 then .done ((p1.y_set 0 pred0).y_set 1 pred1)
          else if p.Neq = 1 then .done (p1.y_set 0 pred1)
          else .done p1

/-! ## Infusion bookkeeping -/

/-- `odeproblem::rate_add(pos, value)`. -/
def odeproblem.rate_add (p : odeproblem α) (pos : Nat) (value : α) : odeproblem α :=
  { p with
    infusion_count := p.infusion_count.set pos (p.infusion_count.getD pos 0 + 1)
    R0 := p.R0.set pos (p.R0.getD pos 0 + value) }

/-- `odeproblem::rate_rm(pos, value)`. -/
def odeproblem.rate_rm (p : odeproblem α) (pos : Nat) (value : α) : odeproblem α :=
  if p.infusion_count.getD pos 0 ≤ 0 then
    { p with
      infusion_count := p.infusion_count.set pos 0
      R0 := p.R0.set pos 0 }
  else
    let r := p.R0.getD pos 0 - value
    { p with
      infusion_count := p.infusion_count.set pos (p.infusion_count.getD pos 0 - 1)
      R0 := p.R0.set pos (if r < 0 then 0 else r) }

/-- A call of `rate_add` or of `rate_rm` on one compartment. -/
inductive RateCall (α : Type) where
  | add (value : α) : RateCall α
  | rm (value : α) : RateCall α

/-- Perform one call on compartment `pos`. -/
def RateCall.run (pos : Nat) (p : odeproblem α) : RateCall α → odeproblem α
  | .add v => p.rate_add pos v
  | .rm v => p.rate_rm pos v

/-- Perform a sequence of calls on compartment `pos`, first call first. -/
def runRateCalls (pos : Nat) (p : odeproblem α) (cs : List (RateCall α)) : odeproblem α :=
  cs.foldl (RateCall.run pos) p

/-- The values added and not yet removed, after the calls `cs` started with
the open values `o` (this follows the wording of the property, not the code). -/
def openRates (o : List α) : List (RateCall α) → List α
  | [] => o
  | .add v :: cs => openRates (v :: o) cs
  | .rm v :: cs => openRates (o.erase v) cs

/-- Every added value is non-negative and every `rate_rm` removes a value
that was added earlier and is not yet removed. -/
def Admissible (o : List α) : List (RateCall α) → Prop
  | [] => True
  | .add v :: cs => 0 ≤ v ∧ Admissible (v :: o) cs
  | .rm v :: cs => v ∈ o ∧ Admissible (o.erase v) cs

/-- The bookkeeping invariant of one compartment: `R0[pos]` is the sum of the
open values, `infusion_count[pos]` their number, and all of them are
non-negative. -/
def RateInv (pos : Nat) (o : List α) (p : odeproblem α) : Prop :=
  pos < p.R0.length ∧ pos < p.infusion_count.length ∧
  p.R0.getD pos 0 = o.sum ∧ p.infusion_count.getD pos 0 = (o.length : Int) ∧
  ∀ v ∈ o, 0 ≤ v

/-! ## Compartment switches and rate resolution -/

/-- `odeproblem::off(eq_n)`. -/
def odeproblem.off (p : odeproblem α) (eq_n : Nat) : Outcome (odeproblem α) :=
  if p.infusion_count.getD eq_n 0 > 0 then
    .stop "attempting to turn compartment off when infusion is on." p
  else
    .done ({ p with On := p.On.set eq_n 0 }.y_set eq_n 0)

/-- `odeproblem::on(eq_n)`. -/
def odeproblem.on (p : odeproblem α) (eq_n : Nat) : odeproblem α :=
  { p with On := p.On.set eq_n 1 }

/-- Element `v[i]` of a vector indexed by a C `int`.  Reading outside the
vector is undefined in the source; the value `0` given here is never relied
on, the theorems are stated for indices inside the vector. -/
def vecGet (v : List α) (i : Int) : α :=
  if i < 0 then 0 else v.getD i.toNat 0

/-- Bounds-checked element `v.at(i)` of a vector indexed by a C `int`: a
negative or too large index throws (`std::out_of_range` for `std::vector`,
`Rcpp::index_out_of_bounds` for an Rcpp vector; one message stands for
both). -/
def vecAt {β : Type} (v : List β) (i : Int) : Except String β :=
  if i < 0 then .error "std::out_of_range"
  else match v[i.toNat]? with
    | some x => .ok x
    | none => .error "std::out_of_range"

/-- `odeproblem::fbio(pos)`. -/
def odeproblem.fbio (p : odeproblem α) (pos : Int) : Except String α :=
  if p.Neq = 0 then .ok 1 else vecAt p.F pos

/-- `odeproblem::alag(cmt)`. -/
def odeproblem.alag (p : odeproblem α) (cmt : Int) : Except String α :=
  if p.Neq = 0 then .ok 0 else vecAt p.Alag cmt

/-- Modelled from the spec: the accessor `odeproblem::rate(pos)` of the model
infusion-rate vector `R` ("use model rate"), declared in a header that is not
part of the embedded sources. -/
def odeproblem.rate (p : odeproblem α) (pos : Int) : α := vecGet p.R pos

/-- Modelled from the spec: the accessor `odeproblem::dur(pos)` of the model
infusion-duration vector `D` ("use model duration"), declared in a header
that is not part of the embedded sources. -/
def odeproblem.dur (p : odeproblem α) (pos : Int) : α := vecGet p.D pos

/-- Modelled from the spec: `datarecord::cmtn()`, the zero-based index of the
compartment of a record; the record carries a "signed compartment number
(sign encodes on/off directive)" counted from one, and the class
`datarecord` is not part of the embedded sources. -/
def datarecord.cmtn (r : datarecord α) : Int := |r.Cmt| - 1

/-- `odeproblem::rate_main(rec)`: resolve the rate sentinels `-1` and `-2` of
a record.  The record is mutated through its pointer, so the outcome carries
the record; the messages are the format strings of the source. -/
def odeproblem.rate_main (p : odeproblem α) (rec : datarecord α) : Outcome (datarecord α) :=
  let first : Outcome (datarecord α) :=
    if rec.Rate = -1 then
      if p.rate rec.cmtn ≤ 0 then .stop "invalid infusion rate \n R_CMT: %d" rec
      else .done { rec with Rate := p.rate rec.cmtn }
    else .done rec
  match first with
  | .stop msg r => .stop msg r
  | .done rec1 =>
    if rec1.Rate = -2 then
      if p.dur rec1.cmtn ≤ 0 then .stop "invalid infusion duration \n D_CMT: %d" rec1
      else
        match p.fbio rec1.cmtn with
        | .error e => .stop e rec1
        | .ok f => .done { rec1 with Rate := rec1.Amt * f / p.dur rec1.cmtn }
    else .done rec1

/-- A dose record read from the input data: armed, from the data set. -/
def inputDose (time amt rate : α) (cmt : Int) : datarecord α :=
  { Time := time, Id := 1, Pos := 0, Evid := 1, Amt := amt, Rate := rate, Ii := 0,
    Addl := 0, Ss := 0, Cmt := cmt, Output := false, Fromdata := true, Armed := true }

/-- A problem with one compartment whose model infusion rate is `5`, model
infusion duration `2`, bioavailability `1` and absorption lag `lag`. -/
def modelRateProblem (lag : α) : odeproblem α :=
  { (odeproblem.construct 0 [(0 : α)] 0) with R := [5], D := [2], Alag := [lag] }

/-! ## The driver `DEVTRAN`: dose records taken from the data -/

/-- The macro `__ALAG_POS` of `devtran.cpp`. -/
def ALAG_POS : Int := -1200

/-- Modelled from the spec: `datarecord::unarm()`; it clears the "armed" flag
of a record, so that the record no longer materialises its effect (the class
`datarecord` is not part of the embedded sources). -/
def datarecord.unarm (r : datarecord α) : datarecord α := { r with Armed := false }

/-- Modelled from the spec: `datarecord::phantom_rec()`; it marks a record as
a phantom, "a synthetic EventRecord not originating from user input", which
is neither written to the output nor treated as a row of the data set. -/
def datarecord.phantom_rec (r : datarecord α) : datarecord α :=
  { r with Output := false, Fromdata := false }

/-- Modelled from the spec: the records appended by `datarecord::schedule`
for a dose with `addl` additional doses, at the "candidate repeat times
`t+ii, t+2·ii, …` for `addl` repeats, each inheriting the originating
dose's amount/rate/compartment but flagged non-output". -/
def datarecord.addl_doses (r : datarecord α) : List (datarecord α) :=
  (List.range r.Addl).map fun k =>
    { r with Time := r.Time + ((k : α) + 1) * r.Ii, Addl := 0, Ss := 0,
             Output := false, Fromdata := false }

/-- Modelled from the spec: `datarecord::schedule(thisi, maxtime,
addl_ev_first, Fn)`, the expansion of the additional doses of a record into
the sequence `thisi` of its subject; a record with `addl = 0` adds nothing
("no spurious records").  The spec does not say what the function does with
`maxtime` and `addl_ev_first`, and this reading leaves them out; the driver
(`DEVTRAN_from_data`) takes the function as a parameter. -/
def datarecord.schedule (r : datarecord α) (thisi : List (datarecord α)) (_maxtime : α)
    (_addl_ev_first : Bool) (_Fn : α) : List (datarecord α) :=
  thisi ++ r.addl_doses

/-- Modelled from the spec: `datarecord::needs_sorting()`, the predicate
"requires chronological re-sort after insertion": the record appended
additional doses. -/
def datarecord.needs_sorting (r : datarecord α) : Bool := decide (0 < r.Addl)

/-- What the block `if(this_rec->from_data()) {...}` of the record loop works
on: the problem, the start `tfrom` of the next advance, the sequence `a[i]`
of the subject (whose entry `j` is `this_rec`) and the flag `sort_recs`. -/
structure DoseBlock (α : Type) where
  prob : odeproblem α
  tfrom : α
  recs : List (datarecord α)
  sort_recs : Bool

/-- Lines 491-518 of `devtran.cpp`, the block `if(this_rec->from_data())`,
which the record loop runs for a record `this_rec = a[i][j]` that is an event
(`is_event()`), after `Fn = prob->fbio(this_cmtn)` was found non-negative.
`steady` stands for `datarecord::steady(prob, Fn)`, which advances the
problem to steady state, and `schedule r thisi maxtime addl_ev_first Fn` for
`r->schedule(thisi, maxtime, addl_ev_first, Fn)`, which returns the sequence
`thisi` with the additional doses of `r`; neither is part of the embedded
sources (`datarecord.schedule` is the reading of the spec).  Records are
shared pointers in the source: the mutations of `this_rec` are written back
to entry `j` of the sequence. -/
def DEVTRAN_from_data
    (schedule : datarecord α → List (datarecord α) → α → Bool → α → List (datarecord α))
    (steady : datarecord α → odeproblem α → α → odeproblem α)
    (mindt maxtime : α) (addl_ev_first : Bool) (Fn tto : α) (j : Nat)
    (this_rec : datarecord α) (st : DoseBlock α) : Except String (DoseBlock α) :=
  let this_cmtn := this_rec.cmtn
  if this_rec.Fromdata then
    match (if this_rec.Rate < 0 then st.prob.rate_main this_rec else .done this_rec) with
    | .stop msg _ => .error msg
    | .done rec1 =>
      match st.prob.alag this_cmtn with
      | .error e => .error e
      | .ok lag =>
        if lag > mindt then
          -- there is a valid lagtime
          let prob1 := if rec1.Ss > 0 then steady rec1 st.prob Fn else st.prob
          let tfrom1 := if rec1.Ss > 0 then tto else st.tfrom
          match prob1.alag this_cmtn with
          | .error e => .error e
          | .ok lag1 =>
            let newev : datarecord α :=
              { ({ rec1 with Pos := ALAG_POS }).phantom_rec with
                Time := rec1.Time + lag1, Ss := 0 }
            let a1 := st.recs.set j rec1
            let a2 := a1.take (j + 1) ++ newev :: a1.drop (j + 1)
            let a3 := schedule newev a2 maxtime addl_ev_first Fn
            .ok { prob := prob1, tfrom := tfrom1, recs := a3.set j rec1.unarm,
                  sort_recs := true }
        else
          -- no valid lagtime
          let a1 := st.recs.set j rec1
          .ok { st with recs := schedule rec1 a1 maxtime addl_ev_first Fn,
                        sort_recs := rec1.needs_sorting }
  else .ok { st with sort_recs := false }

/-- The record `NEWREC(cmt, evid, amt, time, rate, pos, id)` (the constructor
is not part of the embedded sources; the record is armed and synthetic). -/
def eventRecordAt (cmt : Int) (evid : Nat) (amt time rate : α) (pos : Int) (id_ : α) :
    datarecord α :=
  { Time := time, Id := id_, Pos := pos, Evid := evid, Amt := amt, Rate := rate, Ii := 0,
    Addl := 0, Ss := 0, Cmt := cmt, Output := false, Fromdata := false, Armed := true }

/-- Lines 521-536 of `devtran.cpp`: a record that is an infusion and is armed
gets its end-of-infusion record (event kind 9) appended to the sequence.
`int_infusion` is `datarecord::int_infusion()` and `dur` is
`datarecord::dur(Fn)`; neither is part of the embedded sources. -/
def DEVTRAN_infusion_off (int_infusion : datarecord α → Bool)
    (dur : datarecord α → α → α) (Fn : α) (this_rec : datarecord α) (st : DoseBlock α) :
    Except String (DoseBlock α) :=
  if int_infusion this_rec = true ∧ this_rec.Armed = true then
    let evoff := eventRecordAt this_rec.Cmt 9 this_rec.Amt (this_rec.Time + dur this_rec Fn)
      this_rec.Rate (-299) this_rec.Id
    if this_rec.Fromdata then
      match st.prob.alag this_rec.cmtn with
      | .error e => .error e
      | .ok lag =>
        .ok { st with recs := st.recs ++ [{ evoff with Time := evoff.Time + lag }],
                      sort_recs := true }
    else .ok { st with recs := st.recs ++ [evoff], sort_recs := true }
  else .ok st

/-- Modelled from the spec: `datarecord::implement(prob)`, which applies "the
event's direct effect" to the compartments.  For a record whose "armed" flag
is cleared "the original's immediate state-mutation is suppressed": the
problem is left as it is.  `effect` stands for the mutation by an armed
record (amount add, infusion-rate add/remove, reset, on/off toggle); the
class `datarecord` is not part of the embedded sources. -/
def datarecord.implement
    (effect : datarecord α → odeproblem α → Except String (odeproblem α))
    (r : datarecord α) (p : odeproblem α) : Except String (odeproblem α) :=
  if r.Armed then effect r p else .ok p

/-- Lines 554-556: `if(this_rec->evid() != 2) this_rec->implement(prob)`. -/
def DEVTRAN_implement
    (effect : datarecord α → odeproblem α → Except String (odeproblem α))
    (this_rec : datarecord α) (p : odeproblem α) : Except String (odeproblem α) :=
  if this_rec.Evid ≠ 2 then this_rec.implement effect p else .ok p

/-- Modelled from the spec: a stand-in for `datarecord::steady(prob, Fn)`, the
"steady-state pre-equilibration" of a dose with `ss > 0`, which is not part
of the embedded sources.  The equilibrium that it leaves in the compartment
of the dose is taken to be the amount `amt * Fn` of one dose, as for a
regimen whose doses are eliminated completely within the interdose
interval. -/
def steadyOneDose (r : datarecord α) (p : odeproblem α) (Fn : α) : odeproblem α :=
  { p with Y := p.Y.set r.cmtn.toNat (r.Amt * Fn) }

/-! ## The driver `DEVTRAN`: time after dose -/

/-- Modelled from the spec: `datarecord::is_event()`, the predicate "is a
dosing event" vs "is observation"; an observation has event kind `0` (the
class `datarecord` is not part of the embedded sources). -/
def datarecord.is_event (r : datarecord α) : Bool := decide (r.Evid ≠ 0)

/-- The variables of the record loop that determine the `tad` column. -/
structure TadState (α : Type) where
  tfrom : α
  told : α

/-- One pass of the record loop of `DEVTRAN`, restricted to the statements
that determine the time after dose: lines 458-464 (`tto`, floored to
`tfrom` when the relative step is below `mindt`), 543-549 (update of
`told`), 596-601 (the value written to column 2 of an output row) and 615.
`lag` is `prob->alag(this_cmtn)` when the record is processed and
`this_rec.Armed` is the flag when line 545 is reached. -/
def DEVTRAN_tad_record (tad : Bool) (mindt tofd_i lag : α) (this_rec : datarecord α)
    (st : TadState α) : TadState α × Option α :=
  let tto0 := this_rec.Time
  let dt := (tto0 - st.tfrom) / (if st.tfrom = 0 then 1 else st.tfrom)
  let tto := if dt > 0 ∧ dt < mindt then st.tfrom else tto0
  let told :=
    if this_rec.is_event = true ∧ tad = true ∧ this_rec.Evid = 1 ∧ this_rec.Armed = true then
      tto - lag
    else st.told
  let out : Option α :=
    if this_rec.Output = true ∧ tad = true then
      some (if told > -1 then tto - told else tto - tofd_i)
    else none
  ({ tfrom := tto, told := told }, out)

/-- The `tad` values written for the records of one subject, in order; each
record comes with the lag of its compartment at the time it is processed. -/
def DEVTRAN_tad_rows (tad : Bool) (mindt tofd_i : α) :
    TadState α → List (datarecord α × α) → List α
  | _, [] => []
  | st, (r, lag) :: rest =>
    match DEVTRAN_tad_record tad mindt tofd_i lag r st with
    | (st1, some v) => v :: DEVTRAN_tad_rows tad mindt tofd_i st1 rest
    | (st1, none) => DEVTRAN_tad_rows tad mindt tofd_i st1 rest

/-- The `tad` column of one subject: lines 379 and 383 start the loop with
`told = -1` and `tfrom` the time of the first record. -/
def DEVTRAN_tad_subject (tad : Bool) (mindt tofd_i : α) (recs : List (datarecord α × α)) :
    List α :=
  match recs with
  | [] => []
  | (r, _) :: _ => DEVTRAN_tad_rows tad mindt tofd_i { tfrom := r.Time, told := -1 } recs

/-- An observation record that is written to the output. -/
def observation (time : α) : datarecord α :=
  { Time := time, Id := 1, Pos := 0, Evid := 0, Amt := 0, Rate := 0, Ii := 0,
    Addl := 0, Ss := 0, Cmt := 0, Output := true, Fromdata := true, Armed := true }

/-! ## The driver `DEVTRAN`: the soft-stop branch of the record loop -/

/-- Modelled from the spec: `odeproblem::lsoda_init()`, which resets the
"solver-internal status" for a new individual (declared in a header that is
not part of the embedded sources). -/
def odeproblem.lsoda_init (p : odeproblem α) : odeproblem α := { p with Istate := 1 }

/-- `odeproblem::reset_newid(id_)`. -/
def odeproblem.reset_newid (p : odeproblem α) (id_ : α) : odeproblem α :=
  let p1 := (List.range p.Neq).foldl (fun q i =>
    { q with
      R0 := q.R0.set i 0
      R := q.R.set i 0
      D := q.D.set i 0
      infusion_count := q.infusion_count.set i 0
      On := q.On.set i 1
      F := q.F.set i 1
      Alag := q.Alag.set i 0 }) p
  let p2 := { p1 with newind := 1, time := 0, SYSTEMOFF := 0 }
  { p2.lsoda_init with id := id_ }

/-- The result matrix `ans` (`Rcpp::NumericMatrix`); the entry `none` is the
missing-value sentinel `NA_REAL`. -/
structure NumericMatrix (α : Type) where
  nrow : Nat
  ncol : Nat
  cell : Nat → Nat → Option α

/-- The assignment `ans(i,k) = v`. -/
def NumericMatrix.assign (m : NumericMatrix α) (i k : Nat) (v : Option α) : NumericMatrix α :=
  { m with cell := fun i1 k1 => if i1 = i ∧ k1 = k then v else m.cell i1 k1 }

/-- The matrix `Rcpp::NumericMatrix ans(NN, n_out_col)`, filled with zeros. -/
def NumericMatrix.zeros (nn n_out_col : Nat) : NumericMatrix α :=
  { nrow := nn, ncol := n_out_col, cell := fun _ _ => some 0 }

/-- The layout of the result matrix and the requested items. -/
structure OutputLayout where
  n_capture : Nat
  nreq : Nat
  capture_start : Nat
  req_start : Nat
  capture : List Nat
  request : List Nat

/-- The variables of the record loop that the soft-stop branch works on. -/
structure LoopState (α : Type) where
  prob : odeproblem α
  ans : NumericMatrix α
  crow : Nat

/-- Lines 425-447 of `devtran.cpp`: the body of `if(prob->systemoff())`,
which ends with `continue`.  `status` is an `unsigned short int`: the
conversion of `prob->systemoff()` is the remainder modulo `65536`. -/
def DEVTRAN_systemoff (lay : OutputLayout) (id : α) (this_rec : datarecord α)
    (st : LoopState α) : Except String (LoopState α) :=
  let status := st.prob.SYSTEMOFF % 65536
  if status = 9 then .error "the problem was stopped at user request."
  else if status = 999 then .error "999 sent from the model"
  else if this_rec.Output then
    if status = 1 then
      let ans1 := (st.ans.assign st.crow 0 (some id)).assign st.crow 1 (some this_rec.Time)
      let ans2 := (List.range lay.n_capture).foldl (fun m k =>
        m.assign st.crow (k + lay.capture_start)
          (some (st.prob.Capture.getD (lay.capture.getD (k + 1) 0) 0))) ans1
      let ans3 := (List.range lay.nreq).foldl (fun m k =>
        m.assign st.crow (k + lay.req_start) (some (st.prob.y (lay.request.getD k 0)))) ans2
      .ok { st with ans := ans3, crow := st.crow + 1 }
    else
      let ans1 := (List.range st.ans.ncol).foldl (fun m k => m.assign st.crow k none) st.ans
      .ok { st with ans := ans1, crow := st.crow + 1 }
  else .ok st

/-- One pass of the record loop (line 415 onwards): the pass is skipped when
`crow == NN`, takes the soft-stop branch when `prob->systemoff()` is
non-zero, and otherwise runs `body`, the remainder of the loop body (which
calls the model and the solver). -/
def DEVTRAN_record (body : datarecord α → LoopState α → Except String (LoopState α))
    (lay : OutputLayout) (nn : Nat) (id : α) (this_rec : datarecord α)
    (st : LoopState α) : Except String (LoopState α) :=
  if st.crow = nn then .ok st
  else if st.prob.SYSTEMOFF ≠ 0 then DEVTRAN_systemoff lay id this_rec st
  else body this_rec st

/-- The record loop over the records `recs` of a subject that are still to
be processed.  Records that `body` inserts into the sequence are not
followed: the function describes the loop in the soft-stop state, in which
`body` is not run and the sequence does not change. -/
def DEVTRAN_records (body : datarecord α → LoopState α → Except String (LoopState α))
    (lay : OutputLayout) (nn : Nat) (id : α) :
    List (datarecord α) → LoopState α → Except String (LoopState α)
  | [], st => .ok st
  | r :: rest, st =>
    match DEVTRAN_record body lay nn id r st with
    | .error e => .error e
    | .ok st1 => DEVTRAN_records body lay nn id rest st1

/-- Number of records flagged for output. -/
def outputCount (recs : List (datarecord α)) : Nat :=
  (recs.filter fun r => r.Output).length

/-- A one-compartment problem on which the model has raised the soft-stop
signal `2`. -/
def softStopProblem : odeproblem α :=
  { (odeproblem.construct 0 [(0 : α)] 0) with SYSTEMOFF := 2 }

/-- A layout with the columns id, time, one requested compartment. -/
def smallLayout : OutputLayout :=
  { n_capture := 0, nreq := 1, capture_start := 3, req_start := 2, capture := [0],
    request := [0] }

/-! ## The driver `DEVTRAN`: setup -/

/-- How a part of the driver ends: with a value, with a fatal error (`CRUMP`,
`Rcpp::stop` or a C++ exception such as `std::out_of_range`), or in a state
the language leaves undefined (an unchecked `operator[]` out of range). -/
inductive Run (β : Type) where
  | value (b : β) : Run β
  | fatal (msg : String) : Run β
  | undefined : Run β

/-- Lines 116-136: the switch on `recsort`; the result is
`(put_ev_first, addl_ev_first)`. -/
def DEVTRAN_recsort (recsort : Int) : Except String (Bool × Bool) :=
  if recsort = 1 then .ok (false, true)
  else if recsort = 2 then .ok (false, false)
  else if recsort = 3 then .ok (true, true)
  else if recsort = 4 then .ok (true, false)
  else .error "recsort must be 1, 2, 3, or 4."

/-- Lines 181-199: the table `tofd` of the time of the first dose. -/
def DEVTRAN_tofd (tad : Bool) (a : List (List (datarecord α))) : Except String (List α) :=
  if tad then
    let found := a.filterMap fun recs => (recs.find? fun r => r.Evid = 1).map fun r => r.Time
    let tofd := if found.length = 0 then List.replicate a.length 0 else found
    if tofd.length ≠ a.length then .error "There was a problem finding time of first dose."
    else .ok tofd
  else .ok []

/-- The observation record `NEWREC(time, pos, true)` built for a time of the
grid (the constructor is not part of the embedded sources: an observation
has event kind `0`, and the third argument is the output flag). -/
def gridRecord (time : α) (pos : Int) : datarecord α :=
  { Time := time, Id := 0, Pos := pos, Evid := 0, Amt := 0, Rate := 0, Ii := 0,
    Addl := 0, Ss := 0, Cmt := 0, Output := true, Fromdata := false, Armed := false }

/-- The options and data that the setup part of `DEVTRAN` reads.  `a`,
`obscount`, `evcount` are the results of `dat.get_records`, and
`idata_row i` is `idat.get_idata_row(dat.get_uid(i))`, both computed by the
class `dataobject`, which is not part of the embedded sources. -/
structure SetupInput (α : Type) where
  recsort : Int
  tad : Bool
  obsonly : Bool
  obsaug : Bool
  data_nrow : Nat
  idata_nrow : Nat
  NID : Nat
  a : List (List (datarecord α))
  obscount : Nat
  evcount : Nat
  tgrid_nrow : Nat
  tgrid_ncol : Nat
  tgrid : Nat → Nat → α
  tgrid_na : Nat → Nat → Bool
  whichtg : List Int
  idata_row : Nat → Int
  n_tran_carry : Nat
  n_data_carry : Nat
  n_idata_carry : Nat
  nreq : Nat
  n_capture : Nat

/-- `max(tgridi)` of Rcpp sugar; `none` for an empty vector. -/
def intMax : List Int → Option Int
  | [] => none
  | x :: xs => some (xs.foldl max x)

/-- Element `v[i]` read with the unchecked `operator[]`: `none` when the
index is outside the vector, where the behaviour is undefined. -/
def vecIdx {β : Type} (v : List β) (i : Int) : Option β :=
  if i < 0 then none else v[i.toNat]?

/-- Lines 261-268: the number `n` of grid times of a subject, read with the
bounds-checked `at`. -/
def DEVTRAN_grid_n (multiple_tgrid : Bool) (tgridi : List Int) (tgridn : List Nat)
    (j : Int) : Except String Nat :=
  if multiple_tgrid then
    match vecAt tgridi j with
    | .error e => .error e
    | .ok d => vecAt tgridn d
  else vecAt tgridn 0

/-- Lines 271-274: the loop `it->push_back(designs[tgridi[j]][h])` for
`h < n`, all indices read with the unchecked `operator[]`. -/
def DEVTRAN_grid_push (tgridi : List Int) (designs : List (List (datarecord α)))
    (j : Int) (n : Nat) (recs : List (datarecord α)) : Run (List (datarecord α)) :=
  if n = 0 then .value recs
  else
    match vecIdx tgridi j with
    | none => .undefined
    | some d =>
      match vecIdx designs d with
      | none => .undefined
      | some z => if z.length < n then .undefined else .value (recs ++ z.take n)

/-- Lines 260-276 for one subject: the number `n` of grid times, the loop
that appends the grid records, and the sort.  `idx` is the position
`it - a.begin()` of the subject. -/
def DEVTRAN_grid_subject (sortRecs : List (datarecord α) → List (datarecord α))
    (multiple_tgrid : Bool) (tgridi : List Int) (tgridn : List Nat)
    (designs : List (List (datarecord α))) (idata_row : Nat → Int) (idx : Nat)
    (recs : List (datarecord α)) : Run (List (datarecord α) × Nat) :=
  let j : Int := if multiple_tgrid then idata_row idx else 0
  match DEVTRAN_grid_n multiple_tgrid tgridi tgridn j with
  | .error e => .fatal e
  | .ok n =>
    match DEVTRAN_grid_push tgridi designs j n recs with
    | .fatal e => .fatal e
    | .undefined => .undefined
    | .value recs1 => .value (sortRecs recs1, n)

/-- The loop of lines 260-276 over the subjects `a[idx], a[idx+1], ...`. -/
def DEVTRAN_grid_subjects (sortRecs : List (datarecord α) → List (datarecord α))
    (multiple_tgrid : Bool) (tgridi : List Int) (tgridn : List Nat)
    (designs : List (List (datarecord α))) (idata_row : Nat → Int) :
    Nat → List (List (datarecord α)) → Nat → Run (List (List (datarecord α)) × Nat)
  | _, [], obscount => .value ([], obscount)
  | idx, recs :: rest, obscount =>
    match DEVTRAN_grid_subject sortRecs multiple_tgrid tgridi tgridn designs idata_row idx
        recs with
    | .fatal e => .fatal e
    | .undefined => .undefined
    | .value (recs1, n) =>
      match DEVTRAN_grid_subjects sortRecs multiple_tgrid tgridi tgridn designs idata_row
          (idx + 1) rest (obscount + n) with
      | .fatal e => .fatal e
      | .undefined => .undefined
      | .value (rest1, oc) => .value (recs1 :: rest1, oc)

/-- Lines 204-277: the merge of the observation grid into the sequences of
the subjects; the result is the new `a` and the new `obscount`.  `sortRecs`
is `std::sort` with the comparator `CompRec`, which is not part of the
embedded sources. -/
def DEVTRAN_grid (sortRecs : List (datarecord α) → List (datarecord α))
    (inp : SetupInput α) (obsaug : Bool) (nextpos : Int) :
    Run (List (List (datarecord α)) × Nat) :=
  if inp.obscount = 0 ∨ obsaug = true then
    let multiple_tgrid : Bool := decide (inp.tgrid_ncol > 1)
    if multiple_tgrid = true ∧ inp.whichtg.length < inp.idata_nrow then
      .fatal "Length of design indicator less than NID."
    else if multiple_tgrid = true ∧
        (match intMax inp.whichtg with
         | some m => decide (m ≥ (inp.tgrid_ncol : Int))
         | none => false) = true then
      .fatal "Insufficient number of designs specified for this problem."
    else
      let tgridn : List Nat :=
        if multiple_tgrid then
          (List.range inp.tgrid_ncol).map fun i =>
            ((List.range inp.tgrid_nrow).filter fun r => !inp.tgrid_na r i).length
        else [inp.tgrid_nrow]
      let tgridi : List Int :=
        if multiple_tgrid = false ∧ inp.whichtg.length = 0 then List.replicate inp.NID 0
        else inp.whichtg
      if multiple_tgrid = false ∧ inp.tgrid_ncol = 0 ∧ inp.tgrid_nrow > 0 then
        -- `tgrid(j,0)` on a matrix without columns
        .undefined
      else
        let designs : List (List (datarecord α)) :=
          (List.range tgridn.length).map fun i =>
            (List.range (tgridn.getD i 0)).map fun j => gridRecord (inp.tgrid j i) nextpos
        DEVTRAN_grid_subjects sortRecs multiple_tgrid tgridi tgridn designs inp.idata_row
          0 inp.a inp.obscount
  else .value (inp.a, inp.obscount)

/-- The steps of the setup that create the objects the run works with. -/
inductive SetupEvent where
  | problem_created : SetupEvent
  | records_read : SetupEvent
  | result_table_created : SetupEvent
  | config_call : SetupEvent
  deriving DecidableEq

/-- What the setup hands to the loop over the subjects. -/
structure SetupData (α : Type) where
  put_ev_first : Bool
  addl_ev_first : Bool
  tofd : List α
  nextpos : Int
  a : List (List (datarecord α))
  NN : Nat
  ans : NumericMatrix α

/-- A run of the setup: the objects created so far, and how it ended. -/
structure SetupRun (α : Type) where
  events : List SetupEvent
  result : Run (SetupData α)

/-- Lines 86-373 of `DEVTRAN`, from the switch on `recsort` to the call of
`config_call`, in the order of the source.  The reading of the options and
the construction of the data objects (lines 86-109), which come first, belong
to the ingestion code that is not part of the embedded sources and are taken
to succeed. -/
def DEVTRAN_setup (sortRecs : List (datarecord α) → List (datarecord α))
    (inp : SetupInput α) : SetupRun α :=
  let obsaug := inp.obsaug && decide (inp.data_nrow > 0)
  match DEVTRAN_recsort inp.recsort with
  | .error e => { events := [], result := .fatal e }
  | .ok (put_ev_first, addl_ev_first) =>
    -- odeproblem *prob = new odeproblem(...); dat.get_records(...)
    let ev1 := [SetupEvent.problem_created, SetupEvent.records_read]
    match DEVTRAN_tofd inp.tad inp.a with
    | .error e => { events := ev1, result := .fatal e }
    | .ok tofd =>
      let nextpos : Int := if put_ev_first then (inp.data_nrow : Int) + 10 else -100
      match DEVTRAN_grid sortRecs inp obsaug nextpos with
      | .fatal e => { events := ev1, result := .fatal e }
      | .undefined => { events := ev1, result := .undefined }
      | .value (a1, obscount) =>
        let NN := if inp.obsonly then obscount else obscount + inp.evcount
        let precol := 2 + (if inp.tad then 1 else 0)
        let n_out_col := precol + inp.n_tran_carry + inp.n_data_carry + inp.n_idata_carry
          + inp.nreq + inp.n_capture
        { events := ev1 ++ [SetupEvent.result_table_created, SetupEvent.config_call]
          result := .value
            { put_ev_first := put_ev_first, addl_ev_first := addl_ev_first, tofd := tofd,
              nextpos := nextpos, a := a1, NN := NN,
              ans := NumericMatrix.zeros NN n_out_col } }

/-- A setup with one subject (one dose record, no observation), a grid matrix
of three rows and `ncol` designs, and the design indicator `whichtg`. -/
def gridInput (ncol : Nat) (whichtg : List Int) : SetupInput α :=
  { recsort := 1, tad := false, obsonly := true, obsaug := false, data_nrow := 1,
    idata_nrow := 1, NID := 1, a := [[inputDose 0 100 0 1]], obscount := 0, evcount := 1,
    tgrid_nrow := 3, tgrid_ncol := ncol, tgrid := fun r _ => (r : α),
    tgrid_na := fun _ _ => false, whichtg := whichtg, idata_row := fun _ => 0,
    n_tran_carry := 0, n_data_carry := 0, n_idata_carry := 0, nreq := 1, n_capture := 0 }

/-! ## The driver `DEVTRAN`: events requested by the model -/

/-- An event requested by the model through the table callback
(`mrgsolve::evdata`; the fields are those read by `DEVTRAN`). -/
structure evdata (α : Type) where
  time : α
  evid : Nat
  amt : α
  cmt : Int
  now : Bool

/-- The record `NEWREC(cmt, evid, amt, time, rate)` (the constructor is not
part of the embedded sources; the record is armed and synthetic). -/
def eventRecord (cmt : Int) (evid : Nat) (amt time rate : α) : datarecord α :=
  { Time := time, Id := 1, Pos := -1, Evid := evid, Amt := amt, Rate := rate, Ii := 0,
    Addl := 0, Ss := 0, Cmt := cmt, Output := false, Fromdata := false, Armed := true }

/-- Modelled from the spec: `CompEqual(mtimehx, time, evid, cmt)`; scheduled
events "are deduplicated against a per-subject history of already-inserted
model-time events (by time+kind+compartment)" (the function is not part of
the embedded sources). -/
def CompEqual (mtimehx : List (datarecord α)) (time : α) (evid : Nat) (cmt : Int) : Bool :=
  mtimehx.any fun r => decide (r.Time = time) && decide (r.Evid = evid) && decide (r.Cmt = cmt)

/-- The variables that the block of the model-time events works on. -/
structure MtimeState (α : Type) where
  prob : odeproblem α
  recs : List (datarecord α)
  mtimehx : List (datarecord α)

/-- The function `abs` of `<cstdlib>` on a C `int`: the absolute value of
`INT_MIN = -2147483648` is not representable in an `int`, and the negation
wraps to `INT_MIN` itself. -/
def int_abs (c : Int) : Int :=
  if c = -2147483648 then -2147483648 else |c|

/-- Lines 567-591: one pass of the loop over the events `mt[mti]` returned by
the table callback, while record `j` with time `tto` is processed.
`implement` is `datarecord::implement(prob)` and `sortRecs` is `std::sort`
with `CompRec`; neither is part of the embedded sources.  `this_cmt` is a C
`int`; `neq` is the `unsigned int` copy of the `int` number of compartments
(`Neq = int(init.size())`), so that `int(neq)` is `neq`. -/
def DEVTRAN_mtime_event
    (implement : datarecord α → odeproblem α → Except String (odeproblem α))
    (sortRecs : List (datarecord α) → List (datarecord α))
    (neq j : Nat) (tto : α) (ev : evdata α) (st : MtimeState α) :
    Except String (MtimeState α) :=
  let this_time := ev.time
  if this_time < tto then .ok st
  else
    let this_evid := ev.evid
    let this_amt := ev.amt
    let this_cmt := ev.cmt
    if neq ≠ 0 ∧ this_evid ≠ 0 ∧ (this_cmt = 0 ∨ int_abs this_cmt > (neq : Int)) then
      .error "Compartment number in modeled event out of range."
    else
      let new_ev := (eventRecord this_cmt this_evid this_amt this_time 0).phantom_rec
      if ev.now then
        match implement new_ev st.prob with
        | .error e => .error e
        | .ok p1 => .ok { st with prob := p1 }
      else
        let foo := CompEqual st.mtimehx this_time this_evid this_cmt
        if !foo then
          let a1 := st.recs ++ [new_ev]
          .ok { st with
                recs := a1.take (j + 1) ++ sortRecs (a1.drop (j + 1))
                mtimehx := st.mtimehx ++ [new_ev] }
        else .ok st

/-- The loop of lines 567-591 over the events `mt`. -/
def DEVTRAN_mtime_events
    (implement : datarecord α → odeproblem α → Except String (odeproblem α))
    (sortRecs : List (datarecord α) → List (datarecord α))
    (neq j : Nat) (tto : α) : List (evdata α) → MtimeState α → Except String (MtimeState α)
  | [], st => .ok st
  | ev :: rest, st =>
    match DEVTRAN_mtime_event implement sortRecs neq j tto ev st with
    | .error e => .error e
    | .ok st1 => DEVTRAN_mtime_events implement sortRecs neq j tto rest st1

/-- Lines 564-593: the block `if(prob->any_mtime()) {...}`; `mt` are the
events `prob->mtimes()` left by the table callback. -/
def DEVTRAN_mtime_block
    (implement : datarecord α → odeproblem α → Except String (odeproblem α))
    (sortRecs : List (datarecord α) → List (datarecord α))
    (neq j : Nat) (tto : α) (mt : List (evdata α)) (st : MtimeState α) :
    Except String (MtimeState α) :=
  if mt.isEmpty then .ok st
  else
    let st1 := if st.prob.newind ≤ 1 then { st with mtimehx := [] } else st
    DEVTRAN_mtime_events implement sortRecs neq j tto mt st1

/-- The state of the driver while the only record, an observation at time
10, of a subject of a one-compartment problem is processed. -/
def mtimeStart : MtimeState α :=
  { prob := odeproblem.construct 0 [(0 : α)] 0, recs := [observation 10], mtimehx := [] }

/-- An instance of the `MRGSOLVE_GET_PRED_*` macros, used for concrete
evaluation: clearance, volumes, `ka` and `Q` are the five entries of `pred`
and the rate constants are their ratios. -/
def ratioMacros : PredMacros α where
  CL := fun pred => pred.getD 0 0
  VC := fun pred => pred.getD 1 0
  KA := fun pred => pred.getD 2 0
  Q := fun pred => pred.getD 3 0
  VP := fun pred => pred.getD 4 0
  K10 := fun pred => pred.getD 0 0 / pred.getD 1 0
  K12 := fun pred => pred.getD 3 0 / pred.getD 1 0
  K21 := fun pred => pred.getD 3 0 / pred.getD 4 0

/-- A one-compartment problem (`advan` 1) holding the amount `A`, with
`CL = 1` and `VC = 10`, that is `k10 = 0.1`. -/
def oneCmtProblem (A : α) : odeproblem α :=
  { (((odeproblem.construct 0 [A] 0).advan 1).y_init 0 A) with pred := [1, 10, 0, 0, 0] }

/-! ## `advan4` -/

/-- The local variables `pred0`, `pred1`, `pred2` of `advan4` together with
the member vector `a`, which `advan4` overwrites between its calls of
`PolyExp`. -/
structure Advan4Acc (α : Type) where
  a : List α
  pred0 : α
  pred1 : α
  pred2 : α

/-- The sum `PolyExp(dt,dose,0,0,0,false,a,alpha,n) +
PolyExp(dt,0,rate,dt,0,false,a,alpha,n)` that `advan4` adds to a prediction;
an error carries the vector `a` at the throw. -/
def advan4_calls (exp trunc : α → α) (dt dose rate : α) (alpha : List α) (n : Nat)
    (a : List α) : Except (String × List α) α :=
  match PolyExp exp trunc dt dose 0 0 0 false a alpha n,
        PolyExp exp trunc dt 0 rate dt 0 false a alpha n with
  | .ok u, .ok v => .ok (u + v)
  | .error e, _ => .error (e, a)
  | _, .error e => .error (e, a)

/-- The block `if(Neq==3) {...}` of `advan4`: the absorption compartment. -/
def advan4_depot (exp trunc : α → α) (Neq : Nat) (R0 alpha : List α)
    (dt init0 ka k12 k21 : α) (acc : Advan4Acc α) :
    Except (String × List α) (Advan4Acc α) :=
  if Neq = 3 then
    if init0 ≠ 0 ∨ R0.getD 0 0 ≠ 0 then
      let pred0 := init0 * exp (-ka * dt)
      let al0 := alpha.getD 0 0
      let al1 := alpha.getD 1 0
      let a1 := (acc.a.set 0 (ka * (k21 - al0) / ((ka - al0) * (al1 - al0)))).set 1
        (ka * (k21 - al1) / ((ka - al1) * (al0 - al1)))
      let a2 := a1.set 2 (-(a1.getD 0 0 + a1.getD 1 0))
      if ka > 0 then
        match advan4_calls exp trunc dt init0 (R0.getD 0 0) alpha 3 a2 with
        | .error e => .error e
        | .ok s1 =>
          let a3 := (a2.set 0 (ka * k12 / ((ka - al0) * (al1 - al0)))).set 1
            (ka * k12 / ((ka - al1) * (al0 - al1)))
          let a4 := a3.set 2 (-(a3.getD 0 0 + a3.getD 1 0))
          match advan4_calls exp trunc dt init0 (R0.getD 0 0) alpha 3 a4 with
          | .error e => .error e
          | .ok s2 =>
            .ok { a := a4, pred0 := pred0 + R0.getD 0 0 * (1 - exp (-ka * dt)) / ka,
                  pred1 := acc.pred1 + s1, pred2 := acc.pred2 + s2 }
      else
        .ok { a := a2, pred0 := pred0 + R0.getD 0 0 * dt, pred1 := acc.pred1,
              pred2 := acc.pred2 }
    else .ok acc
  else .ok acc

/-- The block `if((init1 != 0) || (R0[1-eqoffset] != 0)) {...}` of `advan4`:
the central compartment; `r1` is `R0[1-eqoffset]`. -/
def advan4_central (exp trunc : α → α) (alpha : List α) (dt init1 r1 k12 k21 : α)
    (acc : Advan4Acc α) : Except (String × List α) (Advan4Acc α) :=
  if init1 ≠ 0 ∨ r1 ≠ 0 then
    let al0 := alpha.getD 0 0
    let al1 := alpha.getD 1 0
    let a1 := (acc.a.set 0 ((k21 - al0) / (al1 - al0))).set 1 ((k21 - al1) / (al0 - al1))
    match advan4_calls exp trunc dt init1 r1 alpha 2 a1 with
    | .error e => .error e
    | .ok s1 =>
      let a2 := a1.set 0 (k12 / (al1 - al0))
      let a3 := a2.set 1 (-(a2.getD 0 0))
      match advan4_calls exp trunc dt init1 r1 alpha 2 a3 with
      | .error e => .error e
      | .ok s2 => .ok { acc with a := a3, pred1 := acc.pred1 + s1, pred2 := acc.pred2 + s2 }
  else .ok acc

/-- The block `if((init2 != 0) || (R0[2-eqoffset] != 0)) {...}` of `advan4`:
the peripheral compartment; `r2` is `R0[2-eqoffset]`. -/
def advan4_peripheral (exp trunc : α → α) (alpha : List α) (dt init2 r2 k10 k12 k21 : α)
    (acc : Advan4Acc α) : Except (String × List α) (Advan4Acc α) :=
  if init2 ≠ 0 ∨ r2 ≠ 0 then
    let al0 := alpha.getD 0 0
    let al1 := alpha.getD 1 0
    let a1 := acc.a.set 0 (k21 / (al1 - al0))
    let a2 := a1.set 1 (-(a1.getD 0 0))
    match advan4_calls exp trunc dt init2 r2 alpha 2 a2 with
    | .error e => .error e
    | .ok s1 =>
      let a3 := (a2.set 0 ((k10 + k12 - al0) / (al1 - al0))).set 1
        ((k10 + k12 - al1) / (al0 - al1))
      match advan4_calls exp trunc dt init2 r2 alpha 2 a3 with
      | .error e => .error e
      | .ok s2 => .ok { acc with a := a3, pred1 := acc.pred1 + s1, pred2 := acc.pred2 + s2 }
  else .ok acc

end Field

/-! ## The arithmetic of `double`

The finite numbers of IEEE-754 binary64 with the rounding of every operation
to the nearest number, ties to even.  The exponent range is not modelled (no
overflow, no subnormal numbers), nor is the sign of zero; the value `nan`
stands for the result of an operation that is not a finite number. -/

/-- A `double`: zero (`m = 0`, `e = 0`), or `m * 2^e` with a significand of
exactly 53 bits, `2^52 ≤ |m| < 2^53`; or not a finite number. -/
inductive Double where
  | finite (m : Int) (e : Int) : Double
  | nan : Double
  deriving DecidableEq

/-- The number of binary digits of `n`, counted with at most `fuel` steps. -/
def bitLengthAux : Nat → Nat → Nat
  | 0, _ => 0
  | fuel + 1, n => if n = 0 then 0 else bitLengthAux fuel (n / 2) + 1

/-- The number of binary digits of `n`. -/
def bitLength (n : Nat) : Nat := bitLengthAux n n

/-- Rounding of `a * 2^e` (`a > 0`) to a significand of 53 bits, to the
nearest, ties to even. -/
def roundNat (a : Nat) (e : Int) : Nat × Int :=
  let L := bitLength a
  if L ≤ 53 then (a * 2 ^ (53 - L), e - ((53 - L : Nat) : Int))
  else
    let s := L - 53
    let q := a / 2 ^ s
    let r := a % 2 ^ s
    let half := 2 ^ (s - 1)
    let q1 := if r > half ∨ (r = half ∧ q % 2 = 1) then q + 1 else q
    if q1 = 2 ^ 53 then (2 ^ 52, e + (s : Int) + 1) else (q1, e + (s : Int))

/-- The `double` nearest to the number `m * 2^e`. -/
def Double.round (m : Int) (e : Int) : Double :=
  if m = 0 then .finite 0 0
  else
    let p := roundNat m.natAbs e
    .finite (if m < 0 then -(p.1 : Int) else (p.1 : Int)) p.2

/-- The sum `x + y` of two `double`s: the exact sum, rounded. -/
def Double.add : Double → Double → Double
  | .finite m1 e1, .finite m2 e2 =>
    let e := min e1 e2
    Double.round (m1 * 2 ^ (e1 - e).toNat + m2 * 2 ^ (e2 - e).toNat) e
  | _, _ => .nan

/-- The negation `-x`. -/
def Double.neg : Double → Double
  | .finite m e => .finite (-m) e
  | .nan => .nan

/-- The product `x * y`: the exact product, rounded. -/
def Double.mul : Double → Double → Double
  | .finite m1 e1, .finite m2 e2 => Double.round (m1 * m2) (e1 + e2)
  | _, _ => .nan

/-- The quotient `x / y`: the exact quotient, rounded (64 further bits of the
quotient and a sticky bit for the remainder decide the rounding).  A
quotient by zero is not a finite number: `0/0` is a NaN. -/
def Double.div : Double → Double → Double
  | .finite m1 e1, .finite m2 e2 =>
    if m2 = 0 then .nan
    else
      let n := m1.natAbs * 2 ^ 64
      let q := n / m2.natAbs
      let r := n % m2.natAbs
      let sticky : Nat := if r = 0 then 0 else 1
      let s : Int := if (m1 < 0) = (m2 < 0) then 1 else -1
      Double.round (s * ((2 * q + sticky : Nat) : Int)) (e1 - e2 - 65)
  | _, _ => .nan

/-- The integer part of the square root of `n`, found bit by bit from bit
`i - 1` down; `r` holds the bits found so far. -/
def isqrtAux (n : Nat) : Nat → Nat → Nat
  | 0, r => r
  | i + 1, r =>
    if (r + 2 ^ i) * (r + 2 ^ i) ≤ n then isqrtAux n i (r + 2 ^ i) else isqrtAux n i r

/-- The integer part of the square root of `n`. -/
def isqrt (n : Nat) : Nat := isqrtAux n (bitLength n / 2 + 1) 0

/-- The function `sqrt` of `<cmath>`: the exact square root, rounded; the
root of a negative number is a NaN. -/
def Double.sqrt : Double → Double
  | .finite m e =>
    if m < 0 then .nan
    else if m = 0 then .finite 0 0
    else
      let k : Nat := if e % 2 = 0 then 64 else 65
      let n := m.natAbs * 2 ^ k
      let r := isqrt n
      let sticky : Nat := if r * r = n then 0 else 1
      Double.round ((2 * r + sticky : Nat) : Int) ((e - (k : Int)) / 2 - 1)
  | .nan => .nan

/-- Whether `0 < x`. -/
def Double.pos : Double → Bool
  | .finite m _ => decide (0 < m)
  | .nan => false

instance : Add Double := ⟨Double.add⟩

instance : Sub Double := ⟨fun x y => Double.add x (Double.neg y)⟩

instance : Mul Double := ⟨Double.mul⟩

instance : Div Double := ⟨Double.div⟩

instance (n : Nat) : OfNat Double n := ⟨Double.round (n : Int) 0⟩

/-- The `double` of the literal `1e-17`: `10^17` is a `double`, so the rounded
quotient is the `double` nearest to `10^-17`. -/
def Double.tiny : Double := 1 / 100000000000000000

/-- The assignments `alpha[0] = (ksum + sqrt(ksum*ksum-4.0*k10*k21))/2.0;`,
`alpha[1] = (ksum - sqrt(...))/2.0;`, `alpha[2] = ka;` of `advan4`, in any
arithmetic: that of an ordered field or that of `double`. -/
def advan4_alpha [Add α] [Sub α] [Mul α] [Div α] [OfNat α 2] [OfNat α 4]
    (sqrt : α → α) (ka k10 k12 k21 : α) (alpha : List α) : List α :=
  let ksum := k10 + k12 + k21
  ((alpha.set 0 ((ksum + sqrt (ksum * ksum - 4 * k10 * k21)) / 2)).set 1
    ((ksum - sqrt (ksum * ksum - 4 * k10 * k21)) / 2)).set 2 ka

section Field

variable [LinearOrderedField α]

/-- `odeproblem::advan4(tfrom, tto)`. -/
def odeproblem.advan4 (exp sqrt trunc : α → α) (M : PredMacros α) (p : odeproblem α)
    (tfrom tto : α) : Outcome (odeproblem α) :=
  let dt := tto - tfrom
  -- Make sure parameters are valid
  if M.VC p.pred ≤ 0 then .stop "pred_VC has a 0 or negative  value." p
  else if M.VP p.pred ≤ 0 then .stop "pred_VP has a 0 or negative  value." p
  else if M.Q p.pred < 0 then .stop "pred_Q has a  negative  value." p
  else if M.CL p.pred ≤ 0 then .stop "pred_CL has a 0 or negative  value." p
  else
    let ka := M.KA p.pred
    let k10 := M.K10 p.pred
    let k12 := M.K12 p.pred
    let k21 := M.K21 p.pred
    let init0 : α := if p.Neq = 3 then p.y 0 else 0
    let init1 : α := if p.Neq = 3 then p.y 1 else if p.Neq = 2 then p.y 0 else 0
    let init2 : α := if p.Neq = 3 then p.y 2 else if p.Neq = 2 then p.y 1 else 0
    let eqoffset : Nat := if p.Neq = 2 then 1 else 0
    let alpha1 := advan4_alpha sqrt ka k10 k12 k21 p.alpha
    let p1 := { p with alpha := alpha1 }
    let acc0 : Advan4Acc α := { a := p.a, pred0 := 0, pred1 := 0, pred2 := 0 }
    match advan4_depot exp trunc p.Neq p.R0 alpha1 dt init0 ka k12 k21 acc0 with
    | .error (e, a) => .stop e { p1 with a := a }
    | .ok acc1 =>
      match advan4_central exp trunc alpha1 dt init1 (p.R0.getD (1 - eqoffset) 0) k12 k21
          acc1 with
      | .error (e, a) => .stop e { p1 with a := a }
      | .ok acc2 =>
        match advan4_peripheral exp trunc alpha1 dt init2 (p.R0.getD (2 - eqoffset) 0)
            k10 k12 k21 acc2 with
        | .error (e, a) => .stop e { p1 with a := a }
        | .ok acc3 =>
          let p2 := { p1 with a := acc3.a }
          if p.Neq = 2 then .done ((p2.y_set 0 acc3.pred1).y_set 1 acc3.pred2)
          else if p.Neq = 3 then
            .done (((p2.y_set 0 acc3.pred0).y_set 1 acc3.pred1).y_set 2 acc3.pred2)
          else .done p2

/-- A two-compartment problem (`advan` 4 without absorption compartment)
holding the amount `A` in the central compartment, with `CL = 1`, `VC = 10`,
`VP = 10` and inter-compartmental clearance `Q`. -/
def twoCmtProblem (A Q : α) : odeproblem α :=
  { (((odeproblem.construct 0 [A, 0] 0).advan 4).y_init 0 A) with pred := [1, 10, 0, Q, 10] }

/-! ## `PolyExp` in real arithmetic: the divisions it performs -/

/-- The divisors of the divisions that a call of `PolyExp` performs, branch
by branch as in the source: `tau` for `x/tau`, `1-exp(-alpha[i]*tau)` and
`alpha[i]` for every pass `i < n` of the loop of the branch taken. -/
def PolyExp_divisors (exp trunc : α → α) (x dose rate xinf tau : α) (ss : Bool)
    (alpha : List α) (n : Nat) : List α :=
  let inf : α := 1000000000
  let L : Nat → α := fun i => alpha.getD i 0
  let geo : List α := (List.range n).map fun i => 1 - exp (-L i * tau)
  let byAlpha : List α := (List.range n).map fun i => L i
  -- UPDATE DOSE
  let doseDivisors : List α :=
    if dose > 0 then
      if tau ≤ 0 ∧ x ≥ 0 then []
      else tau :: geo
    else []
  -- UPDATE RATE
  let rateDivisors : List α :=
    if rate > 0 ∧ xinf < inf then
      if tau ≤ 0 then
        if x ≥ 0 then byAlpha else []
      else if xinf ≤ tau then []
      else if !ss then
        let dx := x - trunc (x / tau) * tau
        if dx ≤ xinf ∧ n ≤ 1 then tau :: byAlpha else tau :: (geo ++ byAlpha)
      else tau :: (geo ++ byAlpha)
    else
      if !ss then
        if x ≥ 0 then byAlpha else []
      else byAlpha
  doseDivisors ++ rateDivisors

/-- The value of a call of `PolyExp` in real arithmetic: `none` when the call
divides by zero, where the value is undefined (the double computed by the
source is then infinite or not a number). -/
def PolyExp_checked (exp trunc : α → α) (x dose rate xinf tau : α) (ss : Bool)
    (a alpha : List α) (n : Nat) : Except String (Option α) :=
  match PolyExp exp trunc x dose rate xinf tau ss a alpha n with
  | .error e => .error e
  | .ok v =>
    .ok (if (0 : α) ∈ PolyExp_divisors exp trunc x dose rate xinf tau ss alpha n then none
         else some v)

/-- Lines 458-464: the time `tto` to which a record advances the system; it
is floored to `tfrom` when the relative step is below `mindt`. -/
def DEVTRAN_tto (mindt tfrom time : α) : α :=
  let dt := (time - tfrom) / (if tfrom = 0 then 1 else tfrom)
  if dt > 0 ∧ dt < mindt then tfrom else time

/-- The loop `for(size_t j=0; j < a[i].size(); ++j)` over the records of one
subject, restricted to the statements that concern the model-time events:
`tto` (lines 458-464), `prob->newind(2)` for `j != 0` (lines 472-476), the
block of lines 564-593 and `tfrom = tto` (line 615).  `table j rec` are the
events `prob->mtimes()` that the model leaves while record `j` is processed.
The sequence may grow while it is traversed, so the loop is given `fuel`;
`none` means that the fuel ran out. -/
def DEVTRAN_mtime_records
    (implement : datarecord α → odeproblem α → Except String (odeproblem α))
    (sortRecs : List (datarecord α) → List (datarecord α))
    (neq : Nat) (mindt : α) (table : Nat → datarecord α → List (evdata α)) :
    Nat → Nat → α → MtimeState α → Option (Except String (MtimeState α))
  | 0, _, _, _ => none
  | fuel + 1, j, tfrom, st =>
    match st.recs[j]? with
    | none => some (.ok st)
    | some this_rec =>
      let tto := DEVTRAN_tto mindt tfrom this_rec.Time
      let prob1 := if j ≠ 0 then { st.prob with newind := 2 } else st.prob
      match DEVTRAN_mtime_block implement sortRecs neq j tto (table j this_rec)
          { st with prob := prob1 } with
      | .error e => some (.error e)
      | .ok st1 =>
        DEVTRAN_mtime_records implement sortRecs neq mindt table fuel (j + 1) tto st1

/-- The loop `for(size_t i=0; i < a.size(); ++i)` over the subjects
`a[i], a[i+1], ...`, restricted as `DEVTRAN_mtime_records`: `reset_newid`,
`prob->newind(0)` for the first subject, and the loop over the records.  The
history `mtimehx` is declared before the loop (line 374) and handed from
subject to subject.  `uid i` is `dat.get_uid(i)`.  The result is the
sequences of the subjects after the run, the problem and the history. -/
def DEVTRAN_mtime_subjects
    (implement : datarecord α → odeproblem α → Except String (odeproblem α))
    (sortRecs : List (datarecord α) → List (datarecord α))
    (neq : Nat) (mindt : α) (uid : Nat → α)
    (table : Nat → Nat → datarecord α → List (evdata α)) (fuel : Nat) :
    Nat → List (List (datarecord α)) → odeproblem α → List (datarecord α) →
      Option (Except String (List (List (datarecord α)) × odeproblem α × List (datarecord α)))
  | _, [], prob, mtimehx => some (.ok ([], prob, mtimehx))
  | i, recs :: rest, prob, mtimehx =>
    let tfrom : α := match recs.head? with
      | some r => r.Time
      | none => 0
    let prob1 := prob.reset_newid (uid i)
    let prob2 := if i = 0 then { prob1 with newind := 0 } else prob1
    match DEVTRAN_mtime_records implement sortRecs neq mindt (table i) fuel 0 tfrom
        { prob := prob2, recs := recs, mtimehx := mtimehx } with
    | none => none
    | some (.error e) => some (.error e)
    | some (.ok st) =>
      match DEVTRAN_mtime_subjects implement sortRecs neq mindt uid table fuel (i + 1) rest
          st.prob st.mtimehx with
      | none => none
      | some (.error e) => some (.error e)
      | some (.ok (rest1, prob3, hx)) => some (.ok (st.recs :: rest1, prob3, hx))

/-- A model that schedules a dose of 100 into compartment 1 at time 5: the
first subject requests it with its first record, the second subject with
its record number `late`. -/
def lateRequest (late : Nat) (i j : Nat) (_rec : datarecord α) : List (evdata α) :=
  if (i = 0 ∧ j = 0) ∨ (i = 1 ∧ j = late) then
    [{ time := 5, evid := 1, amt := 100, cmt := 1, now := false }]
  else []

/-- The sequences of the subjects at the end of a run of
`DEVTRAN_mtime_subjects`. -/
def finalSequences
    (r : Option (Except String
      (List (List (datarecord α)) × odeproblem α × List (datarecord α)))) :
    Option (Except String (List (List (datarecord α)))) :=
  r.map fun e => e.map fun t => t.1

/-! ## The driver `DEVTRAN`: the time of the first dose -/

/-- Whether the sequence of a subject holds a dose record, that is a record
with `evid() == 1`. -/
def hasDose (recs : List (datarecord α)) : Bool :=
  recs.any fun r => decide (r.Evid = 1)

/-- A setup with time after dose enabled for the sequences `a`. -/
def tofdInput (a : List (List (datarecord α))) : SetupInput α :=
  { (gridInput 1 [0] : SetupInput α) with tad := true, a := a, NID := a.length }

end Field

/-! # Theorems -/

section Lemmas

theorem getD_set_same {β : Type} (l : List β) (i : Nat) (v d : β) (h : i < l.length) :
    (l.set i v).getD i d = v := by
  simp [List.getD_eq_getElem?_getD, List.getElem?_set, h]

theorem getD_set_other {β : Type} (l : List β) (i j : Nat) (v d : β) (h : i ≠ j) :
    (l.set i v).getD j d = l.getD j d := by
  simp [List.getD_eq_getElem?_getD, List.getElem?_set, h]

theorem forSum_one [LinearOrderedField α] (f : Nat → α) : forSum 1 f = f 0 := by
  simp [forSum, List.range_succ]

/-- Single bolus term of `PolyExp` with one exponential, no infusion. -/
theorem PolyExp_bolus_one [LinearOrderedField α] (exp trunc : α → α) (x dose : α)
    (a alpha : List α) (hx : 0 ≤ x) (hd : 0 < dose) :
    PolyExp exp trunc x dose 0 0 0 false a alpha 1
      = .ok (dose * (a.getD 0 0 * exp (-alpha.getD 0 0 * x))) := by
  simp [PolyExp, forSum_one, hx, hd]

/-- A call of `PolyExp` with neither dose nor rate returns zero. -/
theorem PolyExp_zero [LinearOrderedField α] (exp trunc : α → α) (x xinf : α)
    (a alpha : List α) (n : Nat) :
    PolyExp exp trunc x 0 0 xinf 0 false a alpha n = .ok 0 := by
  unfold PolyExp
  simp only [gt_iff_lt, lt_self_iff_false, false_and, if_false, Bool.not_false, if_true]
  split_ifs <;> simp

end Lemmas

/-! ## C1 -/

/-- C1: for a one-compartment model (`Neq = 1`) with `CL > 0`, `VC > 0` and
`k10 > 0`, an amount `A ≥ 0`, no running infusion (`R0[0] = 0`) and a step
`dt = tto - tfrom ≥ 0`, `advan2` completes and replaces the amount by
`A * exp(-k10 * dt)` in real arithmetic. -/
theorem advan2_one_compartment_decay (trunc : ℝ → ℝ) (M : PredMacros ℝ)
    (p : odeproblem ℝ) (tfrom tto : ℝ)
    (hNeq : p.Neq = 1) (hY : p.Y.length = p.Neq)
    (ha : 0 < p.a.length) (halpha : 0 < p.alpha.length)
    (hCL : 0 < M.CL p.pred) (hVC : 0 < M.VC p.pred) (hk : 0 < M.K10 p.pred)
    (hA : 0 ≤ p.y 0) (hR0 : p.R0.getD 0 0 = 0) (hdt : 0 ≤ tto - tfrom) :
    (p.advan2 Real.exp trunc M tfrom tto).failed = false ∧
    (p.advan2 Real.exp trunc M tfrom tto).state.Y
      = [p.y 0 * Real.exp (-(M.K10 p.pred) * (tto - tfrom))] := by
  obtain ⟨y0, hYeq⟩ : ∃ y0, p.Y = [y0] := by
    rw [hNeq] at hY
    match hp : p.Y, hY with
    | [y0], _ => exact ⟨y0, rfl⟩
  have hy : p.y 0 = y0 := by simp [odeproblem.y, hYeq]
  rw [hy] at hA ⊢
  have hal : (((p.alpha.set 0 (M.K10 p.pred)).set 1 (M.KA p.pred)).getD 0 0) = M.K10 p.pred := by
    rw [getD_set_other _ 1 0 _ _ (by decide), getD_set_same _ _ _ _ halpha]
  unfold odeproblem.advan2
  simp only [not_le.mpr hCL, not_le.mpr hVC, not_le.mpr hk, if_false, hNeq]
  simp only [advan2_depot, show ¬ ((1 : Nat) = 2) by decide, if_false, if_true, hy, hR0]
  by_cases h0 : y0 = 0
  · simp [h0, Outcome.failed, Outcome.state, odeproblem.y_set, hYeq]
  · have hpos : 0 < y0 := lt_of_le_of_ne hA (Ne.symm h0)
    simp only [ne_eq, h0, not_false_eq_true, not_true_eq_false, or_false, if_true]
    rw [PolyExp_bolus_one _ _ _ _ _ _ hdt hpos, PolyExp_zero]
    have hal2 : (p.alpha.set 0 (M.K10 p.pred))[0]?.getD 0 = M.K10 p.pred := by
      simp [List.getElem?_set, halpha]
    simp [Outcome.failed, Outcome.state, odeproblem.y_set, hYeq, hal, hal2, getD_set_same, ha]

/-- Witness of C1: a bolus of 100 with `k10 = 0.1` observed after `dt = 10`
leaves `100 * exp(-1)`. -/
theorem advan2_one_compartment_decay_witness :
    ((oneCmtProblem (100 : ℝ)).advan2 Real.exp id ratioMacros 0 10).failed = false ∧
    ((oneCmtProblem (100 : ℝ)).advan2 Real.exp id ratioMacros 0 10).state.Y
      = [100 * Real.exp (-1)] := by
  have h := advan2_one_compartment_decay id ratioMacros (oneCmtProblem (100 : ℝ)) 0 10
    rfl rfl (by simp [oneCmtProblem, odeproblem.y_init, odeproblem.advan])
    (by simp [oneCmtProblem, odeproblem.y_init, odeproblem.advan])
    (by simp [oneCmtProblem, ratioMacros]) (by simp [oneCmtProblem, ratioMacros])
    (by simp [oneCmtProblem, ratioMacros])
    (by simp [oneCmtProblem, odeproblem.y, odeproblem.y_init, odeproblem.construct,
      odeproblem.advan])
    (by simp [oneCmtProblem, odeproblem.y_init, odeproblem.construct, odeproblem.advan])
    (by norm_num)
  have e : (oneCmtProblem (100 : ℝ)).y 0
      * Real.exp (-(ratioMacros.K10 (oneCmtProblem (100 : ℝ)).pred) * (10 - 0))
      = 100 * Real.exp (-1) := by
    have h1 : (oneCmtProblem (100 : ℝ)).y 0 = 100 := by
      simp [oneCmtProblem, odeproblem.y, odeproblem.y_init, odeproblem.construct,
        odeproblem.advan]
    have h2 : -(ratioMacros.K10 (oneCmtProblem (100 : ℝ)).pred) * (10 - 0) = -1 := by
      simp [oneCmtProblem, ratioMacros]
    rw [h1, h2]
  rw [e] at h
  exact h

/-! ## C2 -/

section RateLemmas

variable [LinearOrderedField α]

theorem RateInv_add (pos : Nat) (o : List α) (p : odeproblem α) (v : α)
    (h : RateInv pos o p) (hv : 0 ≤ v) : RateInv pos (v :: o) (p.rate_add pos v) := by
  obtain ⟨h1, h2, h3, h4, h5⟩ := h
  refine ⟨by simpa [odeproblem.rate_add] using h1, by simpa [odeproblem.rate_add] using h2,
    ?_, ?_, ?_⟩
  · show (p.R0.set pos (p.R0.getD pos 0 + v)).getD pos 0 = (v :: o).sum
    rw [getD_set_same _ _ _ _ h1, h3, List.sum_cons, add_comm]
  · show (p.infusion_count.set pos (p.infusion_count.getD pos 0 + 1)).getD pos 0
      = ((v :: o).length : Int)
    rw [getD_set_same _ _ _ _ h2, h4]; simp
  · intro w hw
    rcases List.mem_cons.mp hw with rfl | hw
    · exact hv
    · exact h5 w hw

theorem RateInv_rm (pos : Nat) (o : List α) (p : odeproblem α) (v : α)
    (h : RateInv pos o p) (hv : v ∈ o) : RateInv pos (o.erase v) (p.rate_rm pos v) := by
  obtain ⟨h1, h2, h3, h4, h5⟩ := h
  have hlen : 0 < o.length := List.length_pos_of_mem hv
  have hcnt : ¬ p.infusion_count.getD pos 0 ≤ 0 := by
    rw [h4]; exact not_le.mpr (by exact_mod_cast hlen)
  have hnn : ∀ w ∈ o.erase v, 0 ≤ w := fun w hw => h5 w (List.mem_of_mem_erase hw)
  have hsum : o.sum - v = (o.erase v).sum := by
    have := List.sum_erase hv
    linarith
  have hge : ¬ (p.R0.getD pos 0 - v < 0) := by
    rw [h3, hsum]; exact not_lt.mpr (List.sum_nonneg hnn)
  unfold odeproblem.rate_rm
  rw [if_neg hcnt]
  refine ⟨by simpa using h1, by simpa using h2, ?_, ?_, hnn⟩
  · show (p.R0.set pos (if p.R0.getD pos 0 - v < 0 then 0 else p.R0.getD pos 0 - v)).getD pos 0
      = (o.erase v).sum
    rw [getD_set_same _ _ _ _ h1, if_neg hge, h3, hsum]
  · show (p.infusion_count.set pos (p.infusion_count.getD pos 0 - 1)).getD pos 0
      = ((o.erase v).length : Int)
    rw [getD_set_same _ _ _ _ h2, h4, List.length_erase_of_mem hv]
    omega

theorem RateInv_run (pos : Nat) (cs : List (RateCall α)) :
    ∀ (o : List α) (p : odeproblem α), RateInv pos o p → Admissible o cs →
      RateInv pos (openRates o cs) (runRateCalls pos p cs) := by
  induction cs with
  | nil => intro o p h _; exact h
  | cons c cs ih =>
    intro o p h hadm
    cases c with
    | add v => exact ih (v :: o) (p.rate_add pos v) (RateInv_add pos o p v h hadm.1) hadm.2
    | rm v => exact ih (o.erase v) (p.rate_rm pos v) (RateInv_rm pos o p v h hadm.1) hadm.2

theorem Admissible_take (cs : List (RateCall α)) :
    ∀ (o : List α) (k : Nat), Admissible o cs → Admissible o (cs.take k) := by
  induction cs with
  | nil => intro o k h; simpa using h
  | cons c cs ih =>
    intro o k h
    cases k with
    | zero => trivial
    | succ k =>
      cases c with
      | add v => exact ⟨h.1, ih _ k h.2⟩
      | rm v => exact ⟨h.1, ih _ k h.2⟩

end RateLemmas

/-- C2: a compartment `pos` starts with no open infusion; after every call of
an admissible sequence of `rate_add(pos, v)` (`v ≥ 0`) and `rate_rm(pos, v)`
(`v` added earlier and not yet removed), `R0[pos]` is the exact sum of the
values added and not yet removed and `infusion_count[pos]` is their number;
both are zero once every added infusion has been removed. -/
theorem rate_add_rm_tracks_open_infusions [LinearOrderedField α] (p : odeproblem α)
    (pos : Nat) (cs : List (RateCall α))
    (hpos : pos < p.R0.length) (hpos2 : pos < p.infusion_count.length)
    (hR0 : p.R0.getD pos 0 = 0) (hcount : p.infusion_count.getD pos 0 = 0)
    (hadm : Admissible [] cs) (k : Nat) :
    (runRateCalls pos p (cs.take k)).R0.getD pos 0 = (openRates [] (cs.take k)).sum ∧
    (runRateCalls pos p (cs.take k)).infusion_count.getD pos 0
      = ((openRates [] (cs.take k)).length : Int) ∧
    (openRates [] (cs.take k) = [] →
      (runRateCalls pos p (cs.take k)).R0.getD pos 0 = 0 ∧
      (runRateCalls pos p (cs.take k)).infusion_count.getD pos 0 = 0) := by
  have h0 : RateInv pos [] p := ⟨hpos, hpos2, by simpa using hR0, by simpa using hcount,
    by intro v hv; cases hv⟩
  obtain ⟨_, _, h3, h4, _⟩ := RateInv_run pos (cs.take k) [] p h0 (Admissible_take cs [] k hadm)
  refine ⟨h3, h4, fun he => ?_⟩
  rw [h3, h4, he]; simp

/-- Witness of C2: two infusions of rates 2 and 3 are opened on a fresh
compartment and the first one is closed again. -/
theorem rate_add_rm_tracks_open_infusions_witness :
    (runRateCalls 0 (odeproblem.construct 0 [(0 : ℚ)] 0)
      ([RateCall.add 2, RateCall.add 3, RateCall.rm 2, RateCall.rm 3].take 3)).R0.getD 0 0
      = (openRates [] ([RateCall.add (2 : ℚ), RateCall.add 3, RateCall.rm 2,
          RateCall.rm 3].take 3)).sum ∧
    (runRateCalls 0 (odeproblem.construct 0 [(0 : ℚ)] 0)
      ([RateCall.add 2, RateCall.add 3, RateCall.rm 2, RateCall.rm 3].take 3)).infusion_count.getD
        0 0
      = ((openRates [] ([RateCall.add (2 : ℚ), RateCall.add 3, RateCall.rm 2,
          RateCall.rm 3].take 3)).length : Int) ∧
    (openRates [] ([RateCall.add (2 : ℚ), RateCall.add 3, RateCall.rm 2,
          RateCall.rm 3].take 3) = [] →
      (runRateCalls 0 (odeproblem.construct 0 [(0 : ℚ)] 0)
        ([RateCall.add 2, RateCall.add 3, RateCall.rm 2, RateCall.rm 3].take 3)).R0.getD 0 0 = 0 ∧
      (runRateCalls 0 (odeproblem.construct 0 [(0 : ℚ)] 0)
        ([RateCall.add 2, RateCall.add 3, RateCall.rm 2,
          RateCall.rm 3].take 3)).infusion_count.getD 0 0 = 0) :=
  rate_add_rm_tracks_open_infusions (odeproblem.construct 0 [(0 : ℚ)] 0) 0
    [RateCall.add 2, RateCall.add 3, RateCall.rm 2, RateCall.rm 3]
    (by simp [odeproblem.construct]) (by simp [odeproblem.construct])
    (by simp [odeproblem.construct]) (by simp [odeproblem.construct])
    (by simp [Admissible, List.erase_cons]) 3

/-! ## C3 -/

/-- C3: `off(c)` fails if and only if `infusion_count[c] > 0`; when it fails
the whole state is unchanged; when it succeeds `On[c] = 0` and `Y[c] = 0`
and the on/off flag and the amount of every other compartment are
unchanged. -/
theorem off_fails_iff_infusion_open [LinearOrderedField α] (p : odeproblem α) (c : Nat)
    (hOn : c < p.On.length) (hY : c < p.Y.length) :
    ((p.off c).failed = true ↔ 0 < p.infusion_count.getD c 0) ∧
    ((p.off c).failed = true → (p.off c).state = p) ∧
    ((p.off c).failed = false →
      (p.off c).state.On.getD c 0 = 0 ∧ (p.off c).state.Y.getD c 0 = 0 ∧
      ∀ j, j ≠ c → (p.off c).state.On.getD j 0 = p.On.getD j 0 ∧
        (p.off c).state.Y.getD j 0 = p.Y.getD j 0) := by
  unfold odeproblem.off
  by_cases h : p.infusion_count.getD c 0 > 0
  · rw [if_pos h]
    exact ⟨⟨fun _ => h, fun _ => rfl⟩, fun _ => rfl, fun hf => Bool.noConfusion hf⟩
  · rw [if_neg h]
    simp only [Outcome.failed, Outcome.state, odeproblem.y_set]
    refine ⟨⟨fun hf => Bool.noConfusion hf, fun hc => absurd hc h⟩,
      fun hf => Bool.noConfusion hf, fun _ => ⟨?_, ?_, fun j hj => ⟨?_, ?_⟩⟩⟩
    · exact getD_set_same _ _ _ _ hOn
    · exact getD_set_same _ _ _ _ hY
    · exact getD_set_other _ _ _ _ _ (Ne.symm hj)
    · exact getD_set_other _ _ _ _ _ (Ne.symm hj)

/-- Witness of C3: turning off the only compartment of a fresh problem. -/
theorem off_fails_iff_infusion_open_witness :
    (((odeproblem.construct 0 [(5 : ℚ)] 0).off 0).failed = true
      ↔ 0 < (odeproblem.construct 0 [(5 : ℚ)] 0).infusion_count.getD 0 0) ∧
    (((odeproblem.construct 0 [(5 : ℚ)] 0).off 0).failed = true →
      ((odeproblem.construct 0 [(5 : ℚ)] 0).off 0).state = odeproblem.construct 0 [(5 : ℚ)] 0) ∧
    (((odeproblem.construct 0 [(5 : ℚ)] 0).off 0).failed = false →
      ((odeproblem.construct 0 [(5 : ℚ)] 0).off 0).state.On.getD 0 0 = 0 ∧
      ((odeproblem.construct 0 [(5 : ℚ)] 0).off 0).state.Y.getD 0 0 = 0 ∧
      ∀ j, j ≠ 0 →
        ((odeproblem.construct 0 [(5 : ℚ)] 0).off 0).state.On.getD j 0
          = (odeproblem.construct 0 [(5 : ℚ)] 0).On.getD j 0 ∧
        ((odeproblem.construct 0 [(5 : ℚ)] 0).off 0).state.Y.getD j 0
          = (odeproblem.construct 0 [(5 : ℚ)] 0).Y.getD j 0) :=
  off_fails_iff_infusion_open (odeproblem.construct 0 [(5 : ℚ)] 0) 0
    (by simp [odeproblem.construct]) (by simp [odeproblem.construct])

/-! ## C4 -/

/-- C4: `rate_main` on a record for compartment `c`: with rate `-1` it fails
exactly when the model rate `R[c] ≤ 0` and otherwise sets the rate to `R[c]`;
with rate `-2` it fails exactly when the model duration `D[c] ≤ 0` and
otherwise sets the rate to `amt * F[c] / D[c]`; for every other rate it
neither fails nor changes the record. -/
theorem rate_main_resolves_sentinels [LinearOrderedField α] (p : odeproblem α)
    (rec : datarecord α) (hc : 0 ≤ rec.cmtn) (hlt : rec.cmtn.toNat < p.Neq)
    (hF : p.F.length = p.Neq) :
    (rec.Rate = -1 →
      ((p.rate_main rec).failed = true ↔ p.R.getD rec.cmtn.toNat 0 ≤ 0) ∧
      (0 < p.R.getD rec.cmtn.toNat 0 →
        p.rate_main rec = .done { rec with Rate := p.R.getD rec.cmtn.toNat 0 })) ∧
    (rec.Rate = -2 →
      ((p.rate_main rec).failed = true ↔ p.D.getD rec.cmtn.toNat 0 ≤ 0) ∧
      (0 < p.D.getD rec.cmtn.toNat 0 →
        p.rate_main rec = .done { rec with
          Rate := rec.Amt * p.F.getD rec.cmtn.toNat 0 / p.D.getD rec.cmtn.toNat 0 })) ∧
    (rec.Rate ≠ -1 → rec.Rate ≠ -2 → p.rate_main rec = .done rec) := by
  have hneg : ¬ rec.cmtn < 0 := not_lt.mpr hc
  have hR : p.rate rec.cmtn = p.R.getD rec.cmtn.toNat 0 := by
    simp only [odeproblem.rate, vecGet, if_neg hneg]
  have hD : p.dur rec.cmtn = p.D.getD rec.cmtn.toNat 0 := by
    simp only [odeproblem.dur, vecGet, if_neg hneg]
  have hN : p.Neq ≠ 0 := by omega
  have hFb : p.fbio rec.cmtn = .ok (p.F.getD rec.cmtn.toNat 0) := by
    have hin : rec.cmtn.toNat < p.F.length := by rw [hF]; exact hlt
    simp only [odeproblem.fbio, if_neg hN, vecAt, if_neg hneg]
    rw [List.getElem?_eq_getElem hin, List.getD_eq_getElem _ _ hin]
  have h12 : (-1 : α) ≠ -2 := by norm_num
  refine ⟨fun h1 => ?_, fun h2 => ?_, fun h1 h2 => ?_⟩
  · unfold odeproblem.rate_main
    rw [if_pos h1, hR]
    by_cases hr : p.R.getD rec.cmtn.toNat 0 ≤ 0
    · rw [if_pos hr]
      exact ⟨⟨fun _ => hr, fun _ => rfl⟩, fun hpos => absurd hr (not_le.mpr hpos)⟩
    · rw [if_neg hr]
      have hne : p.R.getD rec.cmtn.toNat 0 ≠ -2 := by
        intro he
        rw [he] at hr
        exact hr (by norm_num)
      simp only [if_neg hne]
      exact ⟨⟨fun hf => Bool.noConfusion hf, fun hle => absurd hle hr⟩, fun _ => trivial⟩
  · have h1 : rec.Rate ≠ -1 := by rw [h2]; exact Ne.symm h12
    unfold odeproblem.rate_main
    rw [if_neg h1]
    simp only [if_pos h2, hD, hFb]
    by_cases hd : p.D.getD rec.cmtn.toNat 0 ≤ 0
    · rw [if_pos hd]
      exact ⟨⟨fun _ => hd, fun _ => rfl⟩, fun hpos => absurd hd (not_le.mpr hpos)⟩
    · rw [if_neg hd]
      exact ⟨⟨fun hf => Bool.noConfusion hf, fun hle => absurd hle hd⟩, fun _ => rfl⟩
  · unfold odeproblem.rate_main
    rw [if_neg h1]
    simp only [if_neg h2]

/-- Witness of C4: a record with rate `-1` on a compartment whose model rate
is `5` gets the rate `5`. -/
theorem rate_main_resolves_sentinels_witness :
    (modelRateProblem (0 : ℚ)).rate_main (inputDose 0 10 (-1) 1)
      = .done { inputDose (0 : ℚ) 10 (-1) 1 with Rate := 5 } := by
  have h := (rate_main_resolves_sentinels (modelRateProblem (0 : ℚ)) (inputDose 0 10 (-1) 1)
    (by simp [inputDose, datarecord.cmtn]) (by simp [inputDose, datarecord.cmtn,
      modelRateProblem, odeproblem.construct])
    (by simp [modelRateProblem, odeproblem.construct])).1 (by simp [inputDose])
  have h2 := h.2 (by simp [modelRateProblem, inputDose, datarecord.cmtn])
  simpa [modelRateProblem, inputDose, datarecord.cmtn] using h2

/-! ## C5 -/

section DoseLemmas

theorem set_length_append {β : Type} (pre post : List β) (x y : β) :
    (pre ++ x :: post).set pre.length y = pre ++ y :: post := by
  simp

theorem insert_after_cursor {β : Type} (pre post : List β) (x y : β) :
    (pre ++ x :: post).take (pre.length + 1) ++ y :: (pre ++ x :: post).drop (pre.length + 1)
      = pre ++ x :: y :: post := by
  have e : pre ++ x :: post = (pre ++ [x]) ++ post := by simp
  have l : (pre ++ [x]).length = pre.length + 1 := by simp
  rw [e, List.take_left' l, List.drop_left' l]
  simp

theorem set_cursor_append {β : Type} (pre post extra : List β) (x y z : β) :
    ((pre ++ x :: z :: post) ++ extra).set pre.length y = pre ++ y :: z :: (post ++ extra) := by
  rw [List.append_assoc, List.cons_append, List.cons_append, set_length_append]

end DoseLemmas

/-- The record that `rate_main` resolves differs from the original in its
rate only. -/
theorem rate_main_keeps_fields [LinearOrderedField α] (p : odeproblem α)
    (r r1 : datarecord α)
    (h : (if r.Rate < 0 then p.rate_main r else .done r) = .done r1) :
    r1 = { r with Rate := r1.Rate } := by
  have key : ∀ rec1 : datarecord α, rec1 = { r with Rate := rec1.Rate } →
      (if rec1.Rate = -2 then
        if p.dur rec1.cmtn ≤ 0 then .stop "invalid infusion duration \n D_CMT: %d" rec1
        else
          match p.fbio rec1.cmtn with
          | .error e => .stop e rec1
          | .ok f => .done { rec1 with Rate := rec1.Amt * f / p.dur rec1.cmtn }
       else Outcome.done rec1) = .done r1 →
      r1 = { r with Rate := r1.Rate } := by
    intro rec1 hrec h2
    split_ifs at h2
    · split at h2
      · cases h2
      · injection h2 with h2
        rw [← h2, hrec]
    · injection h2 with h2
      rw [← h2]
      exact hrec
  by_cases hneg : r.Rate < 0
  · rw [if_pos hneg] at h
    unfold odeproblem.rate_main at h
    by_cases h1 : r.Rate = -1
    · by_cases h3 : p.rate r.cmtn ≤ 0
      · simp only [h1, h3, if_true] at h
        cases h
      · simp only [h1, h3, if_true, if_false] at h
        exact key { r with Rate := p.rate r.cmtn } rfl h
    · simp only [h1, if_false] at h
      exact key r rfl h
  · rw [if_neg hneg] at h
    injection h with h
    rw [← h]

/-- Counterexample to C5, for a bolus of 100 at time 0 taken from the data.
With the positive lag `1e-16`, which is not above the minimum time step
`mindt = 1e-15`, the driver leaves the sequence as it is: the record stays
armed at its own time and no phantom copy is inserted.  With the lag 2 and
the steady-state flag set, the steady-state resolver is run at the original
time of the record and its result is the compartment state from then on
(with the stand-in `steadyOneDose` the amount becomes 100). -/
theorem lag_guard_and_steady_state_at_dose_time :
    (modelRateProblem ((1 : ℚ) / 10 ^ 16)).alag (inputDose (0 : ℚ) 100 0 1).cmtn
      = .ok ((1 : ℚ) / 10 ^ 16) ∧
    DEVTRAN_from_data datarecord.schedule (fun _ q _ => q) ((1 : ℚ) / 10 ^ 15) 24 true 1 0 0
      (inputDose 0 100 0 1)
      { prob := modelRateProblem ((1 : ℚ) / 10 ^ 16), tfrom := 0,
        recs := [inputDose 0 100 0 1], sort_recs := false }
      = .ok { prob := modelRateProblem ((1 : ℚ) / 10 ^ 16), tfrom := 0,
              recs := [inputDose 0 100 0 1], sort_recs := false } ∧
    (modelRateProblem (2 : ℚ)).Y = [0] ∧
    DEVTRAN_from_data datarecord.schedule steadyOneDose ((1 : ℚ) / 10 ^ 15) 24 true 1 0 0
      { inputDose (0 : ℚ) 100 0 1 with Ss := 1, Ii := 24 }
      { prob := modelRateProblem 2, tfrom := 0,
        recs := [{ inputDose (0 : ℚ) 100 0 1 with Ss := 1, Ii := 24 }], sort_recs := false }
      = .ok { prob := { modelRateProblem (2 : ℚ) with Y := [100] }, tfrom := 0,
              recs := [{ inputDose (0 : ℚ) 100 0 1 with Ss := 1, Ii := 24, Armed := false },
                { inputDose (0 : ℚ) 100 0 1 with
                  Pos := ALAG_POS, Fromdata := false, Time := 2, Ss := 0, Ii := 24 }],
              sort_recs := true } := by
  have hl : (modelRateProblem ((1 : ℚ) / 10 ^ 16)).alag (inputDose (0 : ℚ) 100 0 1).cmtn
      = .ok ((1 : ℚ) / 10 ^ 16) := by
    simp [modelRateProblem, odeproblem.alag, odeproblem.construct, vecAt, inputDose,
      datarecord.cmtn]
  refine ⟨hl, ?_, ?_, ?_⟩
  · unfold DEVTRAN_from_data
    simp only [hl]
    norm_num [inputDose, datarecord.schedule, datarecord.addl_doses, datarecord.needs_sorting]
  · simp [modelRateProblem, odeproblem.construct]
  · have hl2 : (modelRateProblem (2 : ℚ)).alag
        ({ inputDose (0 : ℚ) 100 0 1 with Ss := 1, Ii := 24 } : datarecord ℚ).cmtn
          = .ok 2 := by
      simp [modelRateProblem, odeproblem.alag, odeproblem.construct, vecAt, inputDose,
        datarecord.cmtn]
    have hl3 : (steadyOneDose ({ inputDose (0 : ℚ) 100 0 1 with Ss := 1, Ii := 24 })
        (modelRateProblem (2 : ℚ)) 1).alag
        ({ inputDose (0 : ℚ) 100 0 1 with Ss := 1, Ii := 24 } : datarecord ℚ).cmtn
          = .ok 2 := by
      simp [steadyOneDose, modelRateProblem, odeproblem.alag, odeproblem.construct, vecAt,
        inputDose, datarecord.cmtn]
    unfold DEVTRAN_from_data
    simp only [hl2]
    norm_num [inputDose, datarecord.schedule, datarecord.addl_doses, datarecord.phantom_rec,
      datarecord.unarm, hl3]
    simp [steadyOneDose, modelRateProblem, odeproblem.construct, datarecord.cmtn, inputDose,
      odeproblem.alag, vecAt]

/-- C5, amended: for a record `r` taken from the input data (armed, as the
ingestion leaves it) whose compartment has a positive lag `L` above the
minimum time step (`mindt < L`), the driver unarms the record, whose rate it
has resolved, so that the statements of the loop that ask for the flag pass
the record by: no end of infusion is appended for it (line 523), it does not
count as a dose for the time after dose (line 545), and `implement` (line
555) leaves the compartments as they are.  Up to then the problem is
unchanged, except that for `ss > 0` it is the result of the steady-state
resolver.  Directly after the record the
driver inserts exactly one phantom copy: armed, with the same event kind,
amount, compartment and resolved rate, the steady-state flag cleared and the
time `time + L`; `implement` applies the effect of the copy.  The additional
doses of the copy are appended to the sequence. -/
theorem lagged_dose_is_replaced_by_phantom [LinearOrderedField α]
    (steady : datarecord α → odeproblem α → α → odeproblem α)
    (effect : datarecord α → odeproblem α → Except String (odeproblem α))
    (mindt maxtime : α) (addl_ev_first : Bool) (Fn tto : α)
    (pre post : List (datarecord α)) (r r1 : datarecord α) (st : DoseBlock α) (L : α)
    (hfrom : r.Fromdata = true) (harmed : r.Armed = true)
    (hrecs : st.recs = pre ++ r :: post)
    (hrate : (if r.Rate < 0 then st.prob.rate_main r else .done r) = .done r1)
    (hlag : st.prob.alag r.cmtn = .ok L)
    (hlag1 : (if r1.Ss > 0 then steady r1 st.prob Fn else st.prob).alag r.cmtn = .ok L)
    (hL : 0 < L) (hmin : mindt < L) :
    ∃ orig phantom : datarecord α,
      DEVTRAN_from_data datarecord.schedule steady mindt maxtime addl_ev_first Fn tto
          pre.length r st
        = .ok
          { prob := (if r.Ss > 0 then steady r1 st.prob Fn else st.prob),
            tfrom := (if r.Ss > 0 then tto else st.tfrom),
            recs := pre ++ orig :: phantom :: (post ++ phantom.addl_doses),
            sort_recs := true } ∧
      (r.Ss = 0 → (if r.Ss > 0 then steady r1 st.prob Fn else st.prob) = st.prob) ∧
      orig = { r with Rate := r1.Rate, Armed := false } ∧
      (∀ q, DEVTRAN_implement effect orig q = .ok q) ∧
      (∀ (int_infusion : datarecord α → Bool) (dur : datarecord α → α → α)
          (st1 : DoseBlock α),
        DEVTRAN_infusion_off int_infusion dur Fn orig st1 = .ok st1) ∧
      (∀ (tad : Bool) (tofd_i lag : α) (ts : TadState α),
        (DEVTRAN_tad_record tad mindt tofd_i lag orig ts).1.told = ts.told) ∧
      phantom = { r with Rate := r1.Rate, Pos := ALAG_POS, Output := false, Fromdata := false,
                         Time := r.Time + L, Ss := 0 } ∧
      phantom.Armed = true ∧ phantom.Time = r.Time + L ∧ phantom.Ss = 0 ∧
      phantom.Evid = r.Evid ∧ phantom.Amt = r.Amt ∧ phantom.Cmt = r.Cmt ∧
      phantom.Rate = r1.Rate ∧
      (∀ q, DEVTRAN_implement effect phantom q
        = if r.Evid ≠ 2 then effect phantom q else .ok q) := by
  have _ := hL
  have hr1 := rate_main_keeps_fields st.prob r r1 hrate
  have hss : r1.Ss = r.Ss := by
    rw [hr1]
  have main : DEVTRAN_from_data datarecord.schedule steady mindt maxtime addl_ev_first Fn tto
      pre.length r st
        = .ok
          { prob := (if r1.Ss > 0 then steady r1 st.prob Fn else st.prob),
            tfrom := (if r1.Ss > 0 then tto else st.tfrom),
            recs := pre ++ { r1 with Armed := false }
              :: { r1 with Pos := ALAG_POS, Output := false, Fromdata := false,
                           Time := r1.Time + L, Ss := 0 }
              :: (post ++ datarecord.addl_doses
                    { r1 with Pos := ALAG_POS, Output := false, Fromdata := false,
                              Time := r1.Time + L, Ss := 0 }),
            sort_recs := true } := by
    unfold DEVTRAN_from_data
    simp only [hfrom, if_true, hrate, hlag, hlag1, gt_iff_lt, hmin, hrecs,
      set_length_append, insert_after_cursor, datarecord.schedule, datarecord.phantom_rec,
      datarecord.unarm]
    rw [set_cursor_append]
  have e1 : ({ r1 with Armed := false } : datarecord α)
      = { r with Rate := r1.Rate, Armed := false } := by
    rw [hr1]
  have e2 : ({ r1 with Pos := ALAG_POS, Output := false, Fromdata := false,
                       Time := r1.Time + L, Ss := 0 } : datarecord α)
      = { r with Rate := r1.Rate, Pos := ALAG_POS, Output := false, Fromdata := false,
                 Time := r.Time + L, Ss := 0 } := by
    rw [hr1]
  rw [e1, e2, hss] at main
  refine ⟨{ r with Rate := r1.Rate, Armed := false },
    { r with Rate := r1.Rate, Pos := ALAG_POS, Output := false, Fromdata := false,
             Time := r.Time + L, Ss := 0 }, ?_, ?_, rfl, ?_, ?_, ?_, rfl, harmed, rfl, rfl,
    rfl, rfl, rfl, rfl, ?_⟩
  · exact main
  · intro h0
    rw [h0]
    simp
  · intro q
    simp [DEVTRAN_implement, datarecord.implement]
  · intro int_infusion dur st1
    simp [DEVTRAN_infusion_off]
  · intro tad tofd_i lag ts
    simp [DEVTRAN_tad_record]
  · intro q
    simp only [DEVTRAN_implement, datarecord.implement, harmed, if_true]

/-- Witness of C5: a bolus of 100 at time 0 into a compartment with lag 2. -/
theorem lagged_dose_is_replaced_by_phantom_witness :
    DEVTRAN_from_data datarecord.schedule (fun _ q _ => q) ((1 : ℚ) / 10 ^ 15) 24 true 1 0 0
      (inputDose 0 100 0 1)
      ({ prob := modelRateProblem 2, tfrom := 0, recs := [inputDose 0 100 0 1],
         sort_recs := false } : DoseBlock ℚ)
      = .ok ({ prob := modelRateProblem 2, tfrom := 0,
               recs := [{ inputDose (0 : ℚ) 100 0 1 with Armed := false },
                 { inputDose (0 : ℚ) 100 0 1 with
                   Pos := ALAG_POS, Fromdata := false, Time := 2 }],
               sort_recs := true } : DoseBlock ℚ) := by
  have hl : (modelRateProblem (2 : ℚ)).alag (inputDose (0 : ℚ) 100 0 1).cmtn = .ok 2 := by
    simp [modelRateProblem, odeproblem.alag, odeproblem.construct, vecAt, inputDose,
      datarecord.cmtn]
  obtain ⟨orig, phantom, h, _, ho, _, _, _, hp, _⟩ :=
    lagged_dose_is_replaced_by_phantom (fun _ q _ => q) (fun _ q => .ok q)
      ((1 : ℚ) / 10 ^ 15) 24 true 1 0
      [] [] (inputDose (0 : ℚ) 100 0 1) (inputDose (0 : ℚ) 100 0 1)
      ({ prob := modelRateProblem 2, tfrom := 0, recs := [inputDose 0 100 0 1],
         sort_recs := false } : DoseBlock ℚ) 2 rfl rfl rfl (by simp [inputDose]) hl
      (by simpa [inputDose] using hl) (by norm_num) (by norm_num)
  rw [ho, hp] at h
  simpa [inputDose, datarecord.addl_doses] using h

/-! ## C6 -/

/-- C6, evaluation at the failing input: a subject has armed doses at times
`-10` and `-5` (no lag) and an observation at time `-3`; the time of its
first dose is `-10`.  The most recent armed dose is the one at `-5`, so the
time after dose should be `-3 - (-5) = 2`; the driver writes
`-3 - (-10) = 7`, because `told = -5` fails the test `told > -1` that stands
for "a dose has been armed". -/
theorem tad_wrong_for_dose_times_at_most_minus_one :
    DEVTRAN_tad_subject true ((1 : ℚ) / 10 ^ 15) (-10)
      [({ inputDose (-10 : ℚ) 100 0 1 with Output := false }, 0),
       ({ inputDose (-5 : ℚ) 100 0 1 with Output := false }, 0),
       (observation (-3), 0)] = [7] ∧
    (7 : ℚ) ≠ -3 - (-5) := by
  constructor
  · norm_num [DEVTRAN_tad_subject, DEVTRAN_tad_rows, DEVTRAN_tad_record, inputDose,
      observation, datarecord.is_event]
  · norm_num

/-! ## C7 -/

section SoftStopLemmas

theorem assign_cell (m : NumericMatrix α) (i k i1 k1 : Nat) (v : Option α) :
    (m.assign i k v).cell i1 k1 = if i1 = i ∧ k1 = k then v else m.cell i1 k1 := rfl

/-- The loop `for(k=0; k < n; ++k) ans(crow,k) = NA_REAL;`. -/
theorem fill_missing_cell (n crow : Nat) (m : NumericMatrix α) :
    ((List.range n).foldl (fun m k => m.assign crow k none) m).ncol = m.ncol ∧
    ((List.range n).foldl (fun m k => m.assign crow k none) m).nrow = m.nrow ∧
    ∀ i k, ((List.range n).foldl (fun m k => m.assign crow k none) m).cell i k
      = if i = crow ∧ k < n then none else m.cell i k := by
  induction n with
  | zero => simp
  | succ n ih =>
    obtain ⟨h1, h2, h3⟩ := ih
    rw [List.range_succ, List.foldl_append]
    refine ⟨h1, h2, fun i k => ?_⟩
    simp only [List.foldl_cons, List.foldl_nil]
    rw [assign_cell, h3]
    by_cases hi : i = crow
    · by_cases hk : k = n
      · simp [hi, hk]
      · by_cases hk2 : k < n
        · simp [hi, hk, hk2, Nat.lt_succ_of_lt hk2]
        · have : ¬ k < n + 1 := by omega
          simp [hi, hk, hk2, this]
    · simp [hi]

/-- One output record in the soft-stop state "emit missing values". -/
theorem systemoff_missing_row [LinearOrderedField α] (lay : OutputLayout) (id : α) (r : datarecord α)
    (st : LoopState α)
    (h1 : st.prob.SYSTEMOFF % 65536 ≠ 1) (h9 : st.prob.SYSTEMOFF % 65536 ≠ 9)
    (h999 : st.prob.SYSTEMOFF % 65536 ≠ 999) :
    ∃ st1, DEVTRAN_systemoff lay id r st = .ok st1 ∧ st1.prob = st.prob ∧
      st1.ans.ncol = st.ans.ncol ∧
      st1.crow = st.crow + (if r.Output then 1 else 0) ∧
      ∀ i k, st1.ans.cell i k
        = if r.Output = true ∧ i = st.crow ∧ k < st.ans.ncol then none else st.ans.cell i k := by
  unfold DEVTRAN_systemoff
  simp only [if_neg h1, if_neg h9, if_neg h999]
  by_cases ho : r.Output = true
  · obtain ⟨f1, _, f3⟩ := fill_missing_cell st.ans.ncol st.crow st.ans
    rw [if_pos ho]
    refine ⟨_, rfl, rfl, f1, by simp [ho], fun i k => ?_⟩
    simp only [f3, ho, true_and]
  · rw [if_neg ho]
    refine ⟨st, rfl, rfl, rfl, by simp [ho], fun i k => ?_⟩
    simp [ho]

end SoftStopLemmas

/-- The remaining records of a subject in the soft-stop state "emit missing
values". -/
theorem soft_stop_rows [LinearOrderedField α]
    (body : datarecord α → LoopState α → Except String (LoopState α))
    (lay : OutputLayout) (nn : Nat) (id : α) (recs : List (datarecord α)) (st : LoopState α)
    (h0 : st.prob.SYSTEMOFF % 65536 ≠ 0) (h1 : st.prob.SYSTEMOFF % 65536 ≠ 1)
    (h9 : st.prob.SYSTEMOFF % 65536 ≠ 9) (h999 : st.prob.SYSTEMOFF % 65536 ≠ 999)
    (hroom : st.crow + outputCount recs ≤ nn) :
    ∃ st1, DEVTRAN_records body lay nn id recs st = .ok st1 ∧
      st1.prob = st.prob ∧
      st1.crow = st.crow + outputCount recs ∧
      (∀ i k, st.crow ≤ i → i < st.crow + outputCount recs → k < st.ans.ncol →
        st1.ans.cell i k = none) ∧
      (∀ i k, (i < st.crow ∨ st.crow + outputCount recs ≤ i) →
        st1.ans.cell i k = st.ans.cell i k) := by
  induction recs generalizing st with
  | nil =>
    refine ⟨st, rfl, rfl, by simp [outputCount], fun i k hi hlt _ => ?_, fun _ _ _ => rfl⟩
    simp [outputCount] at hlt
    omega
  | cons r rest ih =>
    have hne : st.prob.SYSTEMOFF ≠ 0 := by
      intro h
      rw [h] at h0
      exact h0 rfl
    have hcount : outputCount (r :: rest) = (if r.Output then 1 else 0) + outputCount rest := by
      unfold outputCount
      by_cases ho : r.Output = true
      · simp [ho, Nat.add_comm]
      · simp [ho]
    by_cases hskip : st.crow = nn
    · -- the table is full: nothing is left to write
      have hr : r.Output = false := by
        by_cases ho : r.Output = true
        · rw [hcount, if_pos ho] at hroom
          omega
        · simpa using ho
      have hrest : st.crow + outputCount rest ≤ nn := by
        rw [hcount] at hroom
        omega
      obtain ⟨st1, e1, e2, e3, e4, e5⟩ := ih st h0 h1 h9 h999 hrest
      have hc : outputCount (r :: rest) = outputCount rest := by rw [hcount, hr]; simp
      refine ⟨st1, ?_, e2, by rw [hc]; exact e3, by rw [hc]; exact e4, by rw [hc]; exact e5⟩
      simp only [DEVTRAN_records, DEVTRAN_record, if_pos hskip]
      exact e1
    · obtain ⟨s1, d1, d2, d3, d4, d5⟩ := systemoff_missing_row lay id r st h1 h9 h999
      have hrest : s1.crow + outputCount rest ≤ nn := by
        rw [d4]
        rw [hcount] at hroom
        omega
      obtain ⟨st1, e1, e2, e3, e4, e5⟩ := ih s1 (by rw [d2]; exact h0) (by rw [d2]; exact h1)
        (by rw [d2]; exact h9) (by rw [d2]; exact h999) hrest
      refine ⟨st1, ?_, by rw [e2, d2], by rw [e3, d4, hcount]; omega, fun i k hi hlt hk => ?_,
        fun i k hik => ?_⟩
      · simp only [DEVTRAN_records, DEVTRAN_record, if_neg hskip, hne, ne_eq,
          not_false_eq_true, if_true, d1]
        exact e1
      · rw [hcount] at hlt
        by_cases hin : s1.crow ≤ i
        · exact e4 i k hin (by rw [d4]; omega) (by rw [d3]; exact hk)
        · rw [e5 i k (Or.inl (not_le.mp hin)), d5]
          have ho : r.Output = true := by
            by_cases ho : r.Output = true
            · exact ho
            · rw [d4] at hin
              simp [ho] at hin
              omega
          have hi2 : i = st.crow := by
            rw [d4, if_pos ho] at hin
            omega
          simp [ho, hi2, hk]
      · rw [hcount] at hik
        have hout : i < s1.crow ∨ s1.crow + outputCount rest ≤ i := by
          rw [d4]
          rcases hik with h | h
          · left; omega
          · right; omega
        rw [e5 i k hout, d5]
        have hi2 : i ≠ st.crow ∨ r.Output ≠ true := by
          rcases hik with h | h
          · left; omega
          · by_cases ho : r.Output = true
            · left
              rw [if_pos ho] at h
              omega
            · right; exact ho
        rcases hi2 with h | h <;> simp [h]

/-- C7: once the soft-stop signal "emit missing values" is raised (the status
is none of 0, 1, 9, 999), the remaining records `recs` of the subject are
processed without error and without touching the problem; every record
flagged for output writes one row whose columns (among them the requested
compartments and the captured values) all hold the missing-value sentinel,
and moves the row cursor by one; all other rows are untouched; and
`reset_newid` clears the signal, so that the records of the next subject run
the ordinary loop body. -/
theorem soft_stop_emits_missing_rows [LinearOrderedField α]
    (body : datarecord α → LoopState α → Except String (LoopState α))
    (lay : OutputLayout) (nn : Nat) (id : α) (recs : List (datarecord α)) (st : LoopState α)
    (h0 : st.prob.SYSTEMOFF % 65536 ≠ 0) (h1 : st.prob.SYSTEMOFF % 65536 ≠ 1)
    (h9 : st.prob.SYSTEMOFF % 65536 ≠ 9) (h999 : st.prob.SYSTEMOFF % 65536 ≠ 999)
    (hroom : st.crow + outputCount recs ≤ nn) :
    ∃ st1, DEVTRAN_records body lay nn id recs st = .ok st1 ∧
      st1.prob = st.prob ∧
      st1.crow = st.crow + outputCount recs ∧
      (∀ i k, st.crow ≤ i → i < st.crow + outputCount recs → k < st.ans.ncol →
        st1.ans.cell i k = none) ∧
      (∀ i k, (i < st.crow ∨ st.crow + outputCount recs ≤ i) →
        st1.ans.cell i k = st.ans.cell i k) ∧
      (∀ id2, (st1.prob.reset_newid id2).SYSTEMOFF = 0) ∧
      (∀ id2 r2 ans2 crow2, crow2 ≠ nn →
        DEVTRAN_record body lay nn id2 r2
            { prob := st1.prob.reset_newid id2, ans := ans2, crow := crow2 }
          = body r2 { prob := st1.prob.reset_newid id2, ans := ans2, crow := crow2 }) := by
  obtain ⟨st1, e1, e2, e3, e4, e5⟩ := soft_stop_rows body lay nn id recs st h0 h1 h9 h999 hroom
  refine ⟨st1, e1, e2, e3, e4, e5, fun _ => rfl, fun id2 r2 ans2 crow2 hc => ?_⟩
  have hz : (st1.prob.reset_newid id2).SYSTEMOFF = 0 := rfl
  simp only [DEVTRAN_record, if_neg hc, hz, ne_eq, not_true_eq_false, if_false]

/-- Witness of C7: two observations remain after the model raised the signal
`2`; both rows are written with missing values. -/
theorem soft_stop_emits_missing_rows_witness :
    ∃ st1, DEVTRAN_records (fun _ s => .ok s) smallLayout 2 (1 : ℚ)
        [observation 1, observation 2]
        { prob := softStopProblem, ans := NumericMatrix.zeros 2 3, crow := 0 } = .ok st1 ∧
      st1.crow = 2 ∧
      st1.ans.cell 0 2 = none ∧ st1.ans.cell 1 2 = none := by
  obtain ⟨st1, e1, _, e3, e4, _⟩ := soft_stop_emits_missing_rows (fun _ s => .ok s)
    smallLayout 2 (1 : ℚ) [observation 1, observation 2]
    { prob := softStopProblem, ans := NumericMatrix.zeros 2 3, crow := 0 }
    (by simp [softStopProblem]) (by simp [softStopProblem]) (by simp [softStopProblem])
    (by simp [softStopProblem]) (by simp [outputCount, observation])
  have hc : outputCount [observation (1 : ℚ), observation 2] = 2 := by
    simp [outputCount, observation]
  rw [hc] at e3 e4
  exact ⟨st1, e1, by simpa using e3, e4 0 2 (by simp) (by simp) (by simp [NumericMatrix.zeros]),
    e4 1 2 (by simp) (by simp) (by simp [NumericMatrix.zeros])⟩

/-! ## C8 -/

theorem DEVTRAN_grid_push_not_fatal (tgridi : List Int)
    (designs : List (List (datarecord α))) (j : Int) (n : Nat) (recs : List (datarecord α))
    (e : String) : DEVTRAN_grid_push tgridi designs j n recs ≠ .fatal e := by
  unfold DEVTRAN_grid_push
  intro h
  by_cases hn : n = 0
  · rw [if_pos hn] at h; cases h
  · rw [if_neg hn] at h
    split at h
    · cases h
    · split at h
      · cases h
      · split_ifs at h

section SetupLemmas

theorem vecAt_error {β : Type} (v : List β) (i : Int) (e : String)
    (h : vecAt v i = .error e) : e = "std::out_of_range" := by
  unfold vecAt at h
  split_ifs at h
  · cases h; rfl
  · split at h
    · cases h
    · cases h; rfl

theorem DEVTRAN_grid_n_error (multiple_tgrid : Bool) (tgridi : List Int) (tgridn : List Nat)
    (j : Int) (e : String) (h : DEVTRAN_grid_n multiple_tgrid tgridi tgridn j = .error e) :
    e = "std::out_of_range" := by
  unfold DEVTRAN_grid_n at h
  cases multiple_tgrid with
  | false => exact vecAt_error _ _ _ (by simpa using h)
  | true =>
    simp only [if_true] at h
    cases hv : vecAt tgridi j with
    | error e1 =>
      rw [hv] at h
      cases h
      exact vecAt_error _ _ _ hv
    | ok d =>
      rw [hv] at h
      exact vecAt_error _ _ _ h

theorem DEVTRAN_grid_subject_fatal (sortRecs : List (datarecord α) → List (datarecord α))
    (multiple_tgrid : Bool) (tgridi : List Int) (tgridn : List Nat)
    (designs : List (List (datarecord α))) (idata_row : Nat → Int) (idx : Nat)
    (recs : List (datarecord α)) (e : String)
    (h : DEVTRAN_grid_subject sortRecs multiple_tgrid tgridi tgridn designs idata_row idx recs
      = .fatal e) : e = "std::out_of_range" := by
  unfold DEVTRAN_grid_subject at h
  dsimp only at h
  cases hn : DEVTRAN_grid_n multiple_tgrid tgridi tgridn
      (if multiple_tgrid = true then idata_row idx else 0) with
  | error e1 =>
    rw [hn] at h
    cases h
    exact DEVTRAN_grid_n_error _ _ _ _ _ hn
  | ok n =>
    rw [hn] at h
    dsimp only at h
    cases hp : DEVTRAN_grid_push tgridi designs
        (if multiple_tgrid = true then idata_row idx else 0) n recs with
    | fatal e1 => exact absurd hp (DEVTRAN_grid_push_not_fatal _ _ _ _ _ _)
    | undefined => rw [hp] at h; cases h
    | value r1 => rw [hp] at h; cases h

theorem DEVTRAN_grid_subjects_fatal (sortRecs : List (datarecord α) → List (datarecord α))
    (multiple_tgrid : Bool) (tgridi : List Int) (tgridn : List Nat)
    (designs : List (List (datarecord α))) (idata_row : Nat → Int)
    (a : List (List (datarecord α))) :
    ∀ (idx obscount : Nat) (e : String),
      DEVTRAN_grid_subjects sortRecs multiple_tgrid tgridi tgridn designs idata_row idx a obscount
        = .fatal e → e = "std::out_of_range" := by
  induction a with
  | nil => intro idx obscount e h; cases h
  | cons recs rest ih =>
    intro idx obscount e h
    unfold DEVTRAN_grid_subjects at h
    split at h
    · rename_i e1 h1
      cases h
      exact DEVTRAN_grid_subject_fatal _ _ _ _ _ _ _ _ _ h1
    · cases h
    · split at h
      · rename_i e2 h2
        cases h
        exact ih _ _ _ h2
      · cases h
      · cases h

theorem DEVTRAN_grid_fatal [LinearOrderedField α] (sortRecs : List (datarecord α) → List (datarecord α))
    (inp : SetupInput α) (obsaug : Bool) (nextpos : Int) (e : String)
    (h : DEVTRAN_grid sortRecs inp obsaug nextpos = .fatal e) :
    e = "Length of design indicator less than NID." ∨
    e = "Insufficient number of designs specified for this problem." ∨
    e = "std::out_of_range" := by
  unfold DEVTRAN_grid at h
  dsimp only at h
  split_ifs at h <;> first
    | exact Or.inr (Or.inr (DEVTRAN_grid_subjects_fatal _ _ _ _ _ _ _ _ _ _ h))
    | (injection h with h; first | exact Or.inl h.symm | exact Or.inr (Or.inl h.symm))

theorem DEVTRAN_tofd_error [LinearOrderedField α] (tad : Bool) (a : List (List (datarecord α))) (e : String)
    (h : DEVTRAN_tofd tad a = .error e) :
    e = "There was a problem finding time of first dose." := by
  unfold DEVTRAN_tofd at h
  dsimp only at h
  split_ifs at h <;> (injection h with h; exact h.symm)

theorem DEVTRAN_recsort_error (recsort : Int) (e : String)
    (h : DEVTRAN_recsort recsort = .error e) :
    e = "recsort must be 1, 2, 3, or 4." ∧
      recsort ≠ 1 ∧ recsort ≠ 2 ∧ recsort ≠ 3 ∧ recsort ≠ 4 := by
  unfold DEVTRAN_recsort at h
  split_ifs at h with h1 h2 h3 h4
  cases h
  exact ⟨rfl, h1, h2, h3, h4⟩

theorem DEVTRAN_recsort_invalid (recsort : Int)
    (h : recsort ≠ 1 ∧ recsort ≠ 2 ∧ recsort ≠ 3 ∧ recsort ≠ 4) :
    DEVTRAN_recsort recsort = .error "recsort must be 1, 2, 3, or 4." := by
  unfold DEVTRAN_recsort
  rw [if_neg h.1, if_neg h.2.1, if_neg h.2.2.1, if_neg h.2.2.2]

end SetupLemmas

/-- C8: the setup raises "recsort must be 1, 2, 3, or 4." if and only if the
option `recsort` is none of 1, 2, 3, 4; and when it raises it, nothing has
been created yet: no problem object, no call of a model function, no result
table. -/
theorem recsort_error_iff_invalid [LinearOrderedField α]
    (sortRecs : List (datarecord α) → List (datarecord α)) (inp : SetupInput α) :
    ((DEVTRAN_setup sortRecs inp).result = .fatal "recsort must be 1, 2, 3, or 4." ↔
      (inp.recsort ≠ 1 ∧ inp.recsort ≠ 2 ∧ inp.recsort ≠ 3 ∧ inp.recsort ≠ 4)) ∧
    ((DEVTRAN_setup sortRecs inp).result = .fatal "recsort must be 1, 2, 3, or 4." →
      (DEVTRAN_setup sortRecs inp).events = []) := by
  have key : (DEVTRAN_setup sortRecs inp).result = .fatal "recsort must be 1, 2, 3, or 4." →
      (inp.recsort ≠ 1 ∧ inp.recsort ≠ 2 ∧ inp.recsort ≠ 3 ∧ inp.recsort ≠ 4) := by
    intro h
    unfold DEVTRAN_setup at h
    simp only at h
    split at h
    · rename_i e he
      exact (DEVTRAN_recsort_error _ _ he).2
    · split at h
      · rename_i e he
        have h1 := DEVTRAN_tofd_error _ _ _ he
        have h2 : e = "recsort must be 1, 2, 3, or 4." := by
          injection h
        rw [h1] at h2
        exact absurd h2 (by decide)
      · split at h
        · rename_i e he
          simp only at h
          have h2 : e = "recsort must be 1, 2, 3, or 4." := by
            injection h
          rcases DEVTRAN_grid_fatal _ _ _ _ _ he with h3 | h3 | h3 <;>
            · rw [h3] at h2
              exact absurd h2 (by decide)
        · cases h
        · cases h
  refine ⟨⟨key, fun h => ?_⟩, fun h => ?_⟩
  · unfold DEVTRAN_setup
    simp only [DEVTRAN_recsort_invalid _ h]
  · unfold DEVTRAN_setup
    simp only [DEVTRAN_recsort_invalid _ (key h)]

/-! ## C9 -/

/-- C9, evaluation at the failing input: with a single design (a grid matrix
of one column) and the design indicator `whichtg = [1]`, no error is raised
and the lookup `designs[tgridi[0]]` reads `designs[1]` outside the vector of
length one, which is undefined; the multiple-design path rejects the
analogous input (`whichtg = [2]` for two designs) with a fatal error. -/
theorem single_design_index_unchecked :
    (DEVTRAN_setup id (gridInput 1 [1] : SetupInput ℚ)).result = .undefined ∧
    (DEVTRAN_setup id (gridInput 2 [2] : SetupInput ℚ)).result
      = .fatal "Insufficient number of designs specified for this problem." := by
  constructor
  · simp [DEVTRAN_setup, DEVTRAN_recsort, DEVTRAN_tofd, DEVTRAN_grid, gridInput,
      DEVTRAN_grid_subjects, DEVTRAN_grid_subject, DEVTRAN_grid_n, DEVTRAN_grid_push,
      vecAt, vecIdx, intMax, List.range_succ]
  · simp [DEVTRAN_setup, DEVTRAN_recsort, DEVTRAN_tofd, DEVTRAN_grid, gridInput, intMax]

/-! ## C10 -/

/-- Counterexample to C10, in a model with one compartment, while the record
at time 10 is processed.  A dose (event kind 1) requested into compartment
number 0 at the past time 5 is skipped before its compartment number is
looked at, so the run does not abort.  A dose requested at time 12 into the
compartment number `INT_MIN`, whose absolute value exceeds every `neq`, is
accepted and scheduled, because `abs` gives `INT_MIN` back. -/
theorem past_model_event_is_not_range_checked :
    DEVTRAN_mtime_event (fun _ q => .ok q) id 1 0 (10 : ℚ)
      { time := 5, evid := 1, amt := 100, cmt := 0, now := false } mtimeStart
      = .ok mtimeStart ∧
    DEVTRAN_mtime_event (fun _ q => .ok q) id 1 0 (10 : ℚ)
      { time := 12, evid := 1, amt := 100, cmt := -2147483648, now := false } mtimeStart
      = .ok { mtimeStart with
          recs := [observation 10, (eventRecord (-2147483648) 1 100 12 0).phantom_rec]
          mtimehx := [(eventRecord (-2147483648) 1 100 12 0).phantom_rec] } := by
  constructor
  · unfold DEVTRAN_mtime_event
    norm_num
  · unfold DEVTRAN_mtime_event
    norm_num [int_abs, CompEqual, mtimeStart]

/-- C10, amended: for an event requested by the model with a non-zero event
kind, in a model with at least one compartment, whose requested time is not
before the time `tto` of the record being processed, the run aborts with
"Compartment number in modeled event out of range." if and only if the
compartment number is 0 or, not being `INT_MIN`, has an absolute value that
exceeds `neq`, whether the event is of the kind "apply now" or "schedule";
an event requested for a time before `tto` is skipped without any check.
(`implement`, which an accepted "apply now" event calls, raises other errors
only.) -/
theorem model_event_range_check [LinearOrderedField α]
    (implement : datarecord α → odeproblem α → Except String (odeproblem α))
    (sortRecs : List (datarecord α) → List (datarecord α))
    (neq j : Nat) (tto : α) (ev : evdata α) (st : MtimeState α)
    (hneq : 0 < neq) (hevid : ev.evid ≠ 0)
    (himpl : ∀ r q e, implement r q = .error e →
      e ≠ "Compartment number in modeled event out of range.") :
    (tto ≤ ev.time →
      (DEVTRAN_mtime_event implement sortRecs neq j tto ev st
          = .error "Compartment number in modeled event out of range."
        ↔ (ev.cmt = 0 ∨ (ev.cmt ≠ -2147483648 ∧ |ev.cmt| > (neq : Int))))) ∧
    (ev.time < tto → DEVTRAN_mtime_event implement sortRecs neq j tto ev st = .ok st) := by
  have hn : neq ≠ 0 := by omega
  have habs : (ev.cmt = 0 ∨ int_abs ev.cmt > (neq : Int)) ↔
      (ev.cmt = 0 ∨ (ev.cmt ≠ -2147483648 ∧ |ev.cmt| > (neq : Int))) := by
    unfold int_abs
    by_cases hm : ev.cmt = -2147483648
    · rw [if_pos hm]
      constructor
      · rintro (h | h)
        · exact Or.inl h
        · omega
      · rintro (h | ⟨h, _⟩)
        · exact Or.inl h
        · exact absurd hm h
    · rw [if_neg hm]
      constructor
      · rintro (h | h)
        · exact Or.inl h
        · exact Or.inr ⟨hm, h⟩
      · rintro (h | ⟨_, h⟩)
        · exact Or.inl h
        · exact Or.inr h
  refine ⟨fun htime => ?_, fun htime => ?_⟩
  · rw [← habs]
    unfold DEVTRAN_mtime_event
    dsimp only
    rw [if_neg (not_lt.mpr htime)]
    by_cases hc : ev.cmt = 0 ∨ int_abs ev.cmt > (neq : Int)
    · rw [if_pos ⟨hn, hevid, hc⟩]
      exact ⟨fun _ => hc, fun _ => rfl⟩
    · rw [if_neg (fun h => hc h.2.2)]
      refine ⟨fun h => ?_, fun h => absurd h hc⟩
      exfalso
      cases hnow : ev.now with
      | true =>
        rw [hnow] at h
        simp only [if_true] at h
        cases hi : implement
            (eventRecord ev.cmt ev.evid ev.amt ev.time 0).phantom_rec st.prob with
        | error e =>
          rw [hi] at h
          have he : e = "Compartment number in modeled event out of range." := by
            injection h
          exact himpl _ _ _ hi he
        | ok q =>
          rw [hi] at h
          cases h
      | false =>
        rw [hnow] at h
        simp only [Bool.false_eq_true, if_false] at h
        split_ifs at h
  · unfold DEVTRAN_mtime_event
    dsimp only
    rw [if_pos htime]

/-- Witness of C10: a scheduled dose into compartment number 2 of a model
with one compartment aborts the run. -/
theorem model_event_range_check_witness :
    DEVTRAN_mtime_event (fun _ q => .ok q) id 1 0 (10 : ℚ)
      { time := 12, evid := 1, amt := 100, cmt := 2, now := false } mtimeStart
      = .error "Compartment number in modeled event out of range." :=
  ((model_event_range_check (fun _ q => .ok q) id 1 0 (10 : ℚ)
    { time := 12, evid := 1, amt := 100, cmt := 2, now := false } mtimeStart
    (by decide) (by decide)
    (by intro r q e h; cases h)).1 (by norm_num)).mpr (Or.inr (by decide))

/-! ## C12 -/

section AdvanLemmas

variable [LinearOrderedField α]

/-- A call of `PolyExp` without dosing interval (`tau ≤ 0`) never reaches the
fatal branch. -/
theorem PolyExp_no_interval_ok (exp trunc : α → α) (x dose rate xinf tau : α) (ss : Bool)
    (a alpha : List α) (n : Nat) (htau : tau ≤ 0) :
    ∃ v, PolyExp exp trunc x dose rate xinf tau ss a alpha n = .ok v := by
  unfold PolyExp
  simp only [htau, if_true]
  split_ifs <;> exact ⟨_, rfl⟩

theorem advan2_depot_ok (exp trunc : α → α) (Neq : Nat) (R0 a alpha : List α)
    (dt init0 ka : α) :
    ∃ v, advan2_depot exp trunc Neq R0 a alpha dt init0 ka = .ok v := by
  unfold advan2_depot
  obtain ⟨u, hu⟩ := PolyExp_no_interval_ok exp trunc dt init0 0 0 0 false a alpha 2 le_rfl
  obtain ⟨v, hv⟩ := PolyExp_no_interval_ok exp trunc dt 0 (R0.getD 0 0) dt 0 false a alpha 2
    le_rfl
  rw [hu, hv]
  split_ifs <;> exact ⟨_, rfl⟩

theorem PolyExp_tau0_ne_error (exp trunc : α → α) (x dose rate xinf : α) (ss : Bool)
    (a alpha : List α) (n : Nat) (e : String) :
    PolyExp exp trunc x dose rate xinf 0 ss a alpha n ≠ .error e := by
  obtain ⟨v, hv⟩ := PolyExp_no_interval_ok exp trunc x dose rate xinf 0 ss a alpha n le_rfl
  rw [hv]
  intro h
  cases h

theorem advan2_depot_ne_error (exp trunc : α → α) (Neq : Nat) (R0 a alpha : List α)
    (dt init0 ka : α) (e : String) :
    advan2_depot exp trunc Neq R0 a alpha dt init0 ka ≠ .error e := by
  obtain ⟨v, hv⟩ := advan2_depot_ok exp trunc Neq R0 a alpha dt init0 ka
  rw [hv]
  intro h
  cases h

/-- With valid parameters `advan2` completes. -/
theorem advan2_valid_completes (exp trunc : α → α) (M : PredMacros α) (p : odeproblem α)
    (tfrom tto : α) (hCL : ¬ M.CL p.pred ≤ 0) (hVC : ¬ M.VC p.pred ≤ 0)
    (hk : ¬ M.K10 p.pred ≤ 0) : (p.advan2 exp trunc M tfrom tto).failed = false := by
  unfold odeproblem.advan2
  dsimp only
  rw [if_neg hCL, if_neg hVC, if_neg hk]
  split
  · exfalso
    apply advan2_depot_ne_error exp trunc
    assumption
  · split_ifs
    all_goals
      first
        | rfl
        | (split
           all_goals
             first
               | rfl
               | (exfalso; apply PolyExp_tau0_ne_error exp trunc; assumption))

end AdvanLemmas

/-- C12: `advan2` stops with an error if and only if `CL ≤ 0`, `VC ≤ 0` or
`k10 ≤ 0`; when it stops the state (in particular every compartment amount)
is unchanged; for all other parameter values it completes, and no call of
`PolyExp` it makes (all have `tau = 0`) reaches the fatal branch. -/
theorem advan2_stops_iff_invalid_parameters [LinearOrderedField α] (exp trunc : α → α)
    (M : PredMacros α) (p : odeproblem α) (tfrom tto : α) :
    ((p.advan2 exp trunc M tfrom tto).failed = true ↔
      (M.CL p.pred ≤ 0 ∨ M.VC p.pred ≤ 0 ∨ M.K10 p.pred ≤ 0)) ∧
    ((p.advan2 exp trunc M tfrom tto).failed = true →
      (p.advan2 exp trunc M tfrom tto).state = p) ∧
    (∀ (x dose rate xinf : α) (ss : Bool) (a alpha : List α) (n : Nat),
      ∃ v, PolyExp exp trunc x dose rate xinf 0 ss a alpha n = .ok v) := by
  refine ⟨?_, ?_, fun x dose rate xinf ss a alpha n =>
    PolyExp_no_interval_ok exp trunc x dose rate xinf 0 ss a alpha n le_rfl⟩
  all_goals
    by_cases hCL : M.CL p.pred ≤ 0
    · unfold odeproblem.advan2
      simp [hCL, Outcome.failed, Outcome.state]
    · by_cases hVC : M.VC p.pred ≤ 0
      · unfold odeproblem.advan2
        simp [hCL, hVC, Outcome.failed, Outcome.state]
      · by_cases hk : M.K10 p.pred ≤ 0
        · unfold odeproblem.advan2
          simp [hCL, hVC, hk, Outcome.failed, Outcome.state]
        · rw [advan2_valid_completes exp trunc M p tfrom tto hCL hVC hk]
          simp [hCL, hVC, hk]

/-! ## C13 -/

section Advan4Lemmas

variable [LinearOrderedField α]

theorem advan4_calls_ne_error (exp trunc : α → α) (dt dose rate : α) (alpha : List α)
    (n : Nat) (a : List α) (e : String × List α) :
    advan4_calls exp trunc dt dose rate alpha n a ≠ .error e := by
  unfold advan4_calls
  obtain ⟨u, hu⟩ := PolyExp_no_interval_ok exp trunc dt dose 0 0 0 false a alpha n le_rfl
  obtain ⟨v, hv⟩ := PolyExp_no_interval_ok exp trunc dt 0 rate dt 0 false a alpha n le_rfl
  rw [hu, hv]
  intro h
  cases h

theorem advan4_depot_ne_error (exp trunc : α → α) (Neq : Nat) (R0 alpha : List α)
    (dt init0 ka k12 k21 : α) (acc : Advan4Acc α) (e : String × List α) :
    advan4_depot exp trunc Neq R0 alpha dt init0 ka k12 k21 acc ≠ .error e := by
  unfold advan4_depot
  dsimp only
  intro h
  split_ifs at h
  · split at h
    · exact advan4_calls_ne_error exp trunc _ _ _ _ _ _ _ (by assumption)
    · split at h
      · exact advan4_calls_ne_error exp trunc _ _ _ _ _ _ _ (by assumption)
      · cases h

theorem advan4_central_ne_error (exp trunc : α → α) (alpha : List α)
    (dt init1 r1 k12 k21 : α) (acc : Advan4Acc α) (e : String × List α) :
    advan4_central exp trunc alpha dt init1 r1 k12 k21 acc ≠ .error e := by
  unfold advan4_central
  dsimp only
  intro h
  split_ifs at h
  · split at h
    · exact advan4_calls_ne_error exp trunc _ _ _ _ _ _ _ (by assumption)
    · split at h
      · exact advan4_calls_ne_error exp trunc _ _ _ _ _ _ _ (by assumption)
      · cases h

theorem advan4_peripheral_ne_error (exp trunc : α → α) (alpha : List α)
    (dt init2 r2 k10 k12 k21 : α) (acc : Advan4Acc α) (e : String × List α) :
    advan4_peripheral exp trunc alpha dt init2 r2 k10 k12 k21 acc ≠ .error e := by
  unfold advan4_peripheral
  dsimp only
  intro h
  split_ifs at h
  · split at h
    · exact advan4_calls_ne_error exp trunc _ _ _ _ _ _ _ (by assumption)
    · split at h
      · exact advan4_calls_ne_error exp trunc _ _ _ _ _ _ _ (by assumption)
      · cases h

/-- With valid parameters `advan4` completes, and the exponents it leaves in
`alpha` are those of `advan4_alpha`. -/
theorem advan4_valid_completes (exp sqrt trunc : α → α) (M : PredMacros α)
    (p : odeproblem α) (tfrom tto : α) (hVC : ¬ M.VC p.pred ≤ 0) (hVP : ¬ M.VP p.pred ≤ 0)
    (hQ : ¬ M.Q p.pred < 0) (hCL : ¬ M.CL p.pred ≤ 0) :
    (p.advan4 exp sqrt trunc M tfrom tto).failed = false ∧
    (p.advan4 exp sqrt trunc M tfrom tto).state.alpha
      = advan4_alpha sqrt (M.KA p.pred) (M.K10 p.pred) (M.K12 p.pred) (M.K21 p.pred)
          p.alpha := by
  unfold odeproblem.advan4
  dsimp only
  rw [if_neg hVC, if_neg hVP, if_neg hQ, if_neg hCL]
  split
  · exfalso
    apply advan4_depot_ne_error exp trunc
    assumption
  · split
    · exfalso
      apply advan4_central_ne_error exp trunc
      assumption
    · split
      · exfalso
        apply advan4_peripheral_ne_error exp trunc
        assumption
      · split_ifs <;> exact ⟨rfl, rfl⟩

end Advan4Lemmas

/-- Counterexample to C13: with `Q = 0` (and `VC`, `VP`, `CL` positive)
`advan4` does not stop: the check on `Q` is `Q < 0`. -/
theorem advan4_accepts_zero_Q :
    ratioMacros.Q (twoCmtProblem (100 : ℝ) 0).pred = 0 ∧
    ((twoCmtProblem (100 : ℝ) 0).advan4 Real.exp Real.sqrt id ratioMacros 0 1).failed
      = false := by
  refine ⟨by simp [ratioMacros, twoCmtProblem], ?_⟩
  exact (advan4_valid_completes Real.exp Real.sqrt id ratioMacros (twoCmtProblem (100 : ℝ) 0)
    0 1 (by simp [ratioMacros, twoCmtProblem]) (by simp [ratioMacros, twoCmtProblem])
    (by simp [ratioMacros, twoCmtProblem]) (by simp [ratioMacros, twoCmtProblem])).1

/-- C13, amended: `advan4` stops with an error if and only if `VC ≤ 0`,
`VP ≤ 0`, `Q < 0` or `CL ≤ 0` (a zero `Q` is accepted); when it stops the
state, and with it every compartment amount, is unchanged. -/
theorem advan4_stops_iff_invalid_parameters [LinearOrderedField α] (exp sqrt trunc : α → α)
    (M : PredMacros α) (p : odeproblem α) (tfrom tto : α) :
    ((p.advan4 exp sqrt trunc M tfrom tto).failed = true ↔
      (M.VC p.pred ≤ 0 ∨ M.VP p.pred ≤ 0 ∨ M.Q p.pred < 0 ∨ M.CL p.pred ≤ 0)) ∧
    ((p.advan4 exp sqrt trunc M tfrom tto).failed = true →
      (p.advan4 exp sqrt trunc M tfrom tto).state = p) := by
  by_cases hVC : M.VC p.pred ≤ 0
  · unfold odeproblem.advan4
    simp [hVC, Outcome.failed, Outcome.state]
  · by_cases hVP : M.VP p.pred ≤ 0
    · unfold odeproblem.advan4
      simp [hVC, hVP, Outcome.failed, Outcome.state]
    · by_cases hQ : M.Q p.pred < 0
      · unfold odeproblem.advan4
        simp [hVC, hVP, hQ, Outcome.failed, Outcome.state]
      · by_cases hCL : M.CL p.pred ≤ 0
        · unfold odeproblem.advan4
          simp [hVC, hVP, hQ, hCL, Outcome.failed, Outcome.state]
        · rw [(advan4_valid_completes exp sqrt trunc M p tfrom tto hVC hVP hQ hCL).1]
          simp [hVC, hVP, hQ, hCL]

/-! ## C14 -/

/-- C14, evaluation at the failing input: a repeated infusion (not at steady
state) with the positive duration `xinf = 1`, shorter than the dosing
interval `tau = 2`, is fatal: the test of the source is `xinf <= tau`, the
opposite of the assertion `xinf <= tau` that the comment next to it keeps. -/
theorem PolyExp_fatal_for_positive_xinf :
    PolyExp Real.exp id 0 0 1 1 2 false [1] [1] 1 = .error "xinf <= tau in PolyExp" := by
  unfold PolyExp
  norm_num

/-- The fatal branch of `PolyExp` as it is written: the function raises an
error exactly in the repeated-dosing and steady-state infusion branches
(`rate > 0`, `xinf < 1e9`, `tau > 0`, `ss` false or true) when `xinf ≤ tau`;
the only message is "xinf <= tau in PolyExp". -/
theorem PolyExp_fatal_iff [LinearOrderedField α] (exp trunc : α → α)
    (x dose rate xinf tau : α) (ss : Bool) (a alpha : List α) (n : Nat) :
    ((∃ e, PolyExp exp trunc x dose rate xinf tau ss a alpha n = .error e) ↔
      (0 < rate ∧ xinf < 1000000000 ∧ 0 < tau ∧ xinf ≤ tau)) ∧
    (∀ e, PolyExp exp trunc x dose rate xinf tau ss a alpha n = .error e →
      e = "xinf <= tau in PolyExp") ∧
    ((∃ v, PolyExp exp trunc x dose rate xinf tau ss a alpha n = .ok v) ↔
      ¬ (0 < rate ∧ xinf < 1000000000 ∧ 0 < tau ∧ xinf ≤ tau)) := by
  by_cases hc : 0 < rate ∧ xinf < 1000000000 ∧ 0 < tau ∧ xinf ≤ tau
  · obtain ⟨h1, h2, h3, h4⟩ := hc
    have he : PolyExp exp trunc x dose rate xinf tau ss a alpha n
        = .error "xinf <= tau in PolyExp" := by
      unfold PolyExp
      have htau : ¬ tau ≤ 0 := not_le.mpr h3
      cases ss <;> simp [h1, h2, htau, h4]
    rw [he]
    refine ⟨⟨fun _ => ⟨h1, h2, h3, h4⟩, fun _ => ⟨_, rfl⟩⟩, fun e h => ?_, ?_⟩
    · injection h with h
      exact h.symm
    · constructor
      · rintro ⟨v, hv⟩
        cases hv
      · intro h
        exact absurd ⟨h1, h2, h3, h4⟩ h
  · have hok : ∃ v, PolyExp exp trunc x dose rate xinf tau ss a alpha n = .ok v := by
      unfold PolyExp
      dsimp only
      by_cases hr : 0 < rate ∧ xinf < 1000000000
      · by_cases htau : tau ≤ 0
        · simp only [gt_iff_lt, hr, and_self, if_true, htau]
          split_ifs <;> exact ⟨_, rfl⟩
        · have hx : ¬ xinf ≤ tau := fun h => hc ⟨hr.1, hr.2, not_le.mp htau, h⟩
          simp only [gt_iff_lt, hr, and_self, if_true, htau, if_false, hx]
          split_ifs <;> exact ⟨_, rfl⟩
      · simp only [gt_iff_lt, hr, if_false]
        split_ifs <;> exact ⟨_, rfl⟩
    obtain ⟨v, hv⟩ := hok
    rw [hv]
    refine ⟨⟨?_, fun h => absurd h hc⟩, fun e h => ?_, ⟨fun _ => hc, fun _ => ⟨v, rfl⟩⟩⟩
    · rintro ⟨e, he⟩
      cases he
    · cases h

/-! ## C15 -/

/-- C15: for every dose `D > 0`, rate constant `k > 0` and dosing interval
`tau > 0`, the steady-state call `PolyExp(x = 0, dose = D, rate = 0,
xinf = 0, tau, ss = true, a = [1], alpha = [k], n = 1)` returns
`D / (1 - exp(-k*tau))` in real arithmetic, and no division of the call is a
division by zero. -/
theorem PolyExp_steady_state_bolus (trunc : ℝ → ℝ) (D k tau : ℝ)
    (hD : 0 < D) (hk : 0 < k) (htau : 0 < tau) :
    PolyExp Real.exp trunc 0 D 0 0 tau true [1] [k] 1
      = .ok (D / (1 - Real.exp (-k * tau))) ∧
    PolyExp_checked Real.exp trunc 0 D 0 0 tau true [1] [k] 1
      = .ok (some (D / (1 - Real.exp (-k * tau)))) := by
  have h1 : ¬ tau ≤ 0 := not_le.mpr htau
  have hv : PolyExp Real.exp trunc 0 D 0 0 tau true [1] [k] 1
      = .ok (D / (1 - Real.exp (-k * tau))) := by
    unfold PolyExp
    simp [hD, h1, forSum_one]
    ring
  refine ⟨hv, ?_⟩
  have hkt : 0 < k * tau := mul_pos hk htau
  have hexp : Real.exp (-(k * tau)) < 1 := by
    have := Real.exp_lt_exp.mpr (show -(k * tau) < 0 by linarith)
    simpa using this
  have hdiv : (0 : ℝ) ∉ PolyExp_divisors Real.exp trunc 0 D 0 0 tau true [k] 1 := by
    unfold PolyExp_divisors
    simp [hD, h1, List.range_succ]
    refine ⟨ne_of_lt htau, ?_, ne_of_lt hk⟩
    intro h
    linarith
  unfold PolyExp_checked
  rw [hv]
  simp only [if_neg hdiv]

/-- Witness of C15: dose 100, `k = 1`, `tau = 12`. -/
theorem PolyExp_steady_state_bolus_witness :
    PolyExp Real.exp id 0 100 0 0 12 true [1] [1] 1
      = .ok (100 / (1 - Real.exp (-12))) := by
  have h := (PolyExp_steady_state_bolus id 100 1 12 (by norm_num) (by norm_num)
    (by norm_num)).1
  simpa using h

/-! ## C16 -/

section GridLemmas

end GridLemmas

/-- C18, evaluation at the failing input: after two bolus doses of 1 given
`tau = 1` apart (`a = [1]`, `alpha = [1]`), the repeated-dosing branch of
`PolyExp` at the time `x = tau` of the second dose returns
`exp(-1) * (1 + exp(-1))`, while the superposition of the two single doses,
`PolyExp(0, ...) + PolyExp(tau, ...)` with `tau = 0`, is `1 + exp(-1)`: the
branch multiplies the geometric series by `exp(-alpha*x)` where the time
`dx` within the dosing cycle is meant (`dx` is computed and not used). -/
theorem PolyExp_repeated_bolus_not_superposition :
    PolyExp Real.exp id 1 1 0 0 1 false [1] [1] 1
      = .ok (Real.exp (-1) * (1 + Real.exp (-1))) ∧
    PolyExp Real.exp id 0 1 0 0 0 false [1] [1] 1 = .ok 1 ∧
    PolyExp Real.exp id 1 1 0 0 0 false [1] [1] 1 = .ok (Real.exp (-1)) ∧
    Real.exp (-1) * (1 + Real.exp (-1)) ≠ 1 + Real.exp (-1) := by
  have hq0 : 0 < Real.exp (-1) := Real.exp_pos _
  have hq1 : Real.exp (-1) < 1 := by
    simp
  have hq2 : Real.exp (-2) = Real.exp (-1) * Real.exp (-1) := by
    rw [← Real.exp_add]
    norm_num
  refine ⟨?_, ?_, ?_, ?_⟩
  · unfold PolyExp
    have hne : 1 - Real.exp (-1) ≠ 0 := by linarith
    norm_num [forSum_one]
    rw [hq2]
    field_simp
    ring
  · unfold PolyExp
    norm_num [forSum_one]
  · unfold PolyExp
    norm_num [forSum_one]
  · intro h
    have : (Real.exp (-1) - 1) * (1 + Real.exp (-1)) = 0 := by linarith
    rcases mul_eq_zero.mp this with h1 | h1 <;> linarith

/-! ## C19 -/

/-- Counterexample to C19, in the arithmetic of `double`.  For the rate
constants `k10 = k21 = 1` and `k12 = 1e-17 > 0` the sum `ksum` is rounded to
2 and the discriminant to 0: the exponents coincide, `alpha[0] = alpha[1] =
1`, and `a[0] = (k21 - alpha[0])/(alpha[1] - alpha[0])` of `advan4` is `0/0`,
a NaN.  For `k10 = 0.1` and `k12 = k21 = 1e-18 > 0` (`CL = 1`, `VC = VP = 10`,
`Q = 1e-17`) the square root is rounded to `ksum` and the exponent `alpha[1]`
is zero. -/
theorem advan4_exponents_collapse_in_double :
    Double.pos Double.tiny = true ∧
    advan4_alpha Double.sqrt 1 1 Double.tiny 1 [0, 0, 0] = [1, 1, 1] ∧
    (advan4_alpha Double.sqrt 1 1 Double.tiny 1 [0, 0, 0]).getD 1 0
      - (advan4_alpha Double.sqrt 1 1 Double.tiny 1 [0, 0, 0]).getD 0 0 = 0 ∧
    (1 - (advan4_alpha Double.sqrt 1 1 Double.tiny 1 [0, 0, 0]).getD 0 0)
      / ((advan4_alpha Double.sqrt 1 1 Double.tiny 1 [0, 0, 0]).getD 1 0
          - (advan4_alpha Double.sqrt 1 1 Double.tiny 1 [0, 0, 0]).getD 0 0) = Double.nan ∧
    Double.pos (Double.tiny / 10) = true ∧
    advan4_alpha Double.sqrt 1 (1 / 10) (Double.tiny / 10) (Double.tiny / 10) [0, 0, 0]
      = [1 / 10, 0, 1] := by
  set_option maxRecDepth 1000000 in decide

/-- C19, amended: in real arithmetic, for rate constants `k10 > 0`,
`k12 > 0`, `k21 > 0` (and parameters that pass the checks of `advan4`), the
exponents `alpha[0]`, `alpha[1]` that `advan4` computes are the real roots of
`x^2 - (k10 + k12 + k21)*x + k10*k21 = 0`: the discriminant is positive,
their sum is `k10 + k12 + k21`, their product `k10*k21`, and
`0 < alpha[1] < alpha[0]`; so `alpha[1] - alpha[0]`, `alpha[0]` and
`alpha[1]` are not zero. -/
theorem advan4_exponents_are_roots (trunc : ℝ → ℝ) (M : PredMacros ℝ) (p : odeproblem ℝ)
    (tfrom tto : ℝ)
    (hVC : 0 < M.VC p.pred) (hVP : 0 < M.VP p.pred) (hQ : 0 ≤ M.Q p.pred)
    (hCL : 0 < M.CL p.pred) (hlen : 2 ≤ p.alpha.length)
    (h10 : 0 < M.K10 p.pred) (h12 : 0 < M.K12 p.pred) (h21 : 0 < M.K21 p.pred) :
    (p.advan4 Real.exp Real.sqrt trunc M tfrom tto).failed = false ∧
    0 < (M.K10 p.pred + M.K12 p.pred + M.K21 p.pred)
          * (M.K10 p.pred + M.K12 p.pred + M.K21 p.pred)
        - 4 * M.K10 p.pred * M.K21 p.pred ∧
    (p.advan4 Real.exp Real.sqrt trunc M tfrom tto).state.alpha.getD 0 0
        + (p.advan4 Real.exp Real.sqrt trunc M tfrom tto).state.alpha.getD 1 0
      = M.K10 p.pred + M.K12 p.pred + M.K21 p.pred ∧
    (p.advan4 Real.exp Real.sqrt trunc M tfrom tto).state.alpha.getD 0 0
        * (p.advan4 Real.exp Real.sqrt trunc M tfrom tto).state.alpha.getD 1 0
      = M.K10 p.pred * M.K21 p.pred ∧
    0 < (p.advan4 Real.exp Real.sqrt trunc M tfrom tto).state.alpha.getD 1 0 ∧
    (p.advan4 Real.exp Real.sqrt trunc M tfrom tto).state.alpha.getD 1 0
      < (p.advan4 Real.exp Real.sqrt trunc M tfrom tto).state.alpha.getD 0 0 ∧
    (p.advan4 Real.exp Real.sqrt trunc M tfrom tto).state.alpha.getD 1 0
      - (p.advan4 Real.exp Real.sqrt trunc M tfrom tto).state.alpha.getD 0 0 ≠ 0 ∧
    (p.advan4 Real.exp Real.sqrt trunc M tfrom tto).state.alpha.getD 0 0 ≠ 0 ∧
    (p.advan4 Real.exp Real.sqrt trunc M tfrom tto).state.alpha.getD 1 0 ≠ 0 := by
  obtain ⟨hf, ha⟩ := advan4_valid_completes Real.exp Real.sqrt trunc M p tfrom tto
    (not_le.mpr hVC) (not_le.mpr hVP) (not_lt.mpr hQ) (not_le.mpr hCL)
  rw [ha]
  set k10 := M.K10 p.pred
  set k12 := M.K12 p.pred
  set k21 := M.K21 p.pred
  set disc := (k10 + k12 + k21) * (k10 + k12 + k21) - 4 * k10 * k21 with hdisc
  have h0 : (advan4_alpha Real.sqrt (M.KA p.pred) k10 k12 k21 p.alpha).getD 0 0
      = (k10 + k12 + k21 + Real.sqrt disc) / 2 := by
    unfold advan4_alpha
    dsimp only
    rw [getD_set_other _ 2 0 _ _ (by decide), getD_set_other _ 1 0 _ _ (by decide),
      getD_set_same _ _ _ _ (by omega)]
  have h1 : (advan4_alpha Real.sqrt (M.KA p.pred) k10 k12 k21 p.alpha).getD 1 0
      = (k10 + k12 + k21 - Real.sqrt disc) / 2 := by
    unfold advan4_alpha
    dsimp only
    rw [getD_set_other _ 2 1 _ _ (by decide), getD_set_same _ _ _ _ (by simp; omega)]
  rw [h0, h1]
  have hd : 0 < disc := by
    rw [hdisc]
    nlinarith [sq_nonneg (k10 + k12 - k21), mul_pos h12 h21]
  have hs : 0 < Real.sqrt disc := Real.sqrt_pos.mpr hd
  have hss : Real.sqrt disc * Real.sqrt disc = disc := Real.mul_self_sqrt (le_of_lt hd)
  have hsum : 0 < k10 + k12 + k21 := by linarith
  have hlt : Real.sqrt disc < k10 + k12 + k21 := by
    by_contra hge
    have hge2 : k10 + k12 + k21 ≤ Real.sqrt disc := not_lt.mp hge
    have := mul_le_mul hge2 hge2 (le_of_lt hsum) (le_of_lt hs)
    have h4 : 0 < 4 * k10 * k21 := by positivity
    rw [hss, hdisc] at this
    linarith
  refine ⟨hf, hd, by ring, ?_, by linarith, by linarith, by
    intro h
    linarith, by
    intro h
    linarith, by
    intro h
    linarith⟩
  have : (k10 + k12 + k21 + Real.sqrt disc) / 2 * ((k10 + k12 + k21 - Real.sqrt disc) / 2)
      = ((k10 + k12 + k21) * (k10 + k12 + k21) - Real.sqrt disc * Real.sqrt disc) / 4 := by
    ring
  rw [this, hss, hdisc]
  ring

/-- Witness of C19: `CL = 1`, `VC = VP = 10`, `Q = 1`, that is
`k10 = k12 = k21 = 0.1`. -/
theorem advan4_exponents_are_roots_witness :
    0 < ((twoCmtProblem (100 : ℝ) 1).advan4 Real.exp Real.sqrt id ratioMacros 0
          1).state.alpha.getD 1 0 ∧
    ((twoCmtProblem (100 : ℝ) 1).advan4 Real.exp Real.sqrt id ratioMacros 0
          1).state.alpha.getD 1 0
      < ((twoCmtProblem (100 : ℝ) 1).advan4 Real.exp Real.sqrt id ratioMacros 0
          1).state.alpha.getD 0 0 := by
  have h := advan4_exponents_are_roots id ratioMacros (twoCmtProblem (100 : ℝ) 1) 0 1
    (by simp [ratioMacros, twoCmtProblem]) (by simp [ratioMacros, twoCmtProblem])
    (by simp [ratioMacros, twoCmtProblem]) (by simp [ratioMacros, twoCmtProblem])
    (by simp [twoCmtProblem, odeproblem.y_init, odeproblem.advan])
    (by simp [ratioMacros, twoCmtProblem]) (by simp [ratioMacros, twoCmtProblem])
    (by simp [ratioMacros, twoCmtProblem])
  exact ⟨h.2.2.2.2.1, h.2.2.2.2.2.1⟩

/-! ## C20 -/

section StepLemmas

/-- A bolus term of `PolyExp` with one exponential, for a dose `≥ 0`. -/
theorem PolyExp_bolus_one_nonneg [LinearOrderedField α] (exp trunc : α → α) (x dose : α)
    (a alpha : List α) (hx : 0 ≤ x) (hd : 0 ≤ dose) :
    PolyExp exp trunc x dose 0 0 0 false a alpha 1
      = .ok (dose * (a.getD 0 0 * exp (-alpha.getD 0 0 * x))) := by
  rcases lt_or_eq_of_le hd with h | h
  · exact PolyExp_bolus_one exp trunc x dose a alpha hx h
  · rw [← h, PolyExp_zero]
    simp

/-- An infusion term of `PolyExp` with one exponential that runs over the
whole step (`xinf = x`), for a rate `≥ 0`. -/
theorem PolyExp_infusion_one [LinearOrderedField α] (exp trunc : α → α) (x rate : α)
    (a alpha : List α) (hx : 0 ≤ x) :
    PolyExp exp trunc x 0 rate x 0 false a alpha 1
      = .ok (rate * (a.getD 0 0 * (1 - exp (-alpha.getD 0 0 * x)) / alpha.getD 0 0)) := by
  unfold PolyExp
  simp only [gt_iff_lt, lt_self_iff_false, if_false, mul_zero, zero_mul, le_refl, ge_iff_le,
    hx, if_true, Bool.not_false, forSum_one, zero_add]
  split_ifs <;> rfl

/-- One step of `advan2` for a one-compartment model with a constant
infusion. -/
theorem advan2_one_compartment_step (trunc : ℝ → ℝ) (M : PredMacros ℝ) (p : odeproblem ℝ)
    (tfrom tto A : ℝ) (hNeq : p.Neq = 1) (hY : p.Y = [A])
    (ha : 0 < p.a.length) (halpha : 0 < p.alpha.length)
    (hCL : 0 < M.CL p.pred) (hVC : 0 < M.VC p.pred) (hk : 0 < M.K10 p.pred)
    (hA : 0 ≤ A) (hdt : 0 ≤ tto - tfrom) :
    ∃ q, p.advan2 Real.exp trunc M tfrom tto = .done q ∧
      q.Neq = p.Neq ∧ q.pred = p.pred ∧ q.R0 = p.R0 ∧ 0 < q.a.length ∧ 0 < q.alpha.length ∧
      q.Y = [A * Real.exp (-(M.K10 p.pred) * (tto - tfrom))
              + p.R0.getD 0 0 * (1 - Real.exp (-(M.K10 p.pred) * (tto - tfrom)))
                / M.K10 p.pred] := by
  have hy : p.y 0 = A := by simp [odeproblem.y, hY]
  have hal : (((p.alpha.set 0 (M.K10 p.pred)).set 1 (M.KA p.pred)).getD 0 0)
      = M.K10 p.pred := by
    rw [getD_set_other _ 1 0 _ _ (by decide), getD_set_same _ _ _ _ halpha]
  unfold odeproblem.advan2
  simp only [not_le.mpr hCL, not_le.mpr hVC, not_le.mpr hk, if_false, hNeq]
  simp only [advan2_depot, show ¬ ((1 : Nat) = 2) by decide, if_false, if_true, hy]
  by_cases h0 : A ≠ 0 ∨ p.R0.getD (1 - 1) 0 ≠ 0
  · rw [if_pos h0, PolyExp_bolus_one_nonneg _ _ _ _ _ _ hdt hA,
      PolyExp_infusion_one _ _ _ _ _ _ hdt]
    dsimp only
    refine ⟨_, rfl, rfl, rfl, rfl, by simp [odeproblem.y_set, ha],
      by simp [odeproblem.y_set, halpha], ?_⟩
    simp only [odeproblem.y_set, hY, List.set_cons_zero, hal,
      getD_set_same _ _ _ _ (show 0 < ((p.a.set 0 _).set 1 _).length by simpa using ha)]
    simp
    ring
  · rw [if_neg h0]
    have hA0 : A = 0 := by
      by_contra h
      exact h0 (Or.inl h)
    have hR0 : p.R0.getD 0 0 = 0 := by
      by_contra h
      exact h0 (Or.inr h)
    refine ⟨_, rfl, rfl, rfl, rfl, by simp [odeproblem.y_set, ha],
      by simp [odeproblem.y_set, halpha], ?_⟩
    have hR0b : p.R0[0]?.getD 0 = 0 := by
      simpa [List.getD_eq_getElem?_getD] using hR0
    simp [odeproblem.y_set, hY, hA0, hR0b]

end StepLemmas

/-- C20: for a one-compartment model (`Neq = 1`, `CL > 0`, `VC > 0`,
`k10 > 0`) with an amount `A ≥ 0`, a constant infusion rate `R0[0] ≥ 0` and
times `t0 ≤ t1 ≤ t2`, `advan2` from `t0` to `t1` followed by `advan2` from
`t1` to `t2` leaves the same amount as `advan2` from `t0` to `t2`, namely
`A*exp(-k10*(t2-t0)) + R0[0]*(1 - exp(-k10*(t2-t0)))/k10`, in real
arithmetic. -/
theorem advan2_step_splitting (trunc : ℝ → ℝ) (M : PredMacros ℝ) (p : odeproblem ℝ)
    (t0 t1 t2 A : ℝ) (hNeq : p.Neq = 1) (hY : p.Y = [A])
    (ha : 0 < p.a.length) (halpha : 0 < p.alpha.length)
    (hCL : 0 < M.CL p.pred) (hVC : 0 < M.VC p.pred) (hk : 0 < M.K10 p.pred)
    (hA : 0 ≤ A) (hR : 0 ≤ p.R0.getD 0 0) (h01 : t0 ≤ t1) (h12 : t1 ≤ t2) :
    ∃ q1 q2 q, p.advan2 Real.exp trunc M t0 t1 = .done q1 ∧
      q1.advan2 Real.exp trunc M t1 t2 = .done q2 ∧
      p.advan2 Real.exp trunc M t0 t2 = .done q ∧
      q2.Y = q.Y ∧
      q.Y = [A * Real.exp (-(M.K10 p.pred) * (t2 - t0))
              + p.R0.getD 0 0 * (1 - Real.exp (-(M.K10 p.pred) * (t2 - t0)))
                / M.K10 p.pred] := by
  obtain ⟨q1, e1, n1, p1, r1, a1, al1, y1⟩ := advan2_one_compartment_step trunc M p t0 t1 A
    hNeq hY ha halpha hCL hVC hk hA (by linarith)
  obtain ⟨q, e, _, _, _, _, _, y⟩ := advan2_one_compartment_step trunc M p t0 t2 A
    hNeq hY ha halpha hCL hVC hk hA (by linarith)
  have hexp1 : Real.exp (-(M.K10 p.pred) * (t1 - t0)) ≤ 1 := by
    rw [Real.exp_le_one_iff]
    have : 0 ≤ M.K10 p.pred * (t1 - t0) := mul_nonneg (le_of_lt hk) (by linarith)
    linarith
  have hA1 : 0 ≤ A * Real.exp (-(M.K10 p.pred) * (t1 - t0))
      + p.R0.getD 0 0 * (1 - Real.exp (-(M.K10 p.pred) * (t1 - t0))) / M.K10 p.pred := by
    have h1 : 0 ≤ A * Real.exp (-(M.K10 p.pred) * (t1 - t0)) :=
      mul_nonneg hA (le_of_lt (Real.exp_pos _))
    have h2 : 0 ≤ p.R0.getD 0 0 * (1 - Real.exp (-(M.K10 p.pred) * (t1 - t0)))
        / M.K10 p.pred :=
      div_nonneg (mul_nonneg hR (by linarith)) (le_of_lt hk)
    linarith
  obtain ⟨q2, e2, _, _, _, _, _, y2⟩ := advan2_one_compartment_step trunc M q1 t1 t2 _
    (by rw [n1]; exact hNeq) y1 a1 al1 (by rw [p1]; exact hCL) (by rw [p1]; exact hVC)
    (by rw [p1]; exact hk) hA1 (by linarith)
  refine ⟨q1, q2, q, e1, e2, e, ?_, y⟩
  rw [y2, y, p1, r1]
  congr 1
  have hsplit : Real.exp (-(M.K10 p.pred) * (t2 - t0))
      = Real.exp (-(M.K10 p.pred) * (t1 - t0)) * Real.exp (-(M.K10 p.pred) * (t2 - t1)) := by
    rw [← Real.exp_add]
    congr 1
    ring
  rw [hsplit]
  have hk0 : M.K10 p.pred ≠ 0 := ne_of_gt hk
  field_simp
  ring

/-- Witness of C20: amount 100, `k10 = 0.1`, infusion rate 5, the step from 0
to 10 split at 4. -/
theorem advan2_step_splitting_witness :
    ∃ q1 q2 q,
      ({ oneCmtProblem (100 : ℝ) with R0 := [5] } : odeproblem ℝ).advan2 Real.exp id
        ratioMacros 0 4 = .done q1 ∧
      q1.advan2 Real.exp id ratioMacros 4 10 = .done q2 ∧
      ({ oneCmtProblem (100 : ℝ) with R0 := [5] } : odeproblem ℝ).advan2 Real.exp id
        ratioMacros 0 10 = .done q ∧
      q2.Y = q.Y := by
  obtain ⟨q1, q2, q, e1, e2, e, h, _⟩ := advan2_step_splitting id ratioMacros
    ({ oneCmtProblem (100 : ℝ) with R0 := [5] } : odeproblem ℝ) 0 4 10 100
    rfl (by simp [oneCmtProblem, odeproblem.y_init, odeproblem.advan, odeproblem.construct])
    (by simp [oneCmtProblem, odeproblem.y_init, odeproblem.advan])
    (by simp [oneCmtProblem, odeproblem.y_init, odeproblem.advan])
    (by simp [oneCmtProblem, ratioMacros]) (by simp [oneCmtProblem, ratioMacros])
    (by simp [oneCmtProblem, ratioMacros]) (by norm_num) (by simp) (by norm_num)
    (by norm_num)
  exact ⟨q1, q2, q, e1, e2, e, h⟩

/-! ## C11 -/

section HistoryLemmas

/-- The scheduled dose of `lateRequest`, requested while a record at a time
`tto ≤ 5` is processed. -/
theorem mtime_event_scheduled_dose (j : Nat) (tto : ℚ) (st : MtimeState ℚ) (htto : tto ≤ 5) :
    DEVTRAN_mtime_event (fun _ q => .ok q) id 1 j tto
        { time := 5, evid := 1, amt := 100, cmt := 1, now := false } st
      = if CompEqual st.mtimehx 5 1 1 = true then .ok st
        else .ok { st with
          recs := (st.recs ++ [(eventRecord 1 1 100 5 0).phantom_rec]).take (j + 1)
            ++ (st.recs ++ [(eventRecord 1 1 100 5 0).phantom_rec]).drop (j + 1)
          mtimehx := st.mtimehx ++ [(eventRecord 1 1 100 5 0).phantom_rec] } := by
  unfold DEVTRAN_mtime_event
  dsimp only
  rw [if_neg (not_lt.mpr htto)]
  have hr : ¬ ((1 : Nat) ≠ 0 ∧ (1 : Nat) ≠ 0 ∧
      ((1 : Int) = 0 ∨ int_abs (1 : Int) > ((1 : Nat) : Int))) := by
    decide
  rw [if_neg hr]
  cases h : CompEqual st.mtimehx 5 1 1 <;> simp

theorem mtime_block_one_event [LinearOrderedField α]
    (implement : datarecord α → odeproblem α → Except String (odeproblem α))
    (sortRecs : List (datarecord α) → List (datarecord α))
    (neq j : Nat) (tto : α) (ev : evdata α) (st : MtimeState α) :
    DEVTRAN_mtime_block implement sortRecs neq j tto [ev] st
      = DEVTRAN_mtime_event implement sortRecs neq j tto ev
          (if st.prob.newind ≤ 1 then { st with mtimehx := [] } else st) := by
  unfold DEVTRAN_mtime_block
  simp only [List.isEmpty_cons, Bool.false_eq_true, if_false, DEVTRAN_mtime_events]
  cases DEVTRAN_mtime_event implement sortRecs neq j tto ev
      (if st.prob.newind ≤ 1 then { st with mtimehx := [] } else st) <;> rfl

theorem mtime_block_no_event [LinearOrderedField α]
    (implement : datarecord α → odeproblem α → Except String (odeproblem α))
    (sortRecs : List (datarecord α) → List (datarecord α))
    (neq j : Nat) (tto : α) (st : MtimeState α) :
    DEVTRAN_mtime_block implement sortRecs neq j tto [] st = .ok st := rfl

theorem DEVTRAN_tto_no_floor [LinearOrderedField α] (tfrom time : α) :
    DEVTRAN_tto 0 tfrom time = time := by
  unfold DEVTRAN_tto
  dsimp only
  rw [if_neg]
  rintro ⟨h1, h2⟩
  exact absurd h1 (not_lt.mpr (le_of_lt h2))

theorem mtime_records_step [LinearOrderedField α]
    (implement : datarecord α → odeproblem α → Except String (odeproblem α))
    (sortRecs : List (datarecord α) → List (datarecord α))
    (neq : Nat) (mindt : α) (table : Nat → datarecord α → List (evdata α))
    (fuel j : Nat) (tfrom : α) (st st1 : MtimeState α) (r : datarecord α)
    (hr : st.recs[j]? = some r)
    (hb : DEVTRAN_mtime_block implement sortRecs neq j (DEVTRAN_tto mindt tfrom r.Time)
        (table j r)
        { st with prob := if j ≠ 0 then { st.prob with newind := 2 } else st.prob }
      = .ok st1) :
    DEVTRAN_mtime_records implement sortRecs neq mindt table (fuel + 1) j tfrom st
      = DEVTRAN_mtime_records implement sortRecs neq mindt table fuel (j + 1)
          (DEVTRAN_tto mindt tfrom r.Time) st1 := by
  rw [DEVTRAN_mtime_records]
  simp only [hr, hb]

theorem mtime_records_end [LinearOrderedField α]
    (implement : datarecord α → odeproblem α → Except String (odeproblem α))
    (sortRecs : List (datarecord α) → List (datarecord α))
    (neq : Nat) (mindt : α) (table : Nat → datarecord α → List (evdata α))
    (fuel j : Nat) (tfrom : α) (st : MtimeState α) (hr : st.recs[j]? = none) :
    DEVTRAN_mtime_records implement sortRecs neq mindt table (fuel + 1) j tfrom st
      = some (.ok st) := by
  rw [DEVTRAN_mtime_records]
  simp only [hr]

theorem CompEqual_scheduled_dose :
    CompEqual [(eventRecord 1 1 (100 : ℚ) 5 0).phantom_rec] 5 1 1 = true := by
  simp [CompEqual, eventRecord, datarecord.phantom_rec]

/-- A subject that requests the dose with its first record: the history is
cleared and the dose is inserted. -/
theorem mtime_records_early (p : odeproblem ℚ) (hx : List (datarecord ℚ))
    (t : Nat → datarecord ℚ → List (evdata ℚ)) (hp : p.newind ≤ 1)
    (h0 : t 0 (observation 0)
      = [{ time := 5, evid := 1, amt := 100, cmt := 1, now := false }])
    (h1 : t 1 (observation 1) = [])
    (h2 : t 2 (eventRecord 1 1 100 5 0).phantom_rec = []) :
    DEVTRAN_mtime_records (fun _ q => .ok q) id 1 0 t 10 0 0
        { prob := p, recs := [observation 0, observation 1], mtimehx := hx }
      = some (.ok { prob := { p with newind := 2 }
                    recs := [observation 0, observation 1,
                      (eventRecord 1 1 100 5 0).phantom_rec]
                    mtimehx := [(eventRecord 1 1 100 5 0).phantom_rec] }) := by
  have e0 : DEVTRAN_mtime_block (fun _ q => .ok q) id 1 0
      (DEVTRAN_tto 0 0 (observation (0 : ℚ)).Time) (t 0 (observation 0))
      { ({ prob := p, recs := [observation 0, observation 1], mtimehx := hx } : MtimeState ℚ)
          with prob := if 0 ≠ 0 then { p with newind := 2 } else p }
      = .ok { prob := p
              recs := [observation 0, observation 1, (eventRecord 1 1 100 5 0).phantom_rec]
              mtimehx := [(eventRecord 1 1 100 5 0).phantom_rec] } := by
    rw [h0, mtime_block_one_event, DEVTRAN_tto_no_floor,
      mtime_event_scheduled_dose _ _ _ (by norm_num [observation])]
    simp [hp, CompEqual]
  have e1 : DEVTRAN_mtime_block (fun _ q => .ok q) id 1 1
      (DEVTRAN_tto 0 (DEVTRAN_tto 0 0 (observation (0 : ℚ)).Time) (observation (1 : ℚ)).Time)
      (t 1 (observation 1))
      { ({ prob := p
           recs := [observation 0, observation 1, (eventRecord 1 1 100 5 0).phantom_rec]
           mtimehx := [(eventRecord 1 1 100 5 0).phantom_rec] } : MtimeState ℚ)
          with prob := if 1 ≠ 0 then { p with newind := 2 } else p }
      = .ok { prob := { p with newind := 2 }
              recs := [observation 0, observation 1, (eventRecord 1 1 100 5 0).phantom_rec]
              mtimehx := [(eventRecord 1 1 100 5 0).phantom_rec] } := by
    rw [h1, mtime_block_no_event]
    simp
  have e2 : DEVTRAN_mtime_block (fun _ q => .ok q) id 1 2
      (DEVTRAN_tto 0
        (DEVTRAN_tto 0 (DEVTRAN_tto 0 0 (observation (0 : ℚ)).Time) (observation (1 : ℚ)).Time)
        ((eventRecord 1 1 (100 : ℚ) 5 0).phantom_rec).Time)
      (t 2 (eventRecord 1 1 100 5 0).phantom_rec)
      { ({ prob := { p with newind := 2 }
           recs := [observation 0, observation 1, (eventRecord 1 1 100 5 0).phantom_rec]
           mtimehx := [(eventRecord 1 1 100 5 0).phantom_rec] } : MtimeState ℚ)
          with prob := if 2 ≠ 0 then { ({ p with newind := 2 } : odeproblem ℚ) with newind := 2 }
            else { p with newind := 2 } }
      = .ok { prob := { p with newind := 2 }
              recs := [observation 0, observation 1, (eventRecord 1 1 100 5 0).phantom_rec]
              mtimehx := [(eventRecord 1 1 100 5 0).phantom_rec] } := by
    rw [h2, mtime_block_no_event]
    simp
  rw [mtime_records_step _ _ _ _ _ 9 0 0 _ _ (observation 0) (by rfl) e0,
    mtime_records_step _ _ _ _ _ 8 1 _ _ _ (observation 1) (by rfl) e1,
    mtime_records_step _ _ _ _ _ 7 2 _ _ _ (eventRecord 1 1 100 5 0).phantom_rec (by rfl) e2,
    mtime_records_end _ _ _ _ _ 6 3 _ _ (by rfl)]

/-- A subject that requests the dose with its second record while the
history still holds that dose: nothing is inserted. -/
theorem mtime_records_late (p : odeproblem ℚ)
    (t : Nat → datarecord ℚ → List (evdata ℚ))
    (h0 : t 0 (observation 0) = [])
    (h1 : t 1 (observation 1)
      = [{ time := 5, evid := 1, amt := 100, cmt := 1, now := false }]) :
    DEVTRAN_mtime_records (fun _ q => .ok q) id 1 0 t 10 0 0
        { prob := p, recs := [observation 0, observation 1]
          mtimehx := [(eventRecord 1 1 100 5 0).phantom_rec] }
      = some (.ok { prob := { p with newind := 2 }
                    recs := [observation 0, observation 1]
                    mtimehx := [(eventRecord 1 1 100 5 0).phantom_rec] }) := by
  have e0 : DEVTRAN_mtime_block (fun _ q => .ok q) id 1 0
      (DEVTRAN_tto 0 0 (observation (0 : ℚ)).Time) (t 0 (observation 0))
      { ({ prob := p, recs := [observation 0, observation 1]
           mtimehx := [(eventRecord 1 1 100 5 0).phantom_rec] } : MtimeState ℚ)
          with prob := if 0 ≠ 0 then { p with newind := 2 } else p }
      = .ok { prob := p
              recs := [observation 0, observation 1]
              mtimehx := [(eventRecord 1 1 100 5 0).phantom_rec] } := by
    rw [h0, mtime_block_no_event]
    simp
  have e1 : DEVTRAN_mtime_block (fun _ q => .ok q) id 1 1
      (DEVTRAN_tto 0 (DEVTRAN_tto 0 0 (observation (0 : ℚ)).Time) (observation (1 : ℚ)).Time)
      (t 1 (observation 1))
      { ({ prob := p
           recs := [observation 0, observation 1]
           mtimehx := [(eventRecord 1 1 100 5 0).phantom_rec] } : MtimeState ℚ)
          with prob := if 1 ≠ 0 then { p with newind := 2 } else p }
      = .ok { prob := { p with newind := 2 }
              recs := [observation 0, observation 1]
              mtimehx := [(eventRecord 1 1 100 5 0).phantom_rec] } := by
    rw [h1, mtime_block_one_event, DEVTRAN_tto_no_floor,
      mtime_event_scheduled_dose _ _ _ (by norm_num [observation])]
    simp [CompEqual_scheduled_dose]
  rw [mtime_records_step _ _ _ _ _ 9 0 0 _ _ (observation 0) (by rfl) e0,
    mtime_records_step _ _ _ _ _ 8 1 _ _ _ (observation 1) (by rfl) e1,
    mtime_records_end _ _ _ _ _ 7 2 _ _ (by rfl)]

theorem mtime_subjects_cons [LinearOrderedField α]
    (implement : datarecord α → odeproblem α → Except String (odeproblem α))
    (sortRecs : List (datarecord α) → List (datarecord α))
    (neq : Nat) (mindt : α) (uid : Nat → α)
    (table : Nat → Nat → datarecord α → List (evdata α)) (fuel i : Nat)
    (recs : List (datarecord α)) (rest : List (List (datarecord α)))
    (prob : odeproblem α) (mtimehx : List (datarecord α)) (st : MtimeState α)
    (h : DEVTRAN_mtime_records implement sortRecs neq mindt (table i) fuel 0
        (match recs.head? with
          | some r => r.Time
          | none => 0)
        { prob := if i = 0 then { prob.reset_newid (uid i) with newind := 0 }
            else prob.reset_newid (uid i)
          recs := recs, mtimehx := mtimehx }
      = some (.ok st)) :
    finalSequences (DEVTRAN_mtime_subjects implement sortRecs neq mindt uid table fuel i
        (recs :: rest) prob mtimehx)
      = (finalSequences (DEVTRAN_mtime_subjects implement sortRecs neq mindt uid table fuel
          (i + 1) rest st.prob st.mtimehx)).map fun e => e.map fun l => st.recs :: l := by
  rw [DEVTRAN_mtime_subjects]
  simp only [h]
  rcases DEVTRAN_mtime_subjects implement sortRecs neq mindt uid table fuel
      (i + 1) rest st.prob st.mtimehx with _ | _ | ⟨r, q, l⟩ <;> rfl

end HistoryLemmas

/-- C11, evaluation at the failing input: two subjects with observations at
times 0 and 1 and a model that schedules a dose at time 5.  When the second
subject requests the dose with its second record, the history of the first
subject is still in place and the dose of the second subject is not
inserted; when it requests the dose with its first record, the dose is
inserted. -/
theorem mtime_history_survives_subject_change :
    finalSequences (DEVTRAN_mtime_subjects (fun _ q => .ok q) id 1 (0 : ℚ)
        (fun i => (i : ℚ)) (lateRequest 1) 10 0
        [[observation 0, observation 1], [observation 0, observation 1]]
        (odeproblem.construct 0 [0] 0) [])
      = some (.ok [[observation 0, observation 1, (eventRecord 1 1 100 5 0).phantom_rec],
                   [observation 0, observation 1]]) ∧
    finalSequences (DEVTRAN_mtime_subjects (fun _ q => .ok q) id 1 (0 : ℚ)
        (fun i => (i : ℚ)) (lateRequest 0) 10 0
        [[observation 0, observation 1], [observation 0, observation 1]]
        (odeproblem.construct 0 [0] 0) [])
      = some (.ok [[observation 0, observation 1, (eventRecord 1 1 100 5 0).phantom_rec],
                   [observation 0, observation 1,
                     (eventRecord 1 1 100 5 0).phantom_rec]]) := by
  constructor
  · rw [mtime_subjects_cons _ _ _ _ _ _ 10 0 _ _ _ _ _
        (mtime_records_early _ [] (lateRequest 1 0) (by decide) rfl rfl rfl),
      mtime_subjects_cons _ _ _ _ _ _ 10 1 _ _ _ _ _
        (mtime_records_late _ (lateRequest 1 1) rfl rfl)]
    rfl
  · rw [mtime_subjects_cons _ _ _ _ _ _ 10 0 _ _ _ _ _
        (mtime_records_early _ [] (lateRequest 0 0) (by decide) rfl rfl rfl),
      mtime_subjects_cons _ _ _ _ _ _ 10 1 _ _ _ _ _
        (mtime_records_early _ _ (lateRequest 0 1) (by decide) rfl rfl rfl)]
    rfl

/-! ## C21 -/

section TofdLemmas

theorem filterMap_length_all {β γ : Type} (f : β → Option γ) (l : List β)
    (h : (l.filterMap f).length = l.length) : ∀ x, x ∈ l → (f x).isSome = true := by
  induction l with
  | nil =>
    intro x hx
    cases hx
  | cons y ys ih =>
    intro x hx
    cases hy : f y with
    | none =>
      rw [List.filterMap_cons_none hy] at h
      have := List.length_filterMap_le f ys
      simp only [List.length_cons] at h
      omega
    | some b =>
      rw [List.filterMap_cons_some hy] at h
      simp only [List.length_cons, Nat.add_right_cancel_iff] at h
      rcases List.mem_cons.mp hx with hx | hx
      · rw [hx, hy]
        rfl
      · exact ih h x hx

theorem filterMap_all_some {β γ : Type} (f : β → Option γ) (l : List β)
    (h : ∀ x, x ∈ l → (f x).isSome = true) :
    (l.filterMap f).length = l.length ∧
      ∀ (i : Nat) (x : β), l[i]? = some x → (l.filterMap f)[i]? = f x := by
  induction l with
  | nil =>
    refine ⟨rfl, fun i x hx => ?_⟩
    simp at hx
  | cons y ys ih =>
    obtain ⟨b, hb⟩ := Option.isSome_iff_exists.mp (h y (List.mem_cons_self _ _))
    obtain ⟨ih1, ih2⟩ := ih fun x hx => h x (List.mem_cons_of_mem _ hx)
    rw [List.filterMap_cons_some hb]
    refine ⟨by simp [ih1], fun i x hx => ?_⟩
    cases i with
    | zero =>
      simp only [List.getElem?_cons_zero, Option.some.injEq] at hx
      rw [← hx, hb]
      simp
    | succ n =>
      simp only [List.getElem?_cons_succ] at hx
      simpa using ih2 n x hx

/-- The inner loop of lines 184-189 finds nothing in a sequence without a
dose record. -/
theorem tofd_first_dose_none (recs : List (datarecord α)) (h : hasDose recs = false) :
    ((recs.find? fun r => decide (r.Evid = 1)).map fun r => r.Time) = none := by
  rw [Option.map_eq_none', List.find?_eq_none]
  intro x hx hp
  have : hasDose recs = true := List.any_eq_true.mpr ⟨x, hx, hp⟩
  rw [h] at this
  cases this

/-- The inner loop of lines 184-189 stops at the first dose record of the
sequence. -/
theorem tofd_first_dose_some (recs : List (datarecord α)) (h : hasDose recs = true) :
    ∃ pre r post, recs = pre ++ r :: post ∧ (∀ q, q ∈ pre → q.Evid ≠ 1) ∧ r.Evid = 1 ∧
      ((recs.find? fun r => decide (r.Evid = 1)).map fun r => r.Time) = some r.Time := by
  obtain ⟨x, hx, hp⟩ := List.any_eq_true.mp h
  have hs : (recs.find? fun r => decide (r.Evid = 1)).isSome = true :=
    List.find?_isSome.mpr ⟨x, hx, hp⟩
  obtain ⟨r, hr⟩ := Option.isSome_iff_exists.mp hs
  obtain ⟨h1, pre, post, h2, h3⟩ := List.find?_eq_some.mp hr
  refine ⟨pre, r, post, h2, fun q hq => ?_, of_decide_eq_true h1, by rw [hr]; rfl⟩
  have := h3 q hq
  simpa using this

variable [LinearOrderedField α]

/-- The three outcomes of lines 181-199 with `tad` enabled. -/
theorem DEVTRAN_tofd_cases (a : List (List (datarecord α))) :
    ((∀ recs, recs ∈ a → hasDose recs = false) ∧
        DEVTRAN_tofd true a = .ok (List.replicate a.length 0)) ∨
    ((∃ recs, recs ∈ a ∧ hasDose recs = true) ∧ (∀ recs, recs ∈ a → hasDose recs = true) ∧
        ∃ tofd, DEVTRAN_tofd true a = .ok tofd ∧ tofd.length = a.length ∧
          ∀ (i : Nat) (recs : List (datarecord α)), a[i]? = some recs →
            ∃ pre r post, recs = pre ++ r :: post ∧ (∀ q, q ∈ pre → q.Evid ≠ 1) ∧
              r.Evid = 1 ∧ tofd[i]? = some r.Time) ∨
    ((∃ recs, recs ∈ a ∧ hasDose recs = true) ∧ (∃ recs, recs ∈ a ∧ hasDose recs = false) ∧
        DEVTRAN_tofd true a = .error "There was a problem finding time of first dose.") := by
  by_cases h0 : ∀ recs, recs ∈ a → hasDose recs = false
  · left
    refine ⟨h0, ?_⟩
    have hf : (a.filterMap fun recs =>
        (recs.find? fun r => decide (r.Evid = 1)).map fun r => r.Time) = [] :=
      List.filterMap_eq_nil_iff.mpr fun x hx => tofd_first_dose_none x (h0 x hx)
    unfold DEVTRAN_tofd
    simp [hf]
  · right
    have h0e : ∃ recs, recs ∈ a ∧ hasDose recs = true := by
      by_contra hc
      apply h0
      intro recs hr
      cases hd : hasDose recs
      · rfl
      · exact absurd ⟨recs, hr, hd⟩ hc
    have hne : (a.filterMap fun recs =>
        (recs.find? fun r => decide (r.Evid = 1)).map fun r => r.Time).length ≠ 0 := by
      intro hl
      obtain ⟨recs, hr, hd⟩ := h0e
      have hn := List.filterMap_eq_nil_iff.mp (List.length_eq_zero.mp hl) recs hr
      obtain ⟨_, r, _, _, _, _, hs⟩ := tofd_first_dose_some recs hd
      rw [hn] at hs
      cases hs
    by_cases h1 : ∀ recs, recs ∈ a → hasDose recs = true
    · left
      refine ⟨h0e, h1, ?_⟩
      obtain ⟨hlen, hget⟩ := filterMap_all_some
        (fun recs : List (datarecord α) =>
          (recs.find? fun r : datarecord α => decide (r.Evid = 1)).map
            fun r : datarecord α => r.Time) a
        (fun recs hr => by
          obtain ⟨_, r, _, _, _, _, hs⟩ := tofd_first_dose_some recs (h1 recs hr)
          dsimp only
          rw [hs]
          rfl)
      refine ⟨_, ?_, hlen, fun i recs hi => ?_⟩
      · unfold DEVTRAN_tofd
        dsimp only
        rw [if_pos rfl, if_neg hne, if_neg (not_not.mpr hlen)]
      · obtain ⟨pre, r, post, e1, e2, e3, hs⟩ :=
          tofd_first_dose_some recs (h1 recs (List.getElem?_mem hi))
        exact ⟨pre, r, post, e1, e2, e3, by rw [hget i recs hi, hs]⟩
    · right
      have h1e : ∃ recs, recs ∈ a ∧ hasDose recs = false := by
        by_contra hc
        apply h1
        intro recs hr
        cases hd : hasDose recs
        · exact absurd ⟨recs, hr, hd⟩ hc
        · rfl
      refine ⟨h0e, h1e, ?_⟩
      have hlen : (a.filterMap fun recs =>
          (recs.find? fun r => decide (r.Evid = 1)).map fun r => r.Time).length
            ≠ a.length := by
        intro hl
        obtain ⟨recs, hr, hd⟩ := h1e
        have hs := filterMap_length_all _ a hl recs hr
        rw [tofd_first_dose_none recs hd] at hs
        cases hs
      unfold DEVTRAN_tofd
      dsimp only
      rw [if_pos rfl, if_neg hne, if_pos hlen]

/-- The table that a successful setup hands to the loop over the subjects is
the one built at lines 181-199. -/
theorem DEVTRAN_setup_tofd (sortRecs : List (datarecord α) → List (datarecord α))
    (inp : SetupInput α) (d : SetupData α)
    (h : (DEVTRAN_setup sortRecs inp).result = .value d) :
    DEVTRAN_tofd inp.tad inp.a = .ok d.tofd := by
  unfold DEVTRAN_setup at h
  dsimp only at h
  split at h
  · cases h
  · split at h
    · cases h
    · rename_i tofd ht
      split at h
      · cases h
      · cases h
      · simp only [Run.value.injEq] at h
        subst h
        exact ht

/-- Only lines 181-199 raise the message about the time of the first dose. -/
theorem DEVTRAN_setup_tofd_fatal (sortRecs : List (datarecord α) → List (datarecord α))
    (inp : SetupInput α)
    (h : (DEVTRAN_setup sortRecs inp).result
      = .fatal "There was a problem finding time of first dose.") :
    DEVTRAN_tofd inp.tad inp.a = .error "There was a problem finding time of first dose." := by
  unfold DEVTRAN_setup at h
  dsimp only at h
  split at h
  · rename_i e he
    have h1 := (DEVTRAN_recsort_error _ _ he).1
    have h2 : e = "There was a problem finding time of first dose." := by
      injection h
    rw [h1] at h2
    exact absurd h2 (by decide)
  · split at h
    · rename_i e he
      have h2 : e = "There was a problem finding time of first dose." := by
        injection h
      rw [← h2]
      exact he
    · split at h
      · rename_i e he
        have h2 : e = "There was a problem finding time of first dose." := by
          injection h
        rcases DEVTRAN_grid_fatal _ _ _ _ _ he with h3 | h3 | h3 <;>
          · rw [h3] at h2
            exact absurd h2 (by decide)
      · cases h
      · cases h

/-- Past the switch on `recsort`, an error of lines 181-199 ends the setup. -/
theorem DEVTRAN_setup_tofd_error (sortRecs : List (datarecord α) → List (datarecord α))
    (inp : SetupInput α) (e : String)
    (hrs : inp.recsort = 1 ∨ inp.recsort = 2 ∨ inp.recsort = 3 ∨ inp.recsort = 4)
    (h : DEVTRAN_tofd inp.tad inp.a = .error e) :
    (DEVTRAN_setup sortRecs inp).result = .fatal e := by
  unfold DEVTRAN_setup
  rcases hrs with h1 | h1 | h1 | h1 <;> simp [h1, DEVTRAN_recsort, h]

/-- The bounds-checked `at` succeeds inside the vector. -/
theorem vecAt_in_range {β : Type} (v : List β) (i : Nat) (x : β) (h : v[i]? = some x) :
    vecAt v (i : Int) = .ok x := by
  unfold vecAt
  rw [if_neg (by omega)]
  simp only [Int.toNat_ofNat, h]

end TofdLemmas

/-- C21: with time after dose enabled, the table `tofd` built at setup is
zero for every subject if no subject has a record with `evid` 1; if every
subject has one, it holds for each subject the time of its first `evid`-1
record in sequence order; the setup (past the switch on `recsort`) fails with
"There was a problem finding time of first dose." if and only if at least
one but not all subjects have an `evid`-1 record; and on success the table
has one entry per subject, `tofd.at(i)` succeeds for every subject, and the
entry at index `i` is that of subject `i`. -/
theorem tofd_table_one_entry_per_subject [LinearOrderedField α]
    (sortRecs : List (datarecord α) → List (datarecord α)) (inp : SetupInput α)
    (htad : inp.tad = true) :
    ((∀ recs, recs ∈ inp.a → hasDose recs = false) →
      DEVTRAN_tofd inp.tad inp.a = .ok (List.replicate inp.a.length 0)) ∧
    ((∀ recs, recs ∈ inp.a → hasDose recs = true) →
      ∃ tofd, DEVTRAN_tofd inp.tad inp.a = .ok tofd ∧ tofd.length = inp.a.length ∧
        ∀ (i : Nat) (recs : List (datarecord α)), inp.a[i]? = some recs →
          ∃ pre r post, recs = pre ++ r :: post ∧ (∀ q, q ∈ pre → q.Evid ≠ 1) ∧
            r.Evid = 1 ∧ tofd[i]? = some r.Time) ∧
    (DEVTRAN_tofd inp.tad inp.a = .error "There was a problem finding time of first dose." ↔
      ((∃ recs, recs ∈ inp.a ∧ hasDose recs = true) ∧
        (∃ recs, recs ∈ inp.a ∧ hasDose recs = false))) ∧
    ((inp.recsort = 1 ∨ inp.recsort = 2 ∨ inp.recsort = 3 ∨ inp.recsort = 4) →
      ((DEVTRAN_setup sortRecs inp).result
          = .fatal "There was a problem finding time of first dose." ↔
        ((∃ recs, recs ∈ inp.a ∧ hasDose recs = true) ∧
          (∃ recs, recs ∈ inp.a ∧ hasDose recs = false)))) ∧
    (∀ d, (DEVTRAN_setup sortRecs inp).result = .value d →
      d.tofd.length = inp.a.length ∧
      ∀ (i : Nat) (recs : List (datarecord α)), inp.a[i]? = some recs →
        ∃ t, vecAt d.tofd (i : Int) = .ok t ∧
          if hasDose recs = true then
            ∃ pre r post, recs = pre ++ r :: post ∧ (∀ q, q ∈ pre → q.Evid ≠ 1) ∧
              r.Evid = 1 ∧ t = r.Time
          else t = 0) := by
  have hfatal := DEVTRAN_setup_tofd_fatal sortRecs inp
  have herror := DEVTRAN_setup_tofd_error sortRecs inp
  have hvalue := DEVTRAN_setup_tofd sortRecs inp
  rw [htad] at hfatal herror hvalue ⊢
  have hc := DEVTRAN_tofd_cases inp.a
  have hiff : DEVTRAN_tofd true inp.a
        = .error "There was a problem finding time of first dose." ↔
      ((∃ recs, recs ∈ inp.a ∧ hasDose recs = true) ∧
        (∃ recs, recs ∈ inp.a ∧ hasDose recs = false)) := by
    constructor
    · intro h
      rcases hc with ⟨_, h1⟩ | ⟨_, _, tofd, h1, _⟩ | ⟨h1, h2, _⟩
      · rw [h1] at h
        cases h
      · rw [h1] at h
        cases h
      · exact ⟨h1, h2⟩
    · rintro ⟨⟨r1, m1, d1⟩, ⟨r2, m2, d2⟩⟩
      rcases hc with ⟨h0, _⟩ | ⟨_, h1, _⟩ | ⟨_, _, h⟩
      · rw [h0 r1 m1] at d1
        cases d1
      · rw [h1 r2 m2] at d2
        cases d2
      · exact h
  refine ⟨fun hA => ?_, fun hB => ?_, hiff, fun hrs => ⟨fun h => hiff.mp (hfatal h),
    fun h => herror _ hrs (hiff.mpr h)⟩, fun d hd => ?_⟩
  · rcases hc with ⟨_, h⟩ | ⟨⟨recs, hr, hd⟩, _⟩ | ⟨⟨recs, hr, hd⟩, _⟩
    · exact h
    · rw [hA recs hr] at hd
      cases hd
    · rw [hA recs hr] at hd
      cases hd
  · rcases hc with ⟨h0, h⟩ | ⟨_, _, h⟩ | ⟨_, ⟨recs, hr, hd⟩, _⟩
    · refine ⟨_, h, List.length_replicate _ _, fun i recs hi => ?_⟩
      have hm := List.getElem?_mem hi
      have h1 := h0 recs hm
      rw [hB recs hm] at h1
      cases h1
    · exact h
    · rw [hB recs hr] at hd
      cases hd
  · have ht := hvalue d hd
    rcases hc with ⟨h0, h⟩ | ⟨_, h1, tofd, h, hlen, hget⟩ | ⟨_, _, h⟩
    · rw [h] at ht
      injection ht with ht
      rw [← ht]
      refine ⟨List.length_replicate _ _, fun i recs hi => ⟨0, ?_, ?_⟩⟩
      · apply vecAt_in_range
        rw [List.getElem?_replicate, if_pos]
        exact (List.getElem?_eq_some.mp hi).1
      · rw [if_neg]
        rw [h0 recs (List.getElem?_mem hi)]
        exact Bool.false_ne_true
    · rw [h] at ht
      injection ht with ht
      rw [← ht]
      refine ⟨hlen, fun i recs hi => ?_⟩
      obtain ⟨pre, r, post, e1, e2, e3, e4⟩ := hget i recs hi
      refine ⟨r.Time, vecAt_in_range _ _ _ e4, ?_⟩
      rw [if_pos (h1 recs (List.getElem?_mem hi))]
      exact ⟨pre, r, post, e1, e2, e3, rfl⟩
    · rw [h] at ht
      cases ht

/-- Witness of C21: of two subjects only the first has a dose record, and the
setup fails. -/
theorem tofd_table_one_entry_per_subject_witness :
    (DEVTRAN_setup id
        (tofdInput [[inputDose 0 100 0 1], [observation 0]] : SetupInput ℚ)).result
      = .fatal "There was a problem finding time of first dose." :=
  ((tofd_table_one_entry_per_subject id
      (tofdInput [[inputDose 0 100 0 1], [observation 0]] : SetupInput ℚ) rfl).2.2.2.1
    (Or.inl rfl)).mpr
    ⟨⟨[inputDose 0 100 0 1], by simp [tofdInput], by simp [hasDose, inputDose]⟩,
      ⟨[observation 0], by simp [tofdInput], by simp [hasDose, observation]⟩⟩

end Mrgsolve
